import Mathlib

/-!
# A shallow embedding of the virtual processor (c++/src/processor.cpp)

The processor owns a flat byte memory, a register file of 64-bit slots and a `running`
flag.  Every member function of `Processor` becomes a state-passing function
`Processor → Outcome α`.  Unsigned machine integers are natural numbers reduced explicitly
modulo `2^w`; multi-byte values are read through the pointer casts of the source in
little-endian byte order (the byte order of the hosts the program is built for).

Three ways of leaving a function are kept apart:
* `Outcome.ok`        : normal return,
* `Outcome.fault`     : an exception propagates (the `throw` statements of the source, and
                        the failures of the collaborators described by the specification),
* `Outcome.undefined` : the source reaches an operation to which C++ gives no meaning
                        (unguarded integer division by zero, an index outside the register
                        array); the state is the one in which that operation is reached.
-/

namespace processor

/-! ## Data model -/

/-- Modelled from the spec: the enumeration `Registers` of processor.hh, which is not part
of the sources at hand.  The specification lists these eight identifiers and says that they
map to a dense integer range used as a direct index. -/
inductive Registers where
  | A
  | B
  | PROGRAM_COUNTER
  | STACK_POINTER
  | ZERO_FLAG
  | SIGN_FLAG
  | REMAINDER_FLAG
  | EXIT
  deriving DecidableEq, Repr

/-- Modelled from the spec: the numeric code of a register identifier (dense, from zero, in
the order in which the specification lists the identifiers). -/
def Registers.toByte : Registers → Nat
  | .A => 0
  | .B => 1
  | .PROGRAM_COUNTER => 2
  | .STACK_POINTER => 3
  | .ZERO_FLAG => 4
  | .SIGN_FLAG => 5
  | .REMAINDER_FLAG => 6
  | .EXIT => 7

/-- Modelled from the spec: `static_cast<Registers>(byte)` followed by the indexing of
`getRegister`.  A byte that is the code of an identifier designates its slot; any other byte
indexes outside the register array (one slot per identifier) and yields `none`. -/
def Registers.ofByte : Nat → Option Registers
  | 0 => some .A
  | 1 => some .B
  | 2 => some .PROGRAM_COUNTER
  | 3 => some .STACK_POINTER
  | 4 => some .ZERO_FLAG
  | 5 => some .SIGN_FLAG
  | 6 => some .REMAINDER_FLAG
  | 7 => some .EXIT
  | _ => none

/-- The fault kinds of the specification.  In the source at hand `InvalidOperandSize` is
the `std::runtime_error("Invalid size: ...")` of the width switches; `MemoryFault` and
`UnknownOpcode` come from the collaborators modelled from the specification; no statement
of the source raises `DivideByZero`. -/
inductive Fault where
  | MemoryFault
  | InvalidOperandSize
  | UnknownOpcode
  | DivideByZero
  deriving DecidableEq, Repr

/-- Modelled from the spec: the class `Memory` (its sources are not at hand).  A flat byte
buffer of fixed capacity `size`; `data a` is the content of the cell at offset `a`, read
as a byte through `Memory.byteAt`.  The offsets from `size` on stand for what lies behind
the buffer, which a raw pointer obtained from the buffer can reach. -/
structure Memory where
  size : Nat
  data : Nat → Nat

/-- The state of a `Processor` object: its memory, its register file (one 64-bit slot per
identifier) and the `running` flag. -/
structure Processor where
  memory : Memory
  registers : Registers → Nat
  running : Bool

/-- The byte stored at offset `a` (a cell holds eight bits). -/
def Memory.byteAt (m : Memory) (a : Nat) : Nat := m.data a % 256

/-- Modelled from the spec: `Memory::Memory(size)`, a buffer of `size` bytes, taken here to
be zero-filled. -/
def Memory.new (size : Nat) : Memory := { size := size, data := fun _ => 0 }

/-- The constructor `Processor::Processor(memorySize)`: registers start at zero and
`running` starts false. -/
def Processor.new (memorySize : Nat) : Processor :=
  { memory := Memory.new memorySize, registers := fun _ => 0, running := false }

/-- Modelled from the spec: `Memory::getByte(address)`, failing with `MemoryFault` when the
address is out of bounds. -/
def Memory.getByte (m : Memory) (address : Nat) : Except Fault Nat :=
  if address < m.size then .ok (m.byteAt address) else .error .MemoryFault

/-- Modelled from the spec: `Memory::getBytes(address, size)`.  The result is the pointer
to the first of the `size` bytes, represented by its offset; `MemoryFault` when
`address + size` exceeds the capacity. -/
def Memory.getBytes (m : Memory) (address size : Nat) : Except Fault Nat :=
  if address + size ≤ m.size then .ok address else .error .MemoryFault

/-- Modelled from the spec: `Memory::getBytesMutable(address)`, the writable counterpart of
`getBytes`; the result is the pointer, represented by its offset.  The specification
describes a view of `size` bytes with the bound `address + size ≤ capacity`, while every
call in `processor.cpp` passes the address alone.  This definition is an assumption of the
development: it applies the bound to the one byte at `address`, the least that an access
of any width needs.  It agrees with the bound of the specification whenever
`address + size ≤ capacity`; what is proved about the bounds decision itself is stated
for an arbitrary function in the place of this one (the handlers named `_over`). -/
def Memory.getBytesMutable (m : Memory) (address : Nat) : Except Fault Nat :=
  if address < m.size then .ok address else .error .MemoryFault

/-- Modelled from the spec: `Memory::setBytes(address, bytes, size)` copies `size` bytes
starting at `address`; `MemoryFault` when out of bounds, with no partial write. -/
def Memory.setBytes (m : Memory) (address : Nat) (bytes : List Nat) (size : Nat) :
    Except Fault Memory :=
  if address + size ≤ m.size then
    .ok { m with data := fun a =>
            if address ≤ a ∧ a < address + size then bytes.getD (a - address) 0 % 256
            else m.data a }
  else .error .MemoryFault

/-- The `size` bytes a `const Byte*` result designates (pointer `p`, as an offset). -/
def Memory.view (m : Memory) (p size : Nat) : List Nat :=
  (List.range size).map (fun i => m.byteAt (p + i))

/-- The value `*bytesToUintN(bytes)` for `N = 8 * w`: the `w` bytes at pointer `p` read as
one unsigned integer, least significant byte first. -/
def Memory.readUint (m : Memory) (p : Nat) : Nat → Nat
  | 0 => 0
  | w + 1 => m.byteAt p + 256 * m.readUint (p + 1) w

/-- The assignment `*bytesToUintN(bytes) = v` for `N = 8 * w`: the low `w` bytes of `v` are
stored at pointer `p`, least significant byte first. -/
def Memory.writeUint (m : Memory) (p w v : Nat) : Memory :=
  { m with data := fun a =>
      if p ≤ a ∧ a < p + w then (v / 256 ^ (a - p)) % 256 else m.data a }

/-! ## Outcomes and sequencing -/

/-- The result of running a member function from a given state. -/
inductive Outcome (α : Type) where
  | ok (value : α) (state : Processor)
  | fault (kind : Fault) (state : Processor)
  | undefined (state : Processor)

/-- The state in which a call ends, whichever way it ends. -/
def Outcome.state {α : Type} : Outcome α → Processor
  | .ok _ s => s
  | .fault _ s => s
  | .undefined s => s

/-- The fault a call ends with, if it ends with one. -/
def Outcome.faultKind {α : Type} : Outcome α → Option Fault
  | .fault k _ => some k
  | _ => none

/-- Whether a call returns normally. -/
def Outcome.isOk {α : Type} : Outcome α → Bool
  | .ok _ _ => true
  | _ => false

/-- Whether a call reaches undefined behaviour. -/
def Outcome.isUndefined {α : Type} : Outcome α → Bool
  | .undefined _ => true
  | _ => false

/-- A member function of `Processor` producing an `α`. -/
abbrev Exec (α : Type) : Type := Processor → Outcome α

/-- Normal return of a value. -/
def Exec.pure {α : Type} (a : α) : Exec α := fun s => .ok a s

/-- Sequencing of two statements: a fault or an undefined operation in the first ends the
call, the state being the one reached so far. -/
def Exec.bind {α β : Type} (m : Exec α) (f : α → Exec β) : Exec β := fun s =>
  match m s with
  | .ok a s1 => f a s1
  | .fault k s1 => .fault k s1
  | .undefined s1 => .undefined s1

instance : Monad Exec where
  pure := Exec.pure
  bind := Exec.bind

/-- The statement `throw`. -/
def throwFault {α : Type} (k : Fault) : Exec α := fun s => .fault k s

/-- An operation to which C++ gives no meaning. -/
def undefinedBehaviour {α : Type} : Exec α := fun s => .undefined s

/-- A read-only call on the memory of the processor. -/
def readMemory {α : Type} (f : Memory → Except Fault α) : Exec α := fun s =>
  match f s.memory with
  | .ok a => .ok a s
  | .error k => .fault k s

/-- A mutating call on the memory of the processor. -/
def updateMemory (f : Memory → Except Fault Memory) : Exec Unit := fun s =>
  match f s.memory with
  | .ok m => .ok () { s with memory := m }
  | .error k => .fault k s

/-! ## Machine integers -/

/-- Reduction of an integer to an unsigned 64-bit value. -/
def wrap64 (i : Int) : Nat := (i % 18446744073709551616).toNat

/-- Reduction of an integer to an unsigned value of `w` bytes. -/
def wrapBytes (w : Nat) (i : Int) : Nat := (i % ((256 : Int) ^ w)).toNat

/-- The conversion of a `uint64` to `int64` (two's complement). -/
def toInt64 (n : Nat) : Int :=
  if n % 18446744073709551616 < 9223372036854775808 then ((n % 18446744073709551616 : Nat) : Int)
  else ((n % 18446744073709551616 : Nat) : Int) - 18446744073709551616

/-- The value of a C++ `bool` stored in a register. -/
def boolToNat (b : Bool) : Nat := if b then 1 else 0

/-! ## Register access -/

/-- A read through `*getRegister(reg)`. -/
def getRegister (reg : Registers) : Exec Nat := fun s => .ok (s.registers reg) s

/-- A write through `*getRegister(reg) = v`. -/
def setRegister (reg : Registers) (v : Nat) : Exec Unit := fun s =>
  .ok () { s with registers := fun r => if r = reg then v else s.registers r }

/-- A value of type `Registers` obtained by `static_cast<Registers>(byte)` from an operand
byte: an enumerator, or `none` for a byte that is the code of no enumerator. -/
abbrev RegisterOperand : Type := Option Registers

/-- A read through `*getRegister(reg)` for a register taken from an operand byte; a value
that is no enumerator indexes outside the register array. -/
def getRegisterAt (reg : RegisterOperand) : Exec Nat :=
  match reg with
  | some r => getRegister r
  | none => undefinedBehaviour

/-- A write through `*getRegister(reg) = v` for a register taken from an operand byte. -/
def setRegisterAt (reg : RegisterOperand) (v : Nat) : Exec Unit :=
  match reg with
  | some r => setRegister r v
  | none => undefinedBehaviour

/-- The function `Processor::clearVolatileRegisters`. -/
def clearVolatileRegisters : Exec Unit :=
  setRegister .EXIT 0

/-- The function `Processor::setArithmeticalFlags(int64 result, uint64 remainder)`. -/
def setArithmeticalFlags (result : Int) (remainder : Nat) : Exec Unit := do
  setRegister .ZERO_FLAG (boolToNat (decide (result = 0)))
  setRegister .SIGN_FLAG (boolToNat (decide (result < 0)))
  setRegister .REMAINDER_FLAG remainder

/-! ## Stack and fetch -/

/-- The function `Processor::pushStackBytes(bytes, size)`. -/
def pushStackBytes (bytes : List Nat) (size : Nat) : Exec Unit := do
  let sp ← getRegister .STACK_POINTER
  updateMemory (fun m => m.setBytes sp bytes size)
  let sp ← getRegister .STACK_POINTER
  setRegister .STACK_POINTER (wrap64 ((sp : Int) + (size : Int)))

/-- The function `Processor::popStackBytes(size)`; the result is the returned pointer. -/
def popStackBytes (size : Nat) : Exec Nat := do
  let sp ← getRegister .STACK_POINTER
  setRegister .STACK_POINTER (wrap64 ((sp : Int) - (size : Int)))
  let sp ← getRegister .STACK_POINTER
  readMemory (fun m => m.getBytes sp size)

/-- The function `Processor::nextByteCode(Byte size)`; the result is the returned
pointer. -/
def nextByteCodes (size : Nat) : Exec Nat := do
  let pc ← getRegister .PROGRAM_COUNTER
  let cur ← getRegister .PROGRAM_COUNTER
  setRegister .PROGRAM_COUNTER (wrap64 ((cur : Int) + (size : Int)))
  readMemory (fun m => m.getBytes pc size)

/-- The function `Processor::nextByteCode()`. -/
def nextByteCode : Exec Nat := do
  let pc ← getRegister .PROGRAM_COUNTER
  let cur ← getRegister .PROGRAM_COUNTER
  setRegister .PROGRAM_COUNTER (wrap64 ((cur : Int) + 1))
  readMemory (fun m => m.getByte pc)

/-- A read of `*bytesToUintN(bytes)` through a pointer into the memory. -/
def derefUint (p w : Nat) : Exec Nat := fun s => .ok (s.memory.readUint p w) s

/-- A write of `*bytesToUintN(bytes)` through a pointer into the memory. -/
def storeUint (p w v : Nat) : Exec Unit := fun s =>
  .ok () { s with memory := s.memory.writeUint p w v }

/-! ## Instruction handlers -/

/-- The function `Processor::handle_add`. -/
def handle_add : Exec Unit := do
  let a ← getRegister .A
  let b ← getRegister .B
  setRegister .A (wrap64 ((a : Int) + (b : Int)))
  let r ← getRegister .A
  setArithmeticalFlags (toInt64 r) 0

/-- The function `Processor::handle_sub`. -/
def handle_sub : Exec Unit := do
  let a ← getRegister .A
  let b ← getRegister .B
  setRegister .A (wrap64 ((a : Int) - (b : Int)))
  let r ← getRegister .A
  setArithmeticalFlags (toInt64 r) 0

/-- The function `Processor::handle_mul`. -/
def handle_mul : Exec Unit := do
  let a ← getRegister .A
  let b ← getRegister .B
  setRegister .A (wrap64 ((a : Int) * (b : Int)))
  let r ← getRegister .A
  setArithmeticalFlags (toInt64 r) 0

/-- The operator `%` on `uint64`: the source applies it with no test of the divisor, and
C++ gives no meaning to a division by zero. -/
def umod64 (a b : Nat) : Exec Nat :=
  if b = 0 then undefinedBehaviour else Exec.pure (a % b)

/-- The operator `/` on `uint64`, with the same proviso as `umod64`. -/
def udiv64 (a b : Nat) : Exec Nat :=
  if b = 0 then undefinedBehaviour else Exec.pure (a / b)

/-- The function `Processor::handle_div`. -/
def handle_div : Exec Unit := do
  let a ← getRegister .A
  let b ← getRegister .B
  let remainder ← umod64 a b
  let a ← getRegister .A
  let b ← getRegister .B
  let q ← udiv64 a b
  setRegister .A q
  let r ← getRegister .A
  setArithmeticalFlags (toInt64 r) remainder

/-- The function `Processor::handle_mod`. -/
def handle_mod : Exec Unit := do
  let a ← getRegister .A
  let b ← getRegister .B
  let m ← umod64 a b
  setRegister .A m
  let r ← getRegister .A
  setArithmeticalFlags (toInt64 r) 0

/-- The function `Processor::handle_inc_reg`. -/
def handle_inc_reg : Exec Unit := do
  let reg := Registers.ofByte (← nextByteCode)
  let v ← getRegisterAt reg
  setRegisterAt reg (wrap64 ((v : Int) + 1))
  let r ← getRegisterAt reg
  setArithmeticalFlags (toInt64 r) 0

/-- One case of the width switches of `incrementUnsigned` and `decrementUnsigned`: the
compound assignment `*bytesToUintN(bytes) += delta` on `w` bytes, followed by
`setArithmeticalFlags(*bytesToUintN(bytes), 0)`, the argument being converted to `int64` by
`conv`. -/
def addUnsignedCase (bytes w : Nat) (delta : Int) (conv : Nat → Int) : Exec Unit := do
  let v ← derefUint bytes w
  storeUint bytes w (wrapBytes w ((v : Int) + delta))
  let r ← derefUint bytes w
  setArithmeticalFlags (conv r) 0

/-- The function `Processor::incrementUnsigned(bytes, size)`.  The narrow unsigned types
convert to `int64` with their value unchanged, `uint64` converts by two's complement. -/
def incrementUnsigned (bytes size : Nat) : Exec Unit :=
  if size = 1 then addUnsignedCase bytes 1 1 (fun r => (r : Int))
  else if size = 2 then addUnsignedCase bytes 2 1 (fun r => (r : Int))
  else if size = 4 then addUnsignedCase bytes 4 1 (fun r => (r : Int))
  else if size = 8 then addUnsignedCase bytes 8 1 toInt64
  else throwFault .InvalidOperandSize

/-- The function `Processor::decrementUnsigned(bytes, size)`. -/
def decrementUnsigned (bytes size : Nat) : Exec Unit :=
  if size = 1 then addUnsignedCase bytes 1 (-1) (fun r => (r : Int))
  else if size = 2 then addUnsignedCase bytes 2 (-1) (fun r => (r : Int))
  else if size = 4 then addUnsignedCase bytes 4 (-1) (fun r => (r : Int))
  else if size = 8 then addUnsignedCase bytes 8 (-1) toInt64
  else throwFault .InvalidOperandSize

/-- The function `Processor::handle_inc_addr_in_reg`. -/
def handle_inc_addr_in_reg : Exec Unit := do
  let size ← nextByteCode
  let reg := Registers.ofByte (← nextByteCode)
  let address ← getRegisterAt reg
  let bytes ← readMemory (fun m => m.getBytesMutable address)
  incrementUnsigned bytes size

/-- The function `Processor::handle_inc_addr_literal` (`sizeof(Address)` is 8). -/
def handle_inc_addr_literal : Exec Unit := do
  let size ← nextByteCode
  let addressBytes ← nextByteCodes 8
  let address ← derefUint addressBytes 8
  let bytes ← readMemory (fun m => m.getBytesMutable address)
  incrementUnsigned bytes size

/-- The function `Processor::handle_dec_reg`. -/
def handle_dec_reg : Exec Unit := do
  let reg := Registers.ofByte (← nextByteCode)
  let v ← getRegisterAt reg
  setRegisterAt reg (wrap64 ((v : Int) - 1))
  let r ← getRegisterAt reg
  setArithmeticalFlags (toInt64 r) 0

/-- The function `Processor::handle_dec_addr_in_reg`. -/
def handle_dec_addr_in_reg : Exec Unit := do
  let size ← nextByteCode
  let reg := Registers.ofByte (← nextByteCode)
  let address ← getRegisterAt reg
  let bytes ← readMemory (fun m => m.getBytesMutable address)
  decrementUnsigned bytes size

/-- The function `Processor::handle_dec_addr_literal`. -/
def handle_dec_addr_literal : Exec Unit := do
  let size ← nextByteCode
  let addressBytes ← nextByteCodes 8
  let address ← derefUint addressBytes 8
  let bytes ← readMemory (fun m => m.getBytesMutable address)
  decrementUnsigned bytes size

/-- The function `Processor::handle_no_operation`. -/
def handle_no_operation : Exec Unit :=
  Exec.pure ()

/-- The function `Processor::handle_move_reg_reg`. -/
def handle_move_reg_reg : Exec Unit := do
  let reg1 := Registers.ofByte (← nextByteCode)
  let reg2 := Registers.ofByte (← nextByteCode)
  let v ← getRegisterAt reg2
  setRegisterAt reg1 v

/-- The function `Processor::moveBytesIntoRegister(bytes, size, reg)`. -/
def moveBytesIntoRegister (bytes size : Nat) (reg : RegisterOperand) : Exec Unit :=
  if size = 1 then do setRegisterAt reg (← derefUint bytes 1)
  else if size = 2 then do setRegisterAt reg (← derefUint bytes 2)
  else if size = 4 then do setRegisterAt reg (← derefUint bytes 4)
  else if size = 8 then do setRegisterAt reg (← derefUint bytes 8)
  else throwFault .InvalidOperandSize

/-- The function `Processor::handle_move_reg_addr_in_reg`. -/
def handle_move_reg_addr_in_reg : Exec Unit := do
  let size ← nextByteCode
  let reg1 := Registers.ofByte (← nextByteCode)
  let reg2 := Registers.ofByte (← nextByteCode)
  let address ← getRegisterAt reg2
  let bytes ← readMemory (fun m => m.getBytesMutable address)
  moveBytesIntoRegister bytes size reg1

/-- The function `Processor::handle_move_reg_const`. -/
def handle_move_reg_const : Exec Unit := do
  let size ← nextByteCode
  let reg := Registers.ofByte (← nextByteCode)
  let bytes ← nextByteCodes size
  moveBytesIntoRegister bytes size reg

/-- The function `Processor::handle_move_reg_addr_literal`. -/
def handle_move_reg_addr_literal : Exec Unit := do
  let size ← nextByteCode
  let reg := Registers.ofByte (← nextByteCode)
  let addressBytes ← nextByteCodes 8
  let address ← derefUint addressBytes 8
  let bytes ← readMemory (fun m => m.getBytesMutable address)
  moveBytesIntoRegister bytes size reg

/-- The function `Processor::handle_move_addr_in_reg_reg`.  Its body ends with the comment
`// TODO: to implement`: the operands are decoded and the pointer is obtained, and nothing
is stored. -/
def handle_move_addr_in_reg_reg : Exec Unit := do
  let _size ← nextByteCode
  let reg1 := Registers.ofByte (← nextByteCode)
  let _reg2 := Registers.ofByte (← nextByteCode)
  let address ← getRegisterAt reg1
  let _bytes ← readMemory (fun m => m.getBytesMutable address)
  Exec.pure ()

/-! ## Dispatch and the execution loop -/

/-- The instruction handlers defined in processor.cpp. -/
inductive Handler where
  | add
  | sub
  | mul
  | div
  | mod
  | inc_reg
  | inc_addr_in_reg
  | inc_addr_literal
  | dec_reg
  | dec_addr_in_reg
  | dec_addr_literal
  | no_operation
  | move_reg_reg
  | move_reg_addr_in_reg
  | move_reg_const
  | move_reg_addr_literal
  | move_addr_in_reg_reg
  deriving DecidableEq, Repr

/-- The member function a handler name stands for. -/
def Handler.exec : Handler → Exec Unit
  | .add => handle_add
  | .sub => handle_sub
  | .mul => handle_mul
  | .div => handle_div
  | .mod => handle_mod
  | .inc_reg => handle_inc_reg
  | .inc_addr_in_reg => handle_inc_addr_in_reg
  | .inc_addr_literal => handle_inc_addr_literal
  | .dec_reg => handle_dec_reg
  | .dec_addr_in_reg => handle_dec_addr_in_reg
  | .dec_addr_literal => handle_dec_addr_literal
  | .no_operation => handle_no_operation
  | .move_reg_reg => handle_move_reg_reg
  | .move_reg_addr_in_reg => handle_move_reg_addr_in_reg
  | .move_reg_const => handle_move_reg_const
  | .move_reg_addr_literal => handle_move_reg_addr_literal
  | .move_addr_in_reg_reg => handle_move_addr_in_reg_reg

/-- The table `INSTRUCTION_HANDLERS`, which is declared outside the sources at hand and is
therefore a parameter: the handler mapped to each opcode byte, `none` for an unmapped
entry. -/
abbrev HandlerTable : Type := Nat → Option Handler

/-- Modelled from the spec: the call `(this->*INSTRUCTION_HANDLERS[opCode])()`; an unmapped
entry raises `UnknownOpcode`. -/
def dispatch (table : HandlerTable) (opCode : Nat) : Exec Unit :=
  match table opCode with
  | some h => h.exec
  | none => throwFault .UnknownOpcode

/-- The body of the `while (running)` loop of `Processor::run`. -/
def runIteration (table : HandlerTable) : Exec Unit := do
  let opCode ← nextByteCode
  dispatch table opCode
  clearVolatileRegisters

/-- The ways in which the loop of `Processor::run` can be left, and `outOfFuel` for a loop
that is still iterating when the iteration budget of the model is used up. -/
inductive RunResult where
  | returned (state : Processor)
  | fault (kind : Fault) (state : Processor)
  | undefined (state : Processor)
  | outOfFuel (state : Processor)

/-- The function `Processor::run`, with a budget of loop iterations. -/
def run (table : HandlerTable) : Nat → Processor → RunResult
  | 0, s => if s.running then .outOfFuel s else .returned s
  | fuel + 1, s =>
    if s.running then
      match runIteration table s with
      | .ok _ s1 => run table fuel s1
      | .fault k s1 => .fault k s1
      | .undefined s1 => .undefined s1
    else .returned s

/-- The function `Processor::execute(byteCode, size, verbose)`.  `runVerbose` differs from
`run` only by the trace it prints, so both branches are `run`.  Nothing follows the loop
(the source has the comment `// TODO: implement exiting from the program` there). -/
def execute (table : HandlerTable) (fuel : Nat) (byteCode : List Nat) (size : Nat)
    (s : Processor) : RunResult :=
  match pushStackBytes byteCode size s with
  | .ok _ s1 => run table fuel { s1 with running := true }
  | .fault k s1 => .fault k s1
  | .undefined s1 => .undefined s1

/-! ## Auxiliary definitions used by the statements -/

/-- The register file after `target := v` followed by `setArithmeticalFlags(result, remainder)`. -/
def afterArithmetic (s : Processor) (target : Registers) (v : Nat) (result : Int)
    (remainder : Nat) : Processor :=
  { s with registers := fun r =>
      if r = .REMAINDER_FLAG then remainder
      else if r = .SIGN_FLAG then boolToNat (decide (result < 0))
      else if r = .ZERO_FLAG then boolToNat (decide (result = 0))
      else if r = target then v
      else s.registers r }

/-- A state with `A = 1` and `B = 0`, all other registers zero, over a memory of 16 bytes. -/
def zeroDivisorState : Processor :=
  { memory := Memory.new 16
    registers := fun r => if r = .A then 1 else 0
    running := true }

/-- A state with `A = 7` and `B = 2`, all other registers zero, over a memory of 16 bytes. -/
def sevenByTwoState : Processor :=
  { memory := Memory.new 16
    registers := fun r => if r = .A then 7 else if r = .B then 2 else 0
    running := true }

/-- The state after PROGRAM_COUNTER has been moved forward by `n` bytes. -/
def advance (s : Processor) (n : Nat) : Processor :=
  { s with registers := fun r =>
      if r = .PROGRAM_COUNTER then wrap64 ((s.registers .PROGRAM_COUNTER : Int) + (n : Int))
      else s.registers r }

/-- The state after one case of the width switches of `incrementUnsigned` and
`decrementUnsigned`: `v` has been stored on `w` bytes at `p` and the flags have been set
from `result`. -/
def afterMemoryArithmetic (s : Processor) (p w v : Nat) (result : Int) : Processor :=
  { memory := s.memory.writeUint p w v
    registers := fun r =>
      if r = .REMAINDER_FLAG then 0
      else if r = .SIGN_FLAG then boolToNat (decide (result < 0))
      else if r = .ZERO_FLAG then boolToNat (decide (result = 0))
      else s.registers r
    running := s.running }

/-- The conversion to `int64` applied to the `w`-byte result in the width switches: by
value for the narrow unsigned types, by two's complement for `uint64`. -/
def widthConv (w : Nat) : Nat → Int :=
  if w = 8 then toInt64 else fun r => (r : Int)

/-- The operand byte `k` places after the one PROGRAM_COUNTER designates. -/
def operandAt (s : Processor) (k : Nat) : Nat :=
  s.memory.byteAt (s.registers .PROGRAM_COUNTER + k)

/-- A state at the start of the operands `width = 1, register = A` with A holding the address
4, the byte at 4 being 255 and the byte at 2 being 0 (memory of 16 bytes). -/
def incRegisterState : Processor :=
  { memory := { size := 16, data := fun a => [1, 0, 0, 0, 255].getD a 0 }
    registers := fun r => if r = .A then 4 else 0
    running := true }

/-- A state at the start of the operands `width = 1, address literal = 12`, the byte at
12 being 255 (memory of 16 bytes). -/
def incLiteralState : Processor :=
  { memory := { size := 16, data := fun a => [1, 12, 0, 0, 0, 0, 0, 0, 0, 0, 0, 0, 255].getD a 0 }
    registers := fun _ => 0
    running := true }

/-- A state at the start of the operands `width = 1, register = A, immediate = 255`, with A
holding `2^64 - 1` (memory of 16 bytes). -/
def moveConstState : Processor :=
  { memory := { size := 16, data := fun a => [1, 0, 255].getD a 0 }
    registers := fun r => if r = .A then 18446744073709551615 else 0
    running := true }

/-- A state at the start of the operands `width = 1, register = A, register = B`, with B
holding the address 4, the byte at 4 being 200 and A holding `2^64 - 1`. -/
def moveAddressInRegisterState : Processor :=
  { memory := { size := 16, data := fun a => [1, 0, 1, 0, 200].getD a 0 }
    registers := fun r => if r = .A then 18446744073709551615 else if r = .B then 4 else 0
    running := true }

/-- A state at the start of the operands `width = 1, register = A, address literal = 12`, the
byte at 12 being 200 and A holding `2^64 - 1`. -/
def moveAddressLiteralState : Processor :=
  { memory :=
      { size := 16, data := fun a => [1, 0, 12, 0, 0, 0, 0, 0, 0, 0, 0, 0, 200].getD a 0 }
    registers := fun r => if r = .A then 18446744073709551615 else 0
    running := true }

/-- A member function that leaves the `running` flag as it found it, whichever way it
ends. -/
def KeepsRunning {α : Type} (m : Exec α) : Prop :=
  ∀ s, (m s).state.running = s.running

/-- The bytes of the program `MOVE A, const(w=1) 5; MOVE B, const(w=1) 3; ADD; halt`, for
given opcode bytes (the opcode enumeration is declared outside the sources at hand).  The
operands of the move follow the order in which `handle_move_reg_const` fetches them: width,
register, immediate. -/
def additionProgram (opMove opAdd opHalt : Nat) : List Nat :=
  [opMove, 1, Registers.A.toByte, 5, opMove, 1, Registers.B.toByte, 3, opAdd, opHalt]

/-- A freshly constructed processor of capacity 65536 whose buffer holds `data`. -/
def freshProcessor (data : Nat → Nat) : Processor :=
  { memory := { size := 65536, data := data }
    registers := fun _ => 0
    running := false }

/-- An example of a handler table: the seventeen handlers of processor.cpp at the opcodes 0
to 16, in the order of their definitions, every other opcode unmapped.  It serves as a
concrete instance of the table parameter. -/
def exampleTable : HandlerTable := fun opCode =>
  List.get?
    [Handler.add, .sub, .mul, .div, .mod, .inc_reg, .inc_addr_in_reg, .inc_addr_literal,
     .dec_reg, .dec_addr_in_reg, .dec_addr_literal, .no_operation, .move_reg_reg,
     .move_reg_addr_in_reg, .move_reg_const, .move_reg_addr_literal, .move_addr_in_reg_reg]
    opCode

/-- A state whose PROGRAM_COUNTER (0) designates the byte 255, which the example table
leaves unmapped (memory of 16 bytes). -/
def unknownOpcodeState : Processor :=
  { memory := { size := 16, data := fun a => [255].getD a 0 }
    registers := fun _ => 0
    running := true }

/-- The outcome the width check gives on an invalid width: the call ends with
`InvalidOperandSize`, the memory and every register other than PROGRAM_COUNTER being as in
`s`. -/
def FailsWithInvalidSize (h : Exec Unit) (s : Processor) : Prop :=
  ∃ s1, h s = .fault .InvalidOperandSize s1 ∧ s1.memory = s.memory ∧
    ∀ r, r ≠ .PROGRAM_COUNTER → s1.registers r = s.registers r

/-- A state at the start of the operands `width = 3, register = A, register = A`, all
further bytes zero, with A holding the address 4 (memory of 16 bytes). -/
def invalidWidthState : Processor :=
  { memory := { size := 16, data := fun a => [3, 0, 0].getD a 0 }
    registers := fun r => if r = .A then 4 else 0
    running := true }

/-- A state at the start of the operands `width = 3, register = A`, with A holding the
address 100, outside the memory of 16 bytes. -/
def invalidWidthFarState : Processor :=
  { memory := { size := 16, data := fun a => [3, 0, 0].getD a 0 }
    registers := fun r => if r = .A then 100 else 0
    running := true }

/-- A member function that leaves every memory cell as it found it, whichever way it
ends. -/
def KeepsMemory {α : Type} (m : Exec α) : Prop :=
  ∀ s, (m s).state.memory = s.memory

/-- A state at the start of the operands `width = 1, register = A, register = B`, with A
holding the address 4, B holding 171 and the byte at 4 being 0 (memory of 16 bytes). -/
def storeState : Processor :=
  { memory := { size := 16, data := fun a => [1, 0, 1].getD a 0 }
    registers := fun r => if r = .A then 4 else if r = .B then 171 else 0
    running := true }

/-- The flags as `setArithmeticalFlags` leaves them after a memory increment or decrement
of width `w` whose `w`-byte result is `r`: ZERO_FLAG is 1 exactly when `r` is 0, SIGN_FLAG
is 1 exactly when the width is 8 and bit 63 of `r` is set, REMAINDER_FLAG is 0. -/
def NarrowFlags (s1 : Processor) (w r : Nat) : Prop :=
  s1.registers .ZERO_FLAG = (if r = 0 then 1 else 0) ∧
  s1.registers .SIGN_FLAG = (if w = 8 ∧ 9223372036854775808 ≤ r then 1 else 0) ∧
  s1.registers .REMAINDER_FLAG = 0

/-- A state at the start of the operands `width = 1, register = A`, with A holding the
address 4 and the byte at 4 being 254 (memory of 16 bytes). -/
def narrowFlagsRegisterState : Processor :=
  { memory := { size := 16, data := fun a => [1, 0, 0, 0, 254].getD a 0 }
    registers := fun r => if r = .A then 4 else 0
    running := true }

/-- A state at the start of the operands `width = 1, address literal = 12`, the byte at 12
being 254 (memory of 16 bytes). -/
def narrowFlagsLiteralState : Processor :=
  { memory := { size := 16, data := fun a => [1, 12, 0, 0, 0, 0, 0, 0, 0, 0, 0, 0, 254].getD a 0 }
    registers := fun _ => 0
    running := true }

/-- The function `Processor::handle_inc_addr_in_reg` over an arbitrary
`Memory::getBytesMutable`: the body of the source, with the function that `processor.cpp`
calls and does not define as the parameter `getBytesMutable`.  The parameter receives the
memory and the one argument of the call, the address. -/
def handle_inc_addr_in_reg_over (getBytesMutable : Memory → Nat → Except Fault Nat) :
    Exec Unit := do
  let size ← nextByteCode
  let reg := Registers.ofByte (← nextByteCode)
  let address ← getRegisterAt reg
  let bytes ← readMemory (fun m => getBytesMutable m address)
  incrementUnsigned bytes size

/-- The function `Processor::handle_inc_addr_literal` over an arbitrary
`Memory::getBytesMutable`. -/
def handle_inc_addr_literal_over (getBytesMutable : Memory → Nat → Except Fault Nat) :
    Exec Unit := do
  let size ← nextByteCode
  let addressBytes ← nextByteCodes 8
  let address ← derefUint addressBytes 8
  let bytes ← readMemory (fun m => getBytesMutable m address)
  incrementUnsigned bytes size

/-- The function `Processor::handle_dec_addr_in_reg` over an arbitrary
`Memory::getBytesMutable`. -/
def handle_dec_addr_in_reg_over (getBytesMutable : Memory → Nat → Except Fault Nat) :
    Exec Unit := do
  let size ← nextByteCode
  let reg := Registers.ofByte (← nextByteCode)
  let address ← getRegisterAt reg
  let bytes ← readMemory (fun m => getBytesMutable m address)
  decrementUnsigned bytes size

/-- The function `Processor::handle_dec_addr_literal` over an arbitrary
`Memory::getBytesMutable`. -/
def handle_dec_addr_literal_over (getBytesMutable : Memory → Nat → Except Fault Nat) :
    Exec Unit := do
  let size ← nextByteCode
  let addressBytes ← nextByteCodes 8
  let address ← derefUint addressBytes 8
  let bytes ← readMemory (fun m => getBytesMutable m address)
  decrementUnsigned bytes size

/-- The function `Processor::handle_move_reg_addr_in_reg` over an arbitrary
`Memory::getBytesMutable`. -/
def handle_move_reg_addr_in_reg_over (getBytesMutable : Memory → Nat → Except Fault Nat) :
    Exec Unit := do
  let size ← nextByteCode
  let reg1 := Registers.ofByte (← nextByteCode)
  let reg2 := Registers.ofByte (← nextByteCode)
  let address ← getRegisterAt reg2
  let bytes ← readMemory (fun m => getBytesMutable m address)
  moveBytesIntoRegister bytes size reg1

/-- The function `Processor::handle_move_reg_addr_literal` over an arbitrary
`Memory::getBytesMutable`. -/
def handle_move_reg_addr_literal_over (getBytesMutable : Memory → Nat → Except Fault Nat) :
    Exec Unit := do
  let size ← nextByteCode
  let reg := Registers.ofByte (← nextByteCode)
  let addressBytes ← nextByteCodes 8
  let address ← derefUint addressBytes 8
  let bytes ← readMemory (fun m => getBytesMutable m address)
  moveBytesIntoRegister bytes size reg

/-- A state over a memory of 32 bytes that holds `byteCode` from address 0 on, with
PROGRAM_COUNTER at `pc` and every other register holding 31, the address of the last cell
of the memory. -/
def lastCellState (byteCode : List Nat) (pc : Nat) : Processor :=
  { memory := { size := 32, data := fun a => byteCode.getD a 0 }
    registers := fun r => if r = .PROGRAM_COUNTER then pc else 31
    running := true }

/-- Operand bytes for the INC and DEC handlers that take the address from a register, twice:
width 1 and register B at address 0, width 2 and register B at address 2. -/
def inRegisterOperands : List Nat := [1, 1, 2, 1]

/-- Operand bytes for the INC and DEC handlers that take an address literal, twice: width 1
and the address 31 at address 0, width 2 and the address 31 at address 9. -/
def literalOperands : List Nat :=
  [1, 31, 0, 0, 0, 0, 0, 0, 0, 2, 31, 0, 0, 0, 0, 0, 0, 0]

/-- Operand bytes for `handle_move_reg_addr_in_reg`, twice: width 1, destination B and
address register A at address 0, width 2 and the same registers at address 3. -/
def moveInRegisterOperands : List Nat := [1, 1, 0, 2, 1, 0]

/-- Operand bytes for `handle_move_reg_addr_literal`, twice: width 1, destination B and the
address 31 at address 0, width 2, destination B and the address 31 at address 10. -/
def moveLiteralOperands : List Nat :=
  [1, 1, 31, 0, 0, 0, 0, 0, 0, 0, 2, 1, 31, 0, 0, 0, 0, 0, 0, 0]

/-- The state in which the loop of `run` is left, or in which it is still iterating. -/
def RunResult.state : RunResult → Processor
  | .returned s => s
  | .fault _ s => s
  | .undefined s => s
  | .outOfFuel s => s

/-- The value a call returns, when it returns normally. -/
def Outcome.result {α : Type} : Outcome α → Option α
  | .ok a _ => some a
  | _ => none

/-- A processor that has been used before: STACK_POINTER is 4 and PROGRAM_COUNTER is 0, the
cell at 0 holding the byte 7 (memory of 16 bytes). -/
def usedProcessorState : Processor :=
  { memory := { size := 16, data := fun a => [7].getD a 0 }
    registers := fun r => if r = .STACK_POINTER then 4 else 0
    running := false }

/-- The state in which `execute` enters the loop when the buffer fits: the bytes are in the
memory from the old STACK_POINTER on, STACK_POINTER has moved forward and `running` is
set. -/
def loadedState (s : Processor) (byteCode : List Nat) (size : Nat) : Processor :=
  { memory :=
      { size := s.memory.size
        data := fun a =>
          if s.registers .STACK_POINTER ≤ a ∧ a < s.registers .STACK_POINTER + size then
            byteCode.getD (a - s.registers .STACK_POINTER) 0 % 256
          else s.memory.data a }
    registers := fun r =>
      if r = .STACK_POINTER then wrap64 ((s.registers .STACK_POINTER : Int) + (size : Int))
      else s.registers r
    running := true }

/-- A state at the start of the operand byte 4, the code of ZERO_FLAG, all registers being
zero (memory of 16 bytes). -/
def flagTargetState : Processor :=
  { memory := { size := 16, data := fun a => [4].getD a 0 }
    registers := fun _ => 0
    running := true }

/-- A state at the start of the operand byte 0, the code of A, with A holding `2^64 - 1`
(memory of 16 bytes). -/
def registerTargetState : Processor :=
  { memory := { size := 16, data := fun _ => 0 }
    registers := fun r => if r = .A then 18446744073709551615 else 0
    running := true }

/-- A state with PROGRAM_COUNTER at 3 over a memory of 16 bytes holding the bytes
10, 11, 12, ... from address 0 on. -/
def fetchState : Processor :=
  { memory := { size := 16, data := fun a => a + 10 }
    registers := fun r => if r = .PROGRAM_COUNTER then 3 else 0
    running := true }

/-- A state at the start of the operand bytes `4, 0` (destination ZERO_FLAG, source A), with
A holding 5 and every other register zero (memory of 16 bytes). -/
def moveIntoFlagState : Processor :=
  { memory := { size := 16, data := fun a => [4, 0].getD a 0 }
    registers := fun r => if r = .A then 5 else 0
    running := true }

/-- A state at the start of the operand bytes `2, 0` (destination PROGRAM_COUNTER, source
A), with A holding 9 and every other register zero (memory of 16 bytes). -/
def moveIntoProgramCounterState : Processor :=
  { memory := { size := 16, data := fun a => [2, 0].getD a 0 }
    registers := fun r => if r = .A then 9 else 0
    running := true }

/-- A state at the start of the operand bytes `0, 2` (destination A, source
PROGRAM_COUNTER), with every register zero (memory of 16 bytes). -/
def moveFromProgramCounterState : Processor :=
  { memory := { size := 16, data := fun a => [0, 2].getD a 0 }
    registers := fun _ => 0
    running := true }

/-- A state at the start of the operand bytes `0, 1` (destination A, source B), with B
holding `2^64 - 1`, A holding 3 and the flag registers holding 1, 1 and 6 (memory of 16
bytes). -/
def moveRegisterState : Processor :=
  { memory := { size := 16, data := fun a => [0, 1].getD a 0 }
    registers := fun r =>
      if r = .A then 3 else if r = .B then 18446744073709551615
      else if r = .ZERO_FLAG then 1 else if r = .SIGN_FLAG then 1
      else if r = .REMAINDER_FLAG then 6 else 0
    running := true }

/-- A state whose PROGRAM_COUNTER (0) designates the bytes `14, 1, 7, 9`: with the example
table, the instruction MOVE register from immediate of width 1 into EXIT (code 7) of the
value 9 (memory of 16 bytes). -/
def moveIntoExitState : Processor :=
  { memory := { size := 16, data := fun a => [14, 1, 7, 9].getD a 0 }
    registers := fun _ => 0
    running := true }

/-- A state at the start of the operand bytes `200, 0`: the byte 200 is the code of no
register identifier (memory of 16 bytes). -/
def outsideRegisterState : Processor :=
  { memory := { size := 16, data := fun a => [200, 0].getD a 0 }
    registers := fun _ => 0
    running := true }

/-- A state at the start of the operand bytes `1, 200, 255`: a width of 1 followed by the
byte 200 where a register is expected (memory of 16 bytes). -/
def outsideSecondOperandState : Processor :=
  { memory := { size := 16, data := fun a => [1, 200, 255].getD a 0 }
    registers := fun _ => 0
    running := true }

/-- The fault with which the loop of `run` is left, if it is left with one. -/
def RunResult.faultKind : RunResult → Option Fault
  | .fault k _ => some k
  | _ => none

/-- A state with PROGRAM_COUNTER at 16, the capacity of its memory of 16 bytes. -/
def fetchAtEndState : Processor :=
  { memory := { size := 16, data := fun a => a + 10 }
    registers := fun r => if r = .PROGRAM_COUNTER then 16 else 0
    running := true }

/-- A state with PROGRAM_COUNTER at `2^64 - 1`, the largest 64-bit value (memory of 16
bytes). -/
def fetchAtWrapState : Processor :=
  { memory := { size := 16, data := fun a => a + 10 }
    registers := fun r => if r = .PROGRAM_COUNTER then 18446744073709551615 else 0
    running := true }

/-- Whether the loop of `run` is left by an operation to which C++ gives no meaning. -/
def RunResult.isUndefined : RunResult → Bool
  | .undefined _ => true
  | _ => false

/-- A state at the start of the operand bytes `0, 7` (destination A, source EXIT), with EXIT
holding `exit` and every other register zero (memory of 16 bytes). -/
def exitSourceState (exit : Nat) : Processor :=
  { memory := { size := 16, data := fun a => [0, 7].getD a 0 }
    registers := fun r => if r = .EXIT then exit else 0
    running := true }

/-- A running state whose PROGRAM_COUNTER (0) designates the byte 3, the opcode of DIV in
the example table, with A = 1 and B = 0 (memory of 16 bytes). -/
def divideByZeroLoopState : Processor :=
  { memory := { size := 16, data := fun a => [3].getD a 0 }
    registers := fun r => if r = .A then 1 else 0
    running := true }

/-- A state at the start of the operand bytes `1, 200, 0`: a width of 1, the byte 200 where
the destination register is expected, then the code of A (or an address literal of 0),
every register being zero (memory of 16 bytes). -/
def outsideDestinationState : Processor :=
  { memory := { size := 16, data := fun a => [1, 200, 0].getD a 0 }
    registers := fun _ => 0
    running := true }

/-- A state at the start of the operand bytes `1, 0, 200`: a width of 1, the code of A, then
the byte 200 where a second register is expected, every register being zero (memory of 16
bytes). -/
def outsideSourceState : Processor :=
  { memory := { size := 16, data := fun a => [1, 0, 200].getD a 0 }
    registers := fun _ => 0
    running := true }

/-- The function `Processor::handle_move_addr_in_reg_reg` over an arbitrary
`Memory::getBytesMutable`. -/
def handle_move_addr_in_reg_reg_over (getBytesMutable : Memory → Nat → Except Fault Nat) :
    Exec Unit := do
  let _size ← nextByteCode
  let reg1 := Registers.ofByte (← nextByteCode)
  let _reg2 := Registers.ofByte (← nextByteCode)
  let address ← getRegisterAt reg1
  let _bytes ← readMemory (fun m => getBytesMutable m address)
  Exec.pure ()

/-- A state at the start of the operand bytes `3, 200, 0`: the width 3, which is none of 1,
2, 4, 8, the byte 200 where the destination register is expected, then the code of A (or an
address literal of 0), every register being zero (memory of 16 bytes). -/
def outsideDestinationWidthState : Processor :=
  { memory := { size := 16, data := fun a => [3, 200, 0].getD a 0 }
    registers := fun _ => 0
    running := true }

/-- A state at the start of the operand bytes `1, 200, 0, 100`: a width of 1, the byte 200
where the destination register is expected, then the code of A (or an address literal of
`100 * 256`); every register other than PROGRAM_COUNTER holds 100, an address beyond the
memory of 16 bytes. -/
def outsideDestinationFarState : Processor :=
  { memory := { size := 16, data := fun a => [1, 200, 0, 100].getD a 0 }
    registers := fun r => if r = .PROGRAM_COUNTER then 0 else 100
    running := true }

/-- A state at the start of the operand bytes `1, 0, 200`: a width of 1, the code of A, then
the byte 200 where a second register is expected; every register other than
PROGRAM_COUNTER holds 100, an address beyond the memory of 16 bytes. -/
def outsideSourceFarState : Processor :=
  { memory := { size := 16, data := fun a => [1, 0, 200].getD a 0 }
    registers := fun r => if r = .PROGRAM_COUNTER then 0 else 100
    running := true }

/-! ## Machine arithmetic and the stack (C1) -/

theorem wrap64_of_lt (n : Nat) (h : n < 18446744073709551616) : wrap64 (n : Int) = n := by
  unfold wrap64
  omega

theorem wrap64_lt (i : Int) : wrap64 i < 18446744073709551616 := by
  unfold wrap64
  omega

theorem wrap64_add (a b : Nat) :
    wrap64 ((a : Int) + (b : Int)) = (a + b) % 18446744073709551616 := by
  unfold wrap64
  omega

theorem wrap64_sub_cancel (a b : Nat) (h : a + b < 18446744073709551616) :
    wrap64 (((a + b : Nat) : Int) - (b : Int)) = a := by
  unfold wrap64
  omega

/-- The effect of a push that fits. -/
theorem pushStackBytes_ok (s : Processor) (bytes : List Nat) (size : Nat)
    (hfit : s.registers .STACK_POINTER + size ≤ s.memory.size) :
    pushStackBytes bytes size s = .ok ()
      { memory :=
          { size := s.memory.size
            data := fun a =>
              if s.registers .STACK_POINTER ≤ a ∧ a < s.registers .STACK_POINTER + size then
                bytes.getD (a - s.registers .STACK_POINTER) 0 % 256
              else s.memory.data a }
        registers := fun r =>
          if r = .STACK_POINTER then
            wrap64 ((s.registers .STACK_POINTER : Int) + (size : Int))
          else s.registers r
        running := s.running } := by
  simp only [pushStackBytes, bind, Exec.bind, getRegister, updateMemory, Memory.setBytes,
    setRegister, if_pos hfit]

/-- The effect of a pop whose bytes lie inside the memory. -/
theorem popStackBytes_ok (s : Processor) (size : Nat)
    (hfit : wrap64 ((s.registers .STACK_POINTER : Int) - (size : Int)) + size
      ≤ s.memory.size) :
    popStackBytes size s = .ok (wrap64 ((s.registers .STACK_POINTER : Int) - (size : Int)))
      { s with registers := fun r =>
          if r = .STACK_POINTER then wrap64 ((s.registers .STACK_POINTER : Int) - (size : Int))
          else s.registers r } := by
  simp only [popStackBytes, bind, Exec.bind, getRegister, setRegister, readMemory,
    Memory.getBytes, if_true, if_pos hfit]

/-- C1: for every state and every sequence of `size` bytes that fits above STACK_POINTER
(the capacity being a `size_t`), `pushStackBytes` returns, the `popStackBytes(size)` that
follows returns a pointer to exactly those bytes, and STACK_POINTER is back at its value
before the push. -/
theorem push_pop_roundtrip (s : Processor) (bytes : List Nat) (size : Nat)
    (hlen : bytes.length = size) (hbytes : ∀ b ∈ bytes, b < 256)
    (hcap : s.memory.size < 18446744073709551616)
    (hfit : s.registers .STACK_POINTER + size ≤ s.memory.size) :
    ∃ s1 s2 p, pushStackBytes bytes size s = .ok () s1 ∧
      popStackBytes size s1 = .ok p s2 ∧
      s2.memory.view p size = bytes ∧
      s2.registers .STACK_POINTER = s.registers .STACK_POINTER := by
  have hsp : s.registers .STACK_POINTER + size < 18446744073709551616 := by omega
  have hw : wrap64 ((s.registers .STACK_POINTER : Int) + (size : Int))
      = s.registers .STACK_POINTER + size := by
    rw [wrap64_add]; omega
  have hback : wrap64 (((s.registers .STACK_POINTER + size : Nat) : Int) - (size : Int))
      = s.registers .STACK_POINTER := wrap64_sub_cancel _ _ hsp
  refine ⟨_, _, _, pushStackBytes_ok s bytes size hfit, popStackBytes_ok _ size ?_, ?_, ?_⟩
  · simp only [if_true, hw, hback]
    exact hfit
  · simp only [if_true, hw, hback]
    apply List.ext_getElem
    · simp [Memory.view, hlen]
    · intro i h1 h2
      have hi : i < size := by simpa [Memory.view] using h1
      have hb : bytes[i] < 256 := hbytes _ (List.getElem_mem h2)
      simp [Memory.view, Memory.byteAt, hi, List.getD_eq_getElem?_getD, h2]
      omega
  · simp only [if_true, hw, hback]

/-- C1, at a concrete input: three bytes pushed on a fresh processor of capacity 16. -/
theorem push_pop_roundtrip_witness :
    ∃ s1 s2 p, pushStackBytes [1, 2, 3] 3 (Processor.new 16) = .ok () s1 ∧
      popStackBytes 3 s1 = .ok p s2 ∧
      s2.memory.view p 3 = [1, 2, 3] ∧
      s2.registers .STACK_POINTER = (Processor.new 16).registers .STACK_POINTER :=
  push_pop_roundtrip (Processor.new 16) [1, 2, 3] 3 rfl (by decide) (by decide) (by decide)
/-! ## Arithmetic handlers (C2, C3, C4) -/

theorem toInt64_eq_zero_iff (n : Nat) (h : n < 18446744073709551616) :
    toInt64 n = 0 ↔ n = 0 := by
  unfold toInt64
  split <;> omega

theorem toInt64_neg_iff (n : Nat) (h : n < 18446744073709551616) :
    toInt64 n < 0 ↔ 9223372036854775808 ≤ n := by
  unfold toInt64
  split <;> omega

theorem handle_add_eq (s : Processor) :
    handle_add s = .ok ()
      (afterArithmetic s .A (wrap64 ((s.registers .A : Int) + (s.registers .B : Int)))
        (toInt64 (wrap64 ((s.registers .A : Int) + (s.registers .B : Int)))) 0) := by
  simp only [handle_add, bind, Exec.bind, getRegister, setRegister, setArithmeticalFlags,
    afterArithmetic, if_true]

theorem handle_sub_eq (s : Processor) :
    handle_sub s = .ok ()
      (afterArithmetic s .A (wrap64 ((s.registers .A : Int) - (s.registers .B : Int)))
        (toInt64 (wrap64 ((s.registers .A : Int) - (s.registers .B : Int)))) 0) := by
  simp only [handle_sub, bind, Exec.bind, getRegister, setRegister, setArithmeticalFlags,
    afterArithmetic, if_true]

theorem handle_mul_eq (s : Processor) :
    handle_mul s = .ok ()
      (afterArithmetic s .A (wrap64 ((s.registers .A : Int) * (s.registers .B : Int)))
        (toInt64 (wrap64 ((s.registers .A : Int) * (s.registers .B : Int)))) 0) := by
  simp only [handle_mul, bind, Exec.bind, getRegister, setRegister, setArithmeticalFlags,
    afterArithmetic, if_true]

/-- The flags read off a state produced by `afterArithmetic` for a 64-bit result. -/
theorem afterArithmetic_flags (s : Processor) (v remainder : Nat)
    (hv : v < 18446744073709551616) :
    (afterArithmetic s .A v (toInt64 v) remainder).registers .A = v ∧
    (afterArithmetic s .A v (toInt64 v) remainder).registers .ZERO_FLAG
      = (if v = 0 then 1 else 0) ∧
    (afterArithmetic s .A v (toInt64 v) remainder).registers .SIGN_FLAG
      = (if 9223372036854775808 ≤ v then 1 else 0) ∧
    (afterArithmetic s .A v (toInt64 v) remainder).registers .REMAINDER_FLAG = remainder := by
  simp [afterArithmetic, boolToNat, toInt64_eq_zero_iff v hv, toInt64_neg_iff v hv]

/-- C2: for all contents of A and B, `handle_add`, `handle_sub` and `handle_mul` return with
A holding the integer `a op b` reduced modulo `2^64`, ZERO_FLAG being 1 exactly when the new
A is 0 (else 0), SIGN_FLAG being 1 exactly when bit 63 of the new A is set, that is when it
is negative as a signed 64-bit integer (else 0), and REMAINDER_FLAG being 0. -/
theorem add_sub_mul_result (s : Processor) :
    (∃ s1, handle_add s = .ok () s1 ∧
      ((s1.registers .A : Int) = ((s.registers .A : Int) + (s.registers .B : Int))
          % 18446744073709551616) ∧
      s1.registers .ZERO_FLAG = (if s1.registers .A = 0 then 1 else 0) ∧
      s1.registers .SIGN_FLAG = (if 9223372036854775808 ≤ s1.registers .A then 1 else 0) ∧
      s1.registers .REMAINDER_FLAG = 0) ∧
    (∃ s1, handle_sub s = .ok () s1 ∧
      ((s1.registers .A : Int) = ((s.registers .A : Int) - (s.registers .B : Int))
          % 18446744073709551616) ∧
      s1.registers .ZERO_FLAG = (if s1.registers .A = 0 then 1 else 0) ∧
      s1.registers .SIGN_FLAG = (if 9223372036854775808 ≤ s1.registers .A then 1 else 0) ∧
      s1.registers .REMAINDER_FLAG = 0) ∧
    (∃ s1, handle_mul s = .ok () s1 ∧
      ((s1.registers .A : Int) = ((s.registers .A : Int) * (s.registers .B : Int))
          % 18446744073709551616) ∧
      s1.registers .ZERO_FLAG = (if s1.registers .A = 0 then 1 else 0) ∧
      s1.registers .SIGN_FLAG = (if 9223372036854775808 ≤ s1.registers .A then 1 else 0) ∧
      s1.registers .REMAINDER_FLAG = 0) := by
  have key : ∀ i : Int, ((wrap64 i : Nat) : Int) = i % 18446744073709551616 := by
    intro i
    unfold wrap64
    omega
  refine ⟨⟨_, handle_add_eq s, ?_⟩, ⟨_, handle_sub_eq s, ?_⟩, ⟨_, handle_mul_eq s, ?_⟩⟩
  · obtain ⟨h1, h2, h3, h4⟩ := afterArithmetic_flags s _ 0
      (wrap64_lt ((s.registers .A : Int) + (s.registers .B : Int)))
    rw [h1, h2, h3, h4]
    exact ⟨key _, rfl, rfl, rfl⟩
  · obtain ⟨h1, h2, h3, h4⟩ := afterArithmetic_flags s _ 0
      (wrap64_lt ((s.registers .A : Int) - (s.registers .B : Int)))
    rw [h1, h2, h3, h4]
    exact ⟨key _, rfl, rfl, rfl⟩
  · obtain ⟨h1, h2, h3, h4⟩ := afterArithmetic_flags s _ 0
      (wrap64_lt ((s.registers .A : Int) * (s.registers .B : Int)))
    rw [h1, h2, h3, h4]
    exact ⟨key _, rfl, rfl, rfl⟩

theorem handle_div_eq (s : Processor) (hb : s.registers .B ≠ 0) :
    handle_div s = .ok ()
      (afterArithmetic s .A (s.registers .A / s.registers .B)
        (toInt64 (s.registers .A / s.registers .B)) (s.registers .A % s.registers .B)) := by
  simp only [handle_div, bind, Exec.bind, getRegister, setRegister, setArithmeticalFlags,
    afterArithmetic, umod64, udiv64, if_neg hb, Exec.pure, if_true]

theorem handle_div_zero (s : Processor) (hb : s.registers .B = 0) :
    handle_div s = .undefined s := by
  simp only [handle_div, bind, Exec.bind, getRegister, umod64, if_pos hb, undefinedBehaviour]

theorem handle_mod_zero (s : Processor) (hb : s.registers .B = 0) :
    handle_mod s = .undefined s := by
  simp only [handle_mod, bind, Exec.bind, getRegister, umod64, if_pos hb, undefinedBehaviour]

/-- C3: for all 64-bit contents `a` of A and `b ≠ 0` of B, `handle_div` returns with A
holding the unsigned quotient `a / b`, REMAINDER_FLAG holding the unsigned remainder
`a % b` of the value A had before the division (the remainder itself), ZERO_FLAG being 1
exactly when the new A is 0 and SIGN_FLAG being 1 exactly when bit 63 of the new A is
set. -/
theorem div_result (s : Processor) (ha : s.registers .A < 18446744073709551616)
    (hb : s.registers .B ≠ 0) :
    ∃ s1, handle_div s = .ok () s1 ∧
      s1.registers .A = s.registers .A / s.registers .B ∧
      s1.registers .REMAINDER_FLAG = s.registers .A % s.registers .B ∧
      s1.registers .ZERO_FLAG = (if s1.registers .A = 0 then 1 else 0) ∧
      s1.registers .SIGN_FLAG = (if 9223372036854775808 ≤ s1.registers .A then 1 else 0) := by
  have hq : s.registers .A / s.registers .B < 18446744073709551616 :=
    lt_of_le_of_lt (Nat.div_le_self _ _) ha
  obtain ⟨h1, h2, h3, h4⟩ :=
    afterArithmetic_flags s (s.registers .A / s.registers .B)
      (s.registers .A % s.registers .B) hq
  refine ⟨_, handle_div_eq s hb, ?_⟩
  rw [h1, h2, h3, h4]
  exact ⟨rfl, rfl, rfl, rfl⟩

/-- C3, at a concrete input: 7 divided by 2. -/
theorem div_result_witness :
    ∃ s1, handle_div sevenByTwoState = .ok () s1 ∧
      s1.registers .A = sevenByTwoState.registers .A / sevenByTwoState.registers .B ∧
      s1.registers .REMAINDER_FLAG
        = sevenByTwoState.registers .A % sevenByTwoState.registers .B ∧
      s1.registers .ZERO_FLAG = (if s1.registers .A = 0 then 1 else 0) ∧
      s1.registers .SIGN_FLAG = (if 9223372036854775808 ≤ s1.registers .A then 1 else 0) :=
  div_result sevenByTwoState (by decide) (by decide)

/-- C4, as stated, fails at `A = 1`, `B = 0`: neither `handle_div` nor `handle_mod` ends
with a `DivideByZero` fault (nor with any fault, nor with a normal return); both reach the
division by zero, which the source does not guard. -/
theorem div_mod_by_zero_unguarded :
    zeroDivisorState.registers .B = 0 ∧
    (handle_div zeroDivisorState).faultKind ≠ some .DivideByZero ∧
    (handle_mod zeroDivisorState).faultKind ≠ some .DivideByZero ∧
    (handle_div zeroDivisorState).faultKind = none ∧
    (handle_mod zeroDivisorState).faultKind = none ∧
    (handle_div zeroDivisorState).isUndefined = true ∧
    (handle_mod zeroDivisorState).isUndefined = true := by
  rw [handle_div_zero zeroDivisorState rfl, handle_mod_zero zeroDivisorState rfl]
  exact ⟨rfl, by decide, by decide, rfl, rfl, rfl, rfl⟩

/-- C4, amended: in every state in which B is 0, `handle_div` and `handle_mod` raise no
fault; each reaches its first division, which the source performs with no test of B and to
which C++ gives no meaning for a zero divisor, and reaches it with the state unchanged: no
register, A included, and no memory cell has been written. -/
theorem div_mod_by_zero_undefined (s : Processor) (hb : s.registers .B = 0) :
    handle_div s = .undefined s ∧ handle_mod s = .undefined s ∧
    (handle_div s).faultKind = none ∧ (handle_mod s).faultKind = none ∧
    (handle_div s).state.registers .A = s.registers .A ∧
    (handle_mod s).state.registers .A = s.registers .A := by
  rw [handle_div_zero s hb, handle_mod_zero s hb]
  exact ⟨rfl, rfl, rfl, rfl, rfl, rfl⟩

/-- C4, amended, at `A = 1`, `B = 0`. -/
theorem div_mod_by_zero_undefined_witness :
    handle_div zeroDivisorState = .undefined zeroDivisorState ∧
    handle_mod zeroDivisorState = .undefined zeroDivisorState ∧
    (handle_div zeroDivisorState).faultKind = none ∧
    (handle_mod zeroDivisorState).faultKind = none ∧
    (handle_div zeroDivisorState).state.registers .A = zeroDivisorState.registers .A ∧
    (handle_mod zeroDivisorState).state.registers .A = zeroDivisorState.registers .A :=
  div_mod_by_zero_undefined zeroDivisorState rfl

/-! ## Multi-byte values in memory -/

theorem byteAt_lt (m : Memory) (a : Nat) : m.byteAt a < 256 := by
  unfold Memory.byteAt
  omega

theorem readUint_lt (m : Memory) (w : Nat) : ∀ p, m.readUint p w < 256 ^ w := by
  induction w with
  | zero => intro p; simp [Memory.readUint]
  | succ w ih =>
    intro p
    have h1 := byteAt_lt m p
    have h2 := ih (p + 1)
    simp only [Memory.readUint, pow_succ]
    omega

theorem readUint_congr (m m1 : Memory) (w : Nat) :
    ∀ p, (∀ i, i < w → m.byteAt (p + i) = m1.byteAt (p + i)) →
      m.readUint p w = m1.readUint p w := by
  induction w with
  | zero => intro p _; rfl
  | succ w ih =>
    intro p h
    have h0 := h 0 (Nat.succ_pos w)
    have h1 : m.readUint (p + 1) w = m1.readUint (p + 1) w := by
      apply ih
      intro i hi
      have := h (i + 1) (by omega)
      rw [show p + 1 + i = p + (i + 1) by omega]
      exact this
    simp only [Memory.readUint, h1]
    simpa using h0

theorem byteAt_writeUint_inside (m : Memory) (p w v i : Nat) (hi : i < w) :
    (m.writeUint p w v).byteAt (p + i) = v / 256 ^ i % 256 := by
  have h : p ≤ p + i ∧ p + i < p + w := by omega
  simp [Memory.writeUint, Memory.byteAt, h]

theorem data_writeUint_outside (m : Memory) (p w v a : Nat) (ha : ¬ (p ≤ a ∧ a < p + w)) :
    (m.writeUint p w v).data a = m.data a := by
  simp [Memory.writeUint, ha]

/-- Reading back the `w` bytes just written gives the value reduced to `w` bytes. -/
theorem readUint_writeUint (m : Memory) (w : Nat) :
    ∀ p v, (m.writeUint p w v).readUint p w = v % 256 ^ w := by
  induction w with
  | zero => intro p v; simp [Memory.readUint, Nat.mod_one]
  | succ w ih =>
    intro p v
    have h0 : (m.writeUint p (w + 1) v).byteAt p = v % 256 := by
      simpa using byteAt_writeUint_inside m p (w + 1) v 0 (Nat.succ_pos w)
    have h1 : (m.writeUint p (w + 1) v).readUint (p + 1) w = (v / 256) % 256 ^ w := by
      rw [← ih (p + 1) (v / 256)]
      apply readUint_congr
      intro i hi
      rw [byteAt_writeUint_inside m (p + 1) w (v / 256) i hi,
        show p + 1 + i = p + (i + 1) by omega,
        byteAt_writeUint_inside m p (w + 1) v (i + 1) (by omega)]
      rw [pow_succ, Nat.mul_comm, Nat.div_div_eq_div_mul]
    simp only [Memory.readUint, h0, h1, pow_succ]
    rw [Nat.mul_comm (256 ^ w) 256, Nat.mod_mul]

/-! ## Operand fetch and the decoding of the handlers -/

theorem advance_memory (s : Processor) (n : Nat) : (advance s n).memory = s.memory := rfl

theorem advance_running (s : Processor) (n : Nat) : (advance s n).running = s.running := rfl

theorem advance_pc (s : Processor) (n : Nat) :
    (advance s n).registers .PROGRAM_COUNTER
      = wrap64 ((s.registers .PROGRAM_COUNTER : Int) + (n : Int)) := by
  simp [advance]

theorem advance_other (s : Processor) (n : Nat) (r : Registers)
    (hr : r ≠ .PROGRAM_COUNTER) : (advance s n).registers r = s.registers r := by
  simp [advance, hr]

theorem advance_advance (s : Processor) (a b : Nat) :
    advance (advance s a) b = advance s (a + b) := by
  have h : wrap64 ((wrap64 ((s.registers .PROGRAM_COUNTER : Int) + (a : Int)) : Int) + (b : Int))
      = wrap64 ((s.registers .PROGRAM_COUNTER : Int) + ((a + b : Nat) : Int)) := by
    unfold wrap64
    omega
  unfold advance
  simp only [if_true, h]
  congr 1
  funext r
  by_cases hr : r = .PROGRAM_COUNTER
  · simp [hr]
  · simp [hr]

theorem nextByteCode_ok (s : Processor)
    (h : s.registers .PROGRAM_COUNTER < s.memory.size) :
    nextByteCode s = .ok (operandAt s 0) (advance s 1) := by
  simp only [nextByteCode, bind, Exec.bind, getRegister, setRegister, readMemory,
    Memory.getByte, if_pos h, advance, operandAt, Nat.add_zero, Nat.cast_one]

theorem nextByteCode_fault (s : Processor)
    (h : ¬ s.registers .PROGRAM_COUNTER < s.memory.size) :
    nextByteCode s = .fault .MemoryFault (advance s 1) := by
  simp only [nextByteCode, bind, Exec.bind, getRegister, setRegister, readMemory,
    Memory.getByte, if_neg h, advance, Nat.cast_one]

theorem nextByteCode_advance (s : Processor) (k : Nat)
    (hcap : s.memory.size < 18446744073709551616)
    (h : s.registers .PROGRAM_COUNTER + k < s.memory.size) :
    nextByteCode (advance s k) = .ok (operandAt s k) (advance s (k + 1)) := by
  have hpc : (advance s k).registers .PROGRAM_COUNTER = s.registers .PROGRAM_COUNTER + k := by
    rw [advance_pc, wrap64_add]
    omega
  have h1 : (advance s k).registers .PROGRAM_COUNTER < (advance s k).memory.size := by
    rw [hpc]; exact h
  rw [nextByteCode_ok _ h1, advance_advance]
  simp only [operandAt, hpc, advance_memory, Nat.add_zero]

theorem nextByteCodes_ok (s : Processor) (n : Nat)
    (h : s.registers .PROGRAM_COUNTER + n ≤ s.memory.size) :
    nextByteCodes n s = .ok (s.registers .PROGRAM_COUNTER) (advance s n) := by
  simp only [nextByteCodes, bind, Exec.bind, getRegister, setRegister, readMemory,
    Memory.getBytes, if_pos h, advance]

theorem nextByteCodes_fault (s : Processor) (n : Nat)
    (h : ¬ s.registers .PROGRAM_COUNTER + n ≤ s.memory.size) :
    nextByteCodes n s = .fault .MemoryFault (advance s n) := by
  simp only [nextByteCodes, bind, Exec.bind, getRegister, setRegister, readMemory,
    Memory.getBytes, if_neg h, advance]

theorem nextByteCodes_advance (s : Processor) (k n : Nat)
    (hcap : s.memory.size < 18446744073709551616)
    (h : s.registers .PROGRAM_COUNTER + k + n ≤ s.memory.size) :
    nextByteCodes n (advance s k)
      = .ok (s.registers .PROGRAM_COUNTER + k) (advance s (k + n)) := by
  have hpc : (advance s k).registers .PROGRAM_COUNTER = s.registers .PROGRAM_COUNTER + k := by
    rw [advance_pc, wrap64_add]
    omega
  have h1 : (advance s k).registers .PROGRAM_COUNTER + n ≤ (advance s k).memory.size := by
    rw [hpc]; exact h
  rw [nextByteCodes_ok _ _ h1, advance_advance, hpc]

theorem ofByte_toByte (r : Registers) : Registers.ofByte r.toByte = some r := by
  cases r <;> rfl

theorem getBytesMutable_ok (s : Processor) (address : Nat) (h : address < s.memory.size) :
    readMemory (fun m => m.getBytesMutable address) s = .ok address s := by
  simp only [readMemory, Memory.getBytesMutable, if_pos h]

theorem getBytesMutable_fault (s : Processor) (address : Nat)
    (h : ¬ address < s.memory.size) :
    readMemory (fun m => m.getBytesMutable address) s = .fault .MemoryFault s := by
  simp only [readMemory, Memory.getBytesMutable, if_neg h]

/-- The decoding of `handle_inc_addr_in_reg`: the width byte, the register byte, the
address taken from that register after the two fetches, and the call of
`incrementUnsigned` on the pointer to that address. -/
theorem handle_inc_addr_in_reg_eq (s : Processor) (r : Registers)
    (hcap : s.memory.size < 18446744073709551616)
    (hpc : s.registers .PROGRAM_COUNTER + 2 ≤ s.memory.size)
    (hr : operandAt s 1 = r.toByte)
    (haddr : (advance s 2).registers r < s.memory.size) :
    handle_inc_addr_in_reg s
      = incrementUnsigned ((advance s 2).registers r) (operandAt s 0) (advance s 2) := by
  have h0 : s.registers .PROGRAM_COUNTER < s.memory.size := by omega
  have h1 : s.registers .PROGRAM_COUNTER + 1 < s.memory.size := by omega
  simp only [handle_inc_addr_in_reg, bind, Exec.bind, nextByteCode_ok s h0,
    nextByteCode_advance s 1 hcap h1, hr, ofByte_toByte, getRegisterAt, getRegister,
    getBytesMutable_ok (advance s 2) _ haddr]

theorem handle_dec_addr_in_reg_eq (s : Processor) (r : Registers)
    (hcap : s.memory.size < 18446744073709551616)
    (hpc : s.registers .PROGRAM_COUNTER + 2 ≤ s.memory.size)
    (hr : operandAt s 1 = r.toByte)
    (haddr : (advance s 2).registers r < s.memory.size) :
    handle_dec_addr_in_reg s
      = decrementUnsigned ((advance s 2).registers r) (operandAt s 0) (advance s 2) := by
  have h0 : s.registers .PROGRAM_COUNTER < s.memory.size := by omega
  have h1 : s.registers .PROGRAM_COUNTER + 1 < s.memory.size := by omega
  simp only [handle_dec_addr_in_reg, bind, Exec.bind, nextByteCode_ok s h0,
    nextByteCode_advance s 1 hcap h1, hr, ofByte_toByte, getRegisterAt, getRegister,
    getBytesMutable_ok (advance s 2) _ haddr]

/-- The decoding of `handle_inc_addr_literal`: the width byte, the eight bytes of the address
literal, and the call of `incrementUnsigned` on the pointer to that address. -/
theorem handle_inc_addr_literal_eq (s : Processor)
    (hcap : s.memory.size < 18446744073709551616)
    (hpc : s.registers .PROGRAM_COUNTER + 9 ≤ s.memory.size)
    (haddr : s.memory.readUint (s.registers .PROGRAM_COUNTER + 1) 8 < s.memory.size) :
    handle_inc_addr_literal s
      = incrementUnsigned (s.memory.readUint (s.registers .PROGRAM_COUNTER + 1) 8)
          (operandAt s 0) (advance s 9) := by
  have h0 : s.registers .PROGRAM_COUNTER < s.memory.size := by omega
  have h1 : s.registers .PROGRAM_COUNTER + 1 + 8 ≤ s.memory.size := by omega
  simp only [handle_inc_addr_literal, bind, Exec.bind, nextByteCode_ok s h0,
    nextByteCodes_advance s 1 8 hcap h1, derefUint, advance_memory,
    getBytesMutable_ok (advance s (1 + 8)) _ haddr]

theorem handle_dec_addr_literal_eq (s : Processor)
    (hcap : s.memory.size < 18446744073709551616)
    (hpc : s.registers .PROGRAM_COUNTER + 9 ≤ s.memory.size)
    (haddr : s.memory.readUint (s.registers .PROGRAM_COUNTER + 1) 8 < s.memory.size) :
    handle_dec_addr_literal s
      = decrementUnsigned (s.memory.readUint (s.registers .PROGRAM_COUNTER + 1) 8)
          (operandAt s 0) (advance s 9) := by
  have h0 : s.registers .PROGRAM_COUNTER < s.memory.size := by omega
  have h1 : s.registers .PROGRAM_COUNTER + 1 + 8 ≤ s.memory.size := by omega
  simp only [handle_dec_addr_literal, bind, Exec.bind, nextByteCode_ok s h0,
    nextByteCodes_advance s 1 8 hcap h1, derefUint, advance_memory,
    getBytesMutable_ok (advance s (1 + 8)) _ haddr]

/-! ## Increment and decrement in memory (C5) -/

theorem addUnsignedCase_eq (s : Processor) (p w : Nat) (delta : Int) (conv : Nat → Int) :
    addUnsignedCase p w delta conv s = .ok ()
      (afterMemoryArithmetic s p w (wrapBytes w ((s.memory.readUint p w : Int) + delta))
        (conv ((s.memory.writeUint p w
          (wrapBytes w ((s.memory.readUint p w : Int) + delta))).readUint p w))) := by
  simp only [addUnsignedCase, bind, Exec.bind, derefUint, storeUint, setArithmeticalFlags,
    setRegister, afterMemoryArithmetic]

theorem incrementUnsigned_eq (s : Processor) (p w : Nat)
    (hw : w = 1 ∨ w = 2 ∨ w = 4 ∨ w = 8) :
    incrementUnsigned p w s = .ok ()
      (afterMemoryArithmetic s p w (wrapBytes w ((s.memory.readUint p w : Int) + 1))
        (widthConv w ((s.memory.writeUint p w
          (wrapBytes w ((s.memory.readUint p w : Int) + 1))).readUint p w))) := by
  rcases hw with h | h | h | h <;> subst h <;>
    simp [incrementUnsigned, addUnsignedCase_eq, widthConv]

theorem decrementUnsigned_eq (s : Processor) (p w : Nat)
    (hw : w = 1 ∨ w = 2 ∨ w = 4 ∨ w = 8) :
    decrementUnsigned p w s = .ok ()
      (afterMemoryArithmetic s p w (wrapBytes w ((s.memory.readUint p w : Int) + (-1)))
        (widthConv w ((s.memory.writeUint p w
          (wrapBytes w ((s.memory.readUint p w : Int) + (-1)))).readUint p w))) := by
  rcases hw with h | h | h | h <;> subst h <;>
    simp [decrementUnsigned, addUnsignedCase_eq, widthConv]

theorem widthConv_zero (w : Nat) : widthConv w 0 = 0 := by
  unfold widthConv
  split
  · rfl
  · rfl


/-- The behaviour of `incrementUnsigned` on `w` bytes that hold `2^(8w) - 1`. -/
theorem incrementUnsigned_wraps (s : Processor) (p w : Nat)
    (hw : w = 1 ∨ w = 2 ∨ w = 4 ∨ w = 8)
    (hv : s.memory.readUint p w = 2 ^ (8 * w) - 1) :
    ∃ s1, incrementUnsigned p w s = .ok () s1 ∧
      s1.memory.readUint p w = 0 ∧
      (∀ i, i < w → s1.memory.byteAt (p + i) = 0) ∧
      s1.registers .ZERO_FLAG = 1 ∧
      (∀ a, ¬ (p ≤ a ∧ a < p + w) → s1.memory.data a = s.memory.data a) := by
  have hz : wrapBytes w ((s.memory.readUint p w : Int) + 1) = 0 := by
    rw [hv]
    rcases hw with h | h | h | h <;> subst h <;> simp [wrapBytes]
  refine ⟨_, incrementUnsigned_eq s p w hw, ?_, ?_, ?_, ?_⟩
  · simp only [afterMemoryArithmetic, hz, readUint_writeUint, Nat.zero_mod]
  · intro i hi
    simp only [afterMemoryArithmetic, hz, byteAt_writeUint_inside _ _ _ _ _ hi]
    simp
  · simp [afterMemoryArithmetic, hz, readUint_writeUint, widthConv_zero, boolToNat]
  · intro a ha
    exact data_writeUint_outside _ _ _ _ _ ha

/-- The behaviour of `decrementUnsigned` on `w` bytes that hold 0. -/
theorem decrementUnsigned_wraps (s : Processor) (p w : Nat)
    (hw : w = 1 ∨ w = 2 ∨ w = 4 ∨ w = 8)
    (hv : s.memory.readUint p w = 0) :
    ∃ s1, decrementUnsigned p w s = .ok () s1 ∧
      s1.memory.readUint p w = 2 ^ (8 * w) - 1 ∧
      (∀ i, i < w → s1.memory.byteAt (p + i) = 255) ∧
      (∀ a, ¬ (p ≤ a ∧ a < p + w) → s1.memory.data a = s.memory.data a) := by
  have hz : wrapBytes w ((s.memory.readUint p w : Int) + (-1)) = 2 ^ (8 * w) - 1 := by
    rw [hv]
    rcases hw with h | h | h | h <;> subst h <;> simp [wrapBytes]
  refine ⟨_, decrementUnsigned_eq s p w hw, ?_, ?_, ?_⟩
  · simp only [afterMemoryArithmetic, hz, readUint_writeUint]
    rcases hw with h | h | h | h <;> subst h <;> norm_num
  · intro i hi
    simp only [afterMemoryArithmetic, hz, byteAt_writeUint_inside _ _ _ _ _ hi]
    rcases hw with h | h | h | h <;> subst h <;> interval_cases i <;> norm_num
  · intro a ha
    exact data_writeUint_outside _ _ _ _ _ ha
/-- C5: for every width `w` in {1,2,4,8}:
(1) when the `w` bytes at a pointer `p` hold `2^(8w) - 1`, `incrementUnsigned` returns
leaving those bytes all 0 and ZERO_FLAG at 1;
(2) when they hold 0, `decrementUnsigned` returns leaving them all 255, that is the value
`2^(8w) - 1`;
(3) and (4) `handle_inc_addr_in_reg` and `handle_inc_addr_literal`, decoding the width `w`
and an in-bounds address whose `w` bytes hold `2^(8w) - 1`, return leaving those bytes all
0 and ZERO_FLAG at 1.
In every case the cells outside those `w` bytes keep their content. -/
theorem inc_dec_wraparound (s : Processor) (w : Nat)
    (hw : w = 1 ∨ w = 2 ∨ w = 4 ∨ w = 8) :
    (∀ p, s.memory.readUint p w = 2 ^ (8 * w) - 1 →
      ∃ s1, incrementUnsigned p w s = .ok () s1 ∧
        s1.memory.readUint p w = 0 ∧
        (∀ i, i < w → s1.memory.byteAt (p + i) = 0) ∧
        s1.registers .ZERO_FLAG = 1 ∧
        (∀ a, ¬ (p ≤ a ∧ a < p + w) → s1.memory.data a = s.memory.data a)) ∧
    (∀ p, s.memory.readUint p w = 0 →
      ∃ s1, decrementUnsigned p w s = .ok () s1 ∧
        s1.memory.readUint p w = 2 ^ (8 * w) - 1 ∧
        (∀ i, i < w → s1.memory.byteAt (p + i) = 255) ∧
        (∀ a, ¬ (p ≤ a ∧ a < p + w) → s1.memory.data a = s.memory.data a)) ∧
    (∀ r : Registers, s.memory.size < 18446744073709551616 →
      s.registers .PROGRAM_COUNTER + 2 ≤ s.memory.size →
      operandAt s 0 = w → operandAt s 1 = r.toByte →
      (advance s 2).registers r + w ≤ s.memory.size →
      s.memory.readUint ((advance s 2).registers r) w = 2 ^ (8 * w) - 1 →
      ∃ s1, handle_inc_addr_in_reg s = .ok () s1 ∧
        s1.memory.readUint ((advance s 2).registers r) w = 0 ∧
        (∀ i, i < w → s1.memory.byteAt ((advance s 2).registers r + i) = 0) ∧
        s1.registers .ZERO_FLAG = 1 ∧
        (∀ a, ¬ ((advance s 2).registers r ≤ a ∧ a < (advance s 2).registers r + w) →
          s1.memory.data a = s.memory.data a)) ∧
    (s.memory.size < 18446744073709551616 →
      s.registers .PROGRAM_COUNTER + 9 ≤ s.memory.size →
      operandAt s 0 = w →
      s.memory.readUint (s.registers .PROGRAM_COUNTER + 1) 8 + w ≤ s.memory.size →
      s.memory.readUint (s.memory.readUint (s.registers .PROGRAM_COUNTER + 1) 8) w
        = 2 ^ (8 * w) - 1 →
      ∃ s1, handle_inc_addr_literal s = .ok () s1 ∧
        s1.memory.readUint (s.memory.readUint (s.registers .PROGRAM_COUNTER + 1) 8) w = 0 ∧
        (∀ i, i < w →
          s1.memory.byteAt (s.memory.readUint (s.registers .PROGRAM_COUNTER + 1) 8 + i) = 0) ∧
        s1.registers .ZERO_FLAG = 1 ∧
        (∀ a, ¬ (s.memory.readUint (s.registers .PROGRAM_COUNTER + 1) 8 ≤ a ∧
            a < s.memory.readUint (s.registers .PROGRAM_COUNTER + 1) 8 + w) →
          s1.memory.data a = s.memory.data a)) := by
  have hpos : 0 < w := by omega
  refine ⟨fun p hv => incrementUnsigned_wraps s p w hw hv,
    fun p hv => decrementUnsigned_wraps s p w hw hv, ?_, ?_⟩
  · intro r hcap hpc h0 h1 haddr hv
    rw [handle_inc_addr_in_reg_eq s r hcap hpc h1 (by omega), h0]
    exact incrementUnsigned_wraps (advance s 2) _ w hw hv
  · intro hcap hpc h0 haddr hv
    rw [handle_inc_addr_literal_eq s hcap hpc (by omega), h0]
    exact incrementUnsigned_wraps (advance s 9) _ w hw hv

/-- C5, at concrete inputs of width 1: the byte 255 at address 4 (pointer, then address in
register A) or at address 12 (address literal) is incremented to 0, and the byte 0 at
address 2 is decremented to 255. -/
theorem inc_dec_wraparound_witness :
    (∃ s1, incrementUnsigned 4 1 incRegisterState = .ok () s1 ∧
      s1.memory.readUint 4 1 = 0 ∧ s1.registers .ZERO_FLAG = 1) ∧
    (∃ s1, decrementUnsigned 2 1 incRegisterState = .ok () s1 ∧
      s1.memory.readUint 2 1 = 255) ∧
    (∃ s1, handle_inc_addr_in_reg incRegisterState = .ok () s1 ∧
      s1.memory.readUint 4 1 = 0 ∧ s1.registers .ZERO_FLAG = 1) ∧
    (∃ s1, handle_inc_addr_literal incLiteralState = .ok () s1 ∧
      s1.memory.readUint 12 1 = 0 ∧ s1.registers .ZERO_FLAG = 1) := by
  obtain ⟨h1, h2, h3, _⟩ := inc_dec_wraparound incRegisterState 1 (Or.inl rfl)
  obtain ⟨_, _, _, h4⟩ := inc_dec_wraparound incLiteralState 1 (Or.inl rfl)
  obtain ⟨s1, e1, r1, _, z1, _⟩ := h1 4 (by decide)
  obtain ⟨s2, e2, r2, _, _⟩ := h2 2 (by decide)
  obtain ⟨s3, e3, r3, _, z3, _⟩ :=
    h3 .A (by decide) (by decide) (by decide) (by decide) (by decide) (by decide)
  obtain ⟨s4, e4, r4, _, z4, _⟩ :=
    h4 (by decide) (by decide) (by decide) (by decide) (by decide)
  exact ⟨⟨s1, e1, r1, z1⟩, ⟨s2, e2, r2⟩, ⟨s3, e3, r3, z3⟩, ⟨s4, e4, r4, z4⟩⟩

/-! ## Moves into a register (C6) -/

theorem moveBytesIntoRegister_eq (s : Processor) (p w : Nat) (r : Registers)
    (hw : w = 1 ∨ w = 2 ∨ w = 4 ∨ w = 8) :
    moveBytesIntoRegister p w (some r) s = .ok ()
      { s with registers := fun x => if x = r then s.memory.readUint p w else s.registers x } := by
  rcases hw with h | h | h | h <;> subst h <;>
    simp [moveBytesIntoRegister, bind, Exec.bind, derefUint, setRegisterAt, setRegister]

/-- The decoding of `handle_move_reg_const`: the width byte, the register byte and the
pointer to the immediate, which `moveBytesIntoRegister` receives. -/
theorem handle_move_reg_const_eq (s : Processor) (r : Registers)
    (hcap : s.memory.size < 18446744073709551616)
    (hpc : s.registers .PROGRAM_COUNTER + 2 + operandAt s 0 ≤ s.memory.size)
    (hr : operandAt s 1 = r.toByte) :
    handle_move_reg_const s
      = moveBytesIntoRegister (s.registers .PROGRAM_COUNTER + 2) (operandAt s 0) (some r)
          (advance s (2 + operandAt s 0)) := by
  have h0 : s.registers .PROGRAM_COUNTER < s.memory.size := by omega
  have h1 : s.registers .PROGRAM_COUNTER + 1 < s.memory.size := by omega
  simp only [handle_move_reg_const, bind, Exec.bind, nextByteCode_ok s h0,
    nextByteCode_advance s 1 hcap h1, hr, ofByte_toByte,
    nextByteCodes_advance s 2 _ hcap hpc]

/-- The decoding of `handle_move_reg_addr_in_reg`. -/
theorem handle_move_reg_addr_in_reg_eq (s : Processor) (r1 r2 : Registers)
    (hcap : s.memory.size < 18446744073709551616)
    (hpc : s.registers .PROGRAM_COUNTER + 3 ≤ s.memory.size)
    (hr1 : operandAt s 1 = r1.toByte) (hr2 : operandAt s 2 = r2.toByte)
    (haddr : (advance s 3).registers r2 < s.memory.size) :
    handle_move_reg_addr_in_reg s
      = moveBytesIntoRegister ((advance s 3).registers r2) (operandAt s 0) (some r1)
          (advance s 3) := by
  have h0 : s.registers .PROGRAM_COUNTER < s.memory.size := by omega
  have h1 : s.registers .PROGRAM_COUNTER + 1 < s.memory.size := by omega
  have h2 : s.registers .PROGRAM_COUNTER + 2 < s.memory.size := by omega
  simp only [handle_move_reg_addr_in_reg, bind, Exec.bind, nextByteCode_ok s h0,
    nextByteCode_advance s 1 hcap h1, nextByteCode_advance s 2 hcap h2, hr1, hr2,
    ofByte_toByte, getRegisterAt, getRegister, getBytesMutable_ok (advance s 3) _ haddr]

/-- The decoding of `handle_move_reg_addr_literal`. -/
theorem handle_move_reg_addr_literal_eq (s : Processor) (r : Registers)
    (hcap : s.memory.size < 18446744073709551616)
    (hpc : s.registers .PROGRAM_COUNTER + 10 ≤ s.memory.size)
    (hr : operandAt s 1 = r.toByte)
    (haddr : s.memory.readUint (s.registers .PROGRAM_COUNTER + 2) 8 < s.memory.size) :
    handle_move_reg_addr_literal s
      = moveBytesIntoRegister (s.memory.readUint (s.registers .PROGRAM_COUNTER + 2) 8)
          (operandAt s 0) (some r) (advance s 10) := by
  have h0 : s.registers .PROGRAM_COUNTER < s.memory.size := by omega
  have h1 : s.registers .PROGRAM_COUNTER + 1 < s.memory.size := by omega
  have h2 : s.registers .PROGRAM_COUNTER + 2 + 8 ≤ s.memory.size := by omega
  simp only [handle_move_reg_addr_literal, bind, Exec.bind, nextByteCode_ok s h0,
    nextByteCode_advance s 1 hcap h1, nextByteCodes_advance s 2 8 hcap h2, hr,
    ofByte_toByte, derefUint, advance_memory, getBytesMutable_ok (advance s (2 + 8)) _ haddr]

/-- A value of `w` bytes, seen as a 64-bit value, has its upper bytes zero. -/
theorem readUint_zero_extended (m : Memory) (p w : Nat) :
    m.readUint p w % 2 ^ (8 * w) = m.readUint p w ∧ m.readUint p w / 2 ^ (8 * w) = 0 := by
  have h : m.readUint p w < 2 ^ (8 * w) := by
    have := readUint_lt m w p
    rwa [show (256 : Nat) = 2 ^ 8 by norm_num, ← pow_mul] at this
  exact ⟨Nat.mod_eq_of_lt h, Nat.div_eq_of_lt h⟩

/-- C6: for every width `w` in {1,2,4,8} and every destination register, whatever it held
before, `handle_move_reg_const`, `handle_move_reg_addr_in_reg` and
`handle_move_reg_addr_literal` return with the destination register equal to the `w`-byte
value (the immediate, or the value in memory at the address) zero-extended to 64 bits: its
low `w` bytes are the value and everything above them is 0. -/
theorem move_into_register_zero_extends (s : Processor) (w : Nat) (r : Registers)
    (hw : w = 1 ∨ w = 2 ∨ w = 4 ∨ w = 8)
    (hcap : s.memory.size < 18446744073709551616)
    (hwidth : operandAt s 0 = w) (hr : operandAt s 1 = r.toByte) :
    (s.registers .PROGRAM_COUNTER + 2 + w ≤ s.memory.size →
      ∃ s1, handle_move_reg_const s = .ok () s1 ∧
        s1.registers r = s.memory.readUint (s.registers .PROGRAM_COUNTER + 2) w ∧
        s1.registers r % 2 ^ (8 * w)
          = s.memory.readUint (s.registers .PROGRAM_COUNTER + 2) w ∧
        s1.registers r / 2 ^ (8 * w) = 0) ∧
    (∀ r2 : Registers, s.registers .PROGRAM_COUNTER + 3 ≤ s.memory.size →
      operandAt s 2 = r2.toByte →
      (advance s 3).registers r2 + w ≤ s.memory.size →
      ∃ s1, handle_move_reg_addr_in_reg s = .ok () s1 ∧
        s1.registers r = s.memory.readUint ((advance s 3).registers r2) w ∧
        s1.registers r % 2 ^ (8 * w) = s.memory.readUint ((advance s 3).registers r2) w ∧
        s1.registers r / 2 ^ (8 * w) = 0) ∧
    (s.registers .PROGRAM_COUNTER + 10 ≤ s.memory.size →
      s.memory.readUint (s.registers .PROGRAM_COUNTER + 2) 8 + w ≤ s.memory.size →
      ∃ s1, handle_move_reg_addr_literal s = .ok () s1 ∧
        s1.registers r
          = s.memory.readUint (s.memory.readUint (s.registers .PROGRAM_COUNTER + 2) 8) w ∧
        s1.registers r % 2 ^ (8 * w)
          = s.memory.readUint (s.memory.readUint (s.registers .PROGRAM_COUNTER + 2) 8) w ∧
        s1.registers r / 2 ^ (8 * w) = 0) := by
  have hpos : 0 < w := by omega
  refine ⟨?_, ?_, ?_⟩
  · intro hpc
    rw [handle_move_reg_const_eq s r hcap (by omega) hr, hwidth,
      moveBytesIntoRegister_eq _ _ _ _ hw]
    refine ⟨_, rfl, ?_⟩
    simp only [if_true, advance_memory]
    exact ⟨trivial, readUint_zero_extended _ _ _⟩
  · intro r2 hpc hr2 haddr
    rw [handle_move_reg_addr_in_reg_eq s r r2 hcap hpc hr hr2 (by omega), hwidth,
      moveBytesIntoRegister_eq _ _ _ _ hw]
    refine ⟨_, rfl, ?_⟩
    simp only [if_true, advance_memory]
    exact ⟨trivial, readUint_zero_extended _ _ _⟩
  · intro hpc haddr
    rw [handle_move_reg_addr_literal_eq s r hcap hpc hr (by omega), hwidth,
      moveBytesIntoRegister_eq _ _ _ _ hw]
    refine ⟨_, rfl, ?_⟩
    simp only [if_true, advance_memory]
    exact ⟨trivial, readUint_zero_extended _ _ _⟩

/-- C6, at concrete inputs of width 1 with A holding `2^64 - 1` beforehand: the immediate
255 gives A = 255, the byte 200 at the address held by B gives A = 200, and the byte 200
at the literal address 12 gives A = 200. -/
theorem move_into_register_zero_extends_witness :
    (∃ s1, handle_move_reg_const moveConstState = .ok () s1 ∧ s1.registers .A = 255) ∧
    (∃ s1, handle_move_reg_addr_in_reg moveAddressInRegisterState = .ok () s1 ∧
      s1.registers .A = 200) ∧
    (∃ s1, handle_move_reg_addr_literal moveAddressLiteralState = .ok () s1 ∧
      s1.registers .A = 200) := by
  obtain ⟨h1, _, _⟩ := move_into_register_zero_extends moveConstState 1 .A (Or.inl rfl)
    (by decide) (by decide) (by decide)
  obtain ⟨_, h2, _⟩ := move_into_register_zero_extends moveAddressInRegisterState 1 .A
    (Or.inl rfl) (by decide) (by decide) (by decide)
  obtain ⟨_, _, h3⟩ := move_into_register_zero_extends moveAddressLiteralState 1 .A
    (Or.inl rfl) (by decide) (by decide) (by decide)
  obtain ⟨s1, e1, v1, _⟩ := h1 (by decide)
  obtain ⟨s2, e2, v2, _⟩ := h2 .B (by decide) (by decide) (by decide)
  obtain ⟨s3, e3, v3, _⟩ := h3 (by decide) (by decide)
  exact ⟨⟨s1, e1, by rw [v1]; decide⟩, ⟨s2, e2, by rw [v2]; decide⟩,
    ⟨s3, e3, by rw [v3]; decide⟩⟩

/-! ## The `running` flag and the execution loop (C7) -/

theorem keepsRunning_bind {α β : Type} {m : Exec α} {f : α → Exec β}
    (hm : KeepsRunning m) (hf : ∀ a, KeepsRunning (f a)) : KeepsRunning (m >>= f) := by
  intro s
  have h1 := hm s
  simp only [Bind.bind, Exec.bind]
  cases h : m s with
  | ok a s1 =>
    rw [h] at h1
    simp only
    rw [hf a s1]
    exact h1
  | fault k s1 => rw [h] at h1; exact h1
  | undefined s1 => rw [h] at h1; exact h1

theorem keepsRunning_pure {α : Type} (a : α) : KeepsRunning (Exec.pure a) := fun _ => rfl

theorem keepsRunning_throwFault {α : Type} (k : Fault) :
    KeepsRunning (throwFault k : Exec α) := fun _ => rfl

theorem keepsRunning_undefinedBehaviour {α : Type} :
    KeepsRunning (undefinedBehaviour : Exec α) := fun _ => rfl

theorem keepsRunning_getRegister (r : Registers) : KeepsRunning (getRegister r) := fun _ => rfl

theorem keepsRunning_setRegister (r : Registers) (v : Nat) :
    KeepsRunning (setRegister r v) := fun _ => rfl

theorem keepsRunning_derefUint (p w : Nat) : KeepsRunning (derefUint p w) := fun _ => rfl

theorem keepsRunning_storeUint (p w v : Nat) : KeepsRunning (storeUint p w v) := fun _ => rfl

theorem keepsRunning_readMemory {α : Type} (f : Memory → Except Fault α) :
    KeepsRunning (readMemory f) := by
  intro s
  unfold readMemory
  cases f s.memory <;> rfl

theorem keepsRunning_updateMemory (f : Memory → Except Fault Memory) :
    KeepsRunning (updateMemory f) := by
  intro s
  unfold updateMemory
  cases f s.memory <;> rfl

theorem keepsRunning_getRegisterAt (r : RegisterOperand) : KeepsRunning (getRegisterAt r) := by
  cases r
  · exact keepsRunning_undefinedBehaviour
  · exact keepsRunning_getRegister _

theorem keepsRunning_setRegisterAt (r : RegisterOperand) (v : Nat) :
    KeepsRunning (setRegisterAt r v) := by
  cases r
  · exact keepsRunning_undefinedBehaviour
  · exact keepsRunning_setRegister _ _

theorem keepsRunning_ite {α : Type} (c : Prop) [Decidable c] {a b : Exec α}
    (ha : KeepsRunning a) (hb : KeepsRunning b) : KeepsRunning (if c then a else b) := by
  split
  · exact ha
  · exact hb

theorem keepsRunning_setArithmeticalFlags (result : Int) (remainder : Nat) :
    KeepsRunning (setArithmeticalFlags result remainder) := fun _ => rfl

theorem keepsRunning_clearVolatileRegisters : KeepsRunning clearVolatileRegisters :=
  fun _ => rfl

theorem keepsRunning_nextByteCode : KeepsRunning nextByteCode := by
  unfold nextByteCode
  exact keepsRunning_bind (keepsRunning_getRegister _) fun _ =>
    keepsRunning_bind (keepsRunning_getRegister _) fun _ =>
    keepsRunning_bind (keepsRunning_setRegister _ _) fun _ => keepsRunning_readMemory _

theorem keepsRunning_nextByteCodes (n : Nat) : KeepsRunning (nextByteCodes n) := by
  unfold nextByteCodes
  exact keepsRunning_bind (keepsRunning_getRegister _) fun _ =>
    keepsRunning_bind (keepsRunning_getRegister _) fun _ =>
    keepsRunning_bind (keepsRunning_setRegister _ _) fun _ => keepsRunning_readMemory _

theorem keepsRunning_umod64 (a b : Nat) : KeepsRunning (umod64 a b) :=
  keepsRunning_ite _ keepsRunning_undefinedBehaviour (keepsRunning_pure _)

theorem keepsRunning_udiv64 (a b : Nat) : KeepsRunning (udiv64 a b) :=
  keepsRunning_ite _ keepsRunning_undefinedBehaviour (keepsRunning_pure _)

theorem keepsRunning_addUnsignedCase (p w : Nat) (delta : Int) (conv : Nat → Int) :
    KeepsRunning (addUnsignedCase p w delta conv) := by
  unfold addUnsignedCase
  exact keepsRunning_bind (keepsRunning_derefUint _ _) fun _ =>
    keepsRunning_bind (keepsRunning_storeUint _ _ _) fun _ =>
    keepsRunning_bind (keepsRunning_derefUint _ _) fun _ => keepsRunning_setArithmeticalFlags _ _

theorem keepsRunning_incrementUnsigned (p w : Nat) : KeepsRunning (incrementUnsigned p w) := by
  unfold incrementUnsigned
  exact keepsRunning_ite _ (keepsRunning_addUnsignedCase _ _ _ _)
    (keepsRunning_ite _ (keepsRunning_addUnsignedCase _ _ _ _)
      (keepsRunning_ite _ (keepsRunning_addUnsignedCase _ _ _ _)
        (keepsRunning_ite _ (keepsRunning_addUnsignedCase _ _ _ _)
          (keepsRunning_throwFault _))))

theorem keepsRunning_decrementUnsigned (p w : Nat) : KeepsRunning (decrementUnsigned p w) := by
  unfold decrementUnsigned
  exact keepsRunning_ite _ (keepsRunning_addUnsignedCase _ _ _ _)
    (keepsRunning_ite _ (keepsRunning_addUnsignedCase _ _ _ _)
      (keepsRunning_ite _ (keepsRunning_addUnsignedCase _ _ _ _)
        (keepsRunning_ite _ (keepsRunning_addUnsignedCase _ _ _ _)
          (keepsRunning_throwFault _))))

theorem keepsRunning_moveBytesIntoRegister (p w : Nat) (r : RegisterOperand) :
    KeepsRunning (moveBytesIntoRegister p w r) := by
  unfold moveBytesIntoRegister
  have h : ∀ k, KeepsRunning (do setRegisterAt r (← derefUint p k)) := fun k =>
    keepsRunning_bind (keepsRunning_derefUint _ _) fun _ => keepsRunning_setRegisterAt _ _
  exact keepsRunning_ite _ (h 1) (keepsRunning_ite _ (h 2) (keepsRunning_ite _ (h 4)
    (keepsRunning_ite _ (h 8) (keepsRunning_throwFault _))))

theorem keepsRunning_arithmetic (f : Nat → Nat → Int) :
    KeepsRunning (do
      let a ← getRegister .A
      let b ← getRegister .B
      setRegister .A (wrap64 (f a b))
      let r ← getRegister .A
      setArithmeticalFlags (toInt64 r) 0) :=
  keepsRunning_bind (keepsRunning_getRegister _) fun _ =>
    keepsRunning_bind (keepsRunning_getRegister _) fun _ =>
    keepsRunning_bind (keepsRunning_setRegister _ _) fun _ =>
    keepsRunning_bind (keepsRunning_getRegister _) fun _ => keepsRunning_setArithmeticalFlags _ _

theorem keepsRunning_handle_div : KeepsRunning handle_div := by
  unfold handle_div
  exact keepsRunning_bind (keepsRunning_getRegister _) fun _ =>
    keepsRunning_bind (keepsRunning_getRegister _) fun _ =>
    keepsRunning_bind (keepsRunning_umod64 _ _) fun _ =>
    keepsRunning_bind (keepsRunning_getRegister _) fun _ =>
    keepsRunning_bind (keepsRunning_getRegister _) fun _ =>
    keepsRunning_bind (keepsRunning_udiv64 _ _) fun _ =>
    keepsRunning_bind (keepsRunning_setRegister _ _) fun _ =>
    keepsRunning_bind (keepsRunning_getRegister _) fun _ => keepsRunning_setArithmeticalFlags _ _

theorem keepsRunning_handle_mod : KeepsRunning handle_mod := by
  unfold handle_mod
  exact keepsRunning_bind (keepsRunning_getRegister _) fun _ =>
    keepsRunning_bind (keepsRunning_getRegister _) fun _ =>
    keepsRunning_bind (keepsRunning_umod64 _ _) fun _ =>
    keepsRunning_bind (keepsRunning_setRegister _ _) fun _ =>
    keepsRunning_bind (keepsRunning_getRegister _) fun _ => keepsRunning_setArithmeticalFlags _ _

theorem keepsRunning_handle_inc_reg : KeepsRunning handle_inc_reg := by
  unfold handle_inc_reg
  exact keepsRunning_bind keepsRunning_nextByteCode fun _ =>
    keepsRunning_bind (keepsRunning_getRegisterAt _) fun _ =>
    keepsRunning_bind (keepsRunning_setRegisterAt _ _) fun _ =>
    keepsRunning_bind (keepsRunning_getRegisterAt _) fun _ => keepsRunning_setArithmeticalFlags _ _

theorem keepsRunning_handle_dec_reg : KeepsRunning handle_dec_reg := by
  unfold handle_dec_reg
  exact keepsRunning_bind keepsRunning_nextByteCode fun _ =>
    keepsRunning_bind (keepsRunning_getRegisterAt _) fun _ =>
    keepsRunning_bind (keepsRunning_setRegisterAt _ _) fun _ =>
    keepsRunning_bind (keepsRunning_getRegisterAt _) fun _ => keepsRunning_setArithmeticalFlags _ _

theorem keepsRunning_handle_inc_addr_in_reg : KeepsRunning handle_inc_addr_in_reg := by
  unfold handle_inc_addr_in_reg
  exact keepsRunning_bind keepsRunning_nextByteCode fun _ =>
    keepsRunning_bind keepsRunning_nextByteCode fun _ =>
    keepsRunning_bind (keepsRunning_getRegisterAt _) fun _ =>
    keepsRunning_bind (keepsRunning_readMemory _) fun _ => keepsRunning_incrementUnsigned _ _

theorem keepsRunning_handle_dec_addr_in_reg : KeepsRunning handle_dec_addr_in_reg := by
  unfold handle_dec_addr_in_reg
  exact keepsRunning_bind keepsRunning_nextByteCode fun _ =>
    keepsRunning_bind keepsRunning_nextByteCode fun _ =>
    keepsRunning_bind (keepsRunning_getRegisterAt _) fun _ =>
    keepsRunning_bind (keepsRunning_readMemory _) fun _ => keepsRunning_decrementUnsigned _ _

theorem keepsRunning_handle_inc_addr_literal : KeepsRunning handle_inc_addr_literal := by
  unfold handle_inc_addr_literal
  exact keepsRunning_bind keepsRunning_nextByteCode fun _ =>
    keepsRunning_bind (keepsRunning_nextByteCodes _) fun _ =>
    keepsRunning_bind (keepsRunning_derefUint _ _) fun _ =>
    keepsRunning_bind (keepsRunning_readMemory _) fun _ => keepsRunning_incrementUnsigned _ _

theorem keepsRunning_handle_dec_addr_literal : KeepsRunning handle_dec_addr_literal := by
  unfold handle_dec_addr_literal
  exact keepsRunning_bind keepsRunning_nextByteCode fun _ =>
    keepsRunning_bind (keepsRunning_nextByteCodes _) fun _ =>
    keepsRunning_bind (keepsRunning_derefUint _ _) fun _ =>
    keepsRunning_bind (keepsRunning_readMemory _) fun _ => keepsRunning_decrementUnsigned _ _

theorem keepsRunning_handle_move_reg_reg : KeepsRunning handle_move_reg_reg := by
  unfold handle_move_reg_reg
  exact keepsRunning_bind keepsRunning_nextByteCode fun _ =>
    keepsRunning_bind keepsRunning_nextByteCode fun _ =>
    keepsRunning_bind (keepsRunning_getRegisterAt _) fun _ => keepsRunning_setRegisterAt _ _

theorem keepsRunning_handle_move_reg_addr_in_reg :
    KeepsRunning handle_move_reg_addr_in_reg := by
  unfold handle_move_reg_addr_in_reg
  exact keepsRunning_bind keepsRunning_nextByteCode fun _ =>
    keepsRunning_bind keepsRunning_nextByteCode fun _ =>
    keepsRunning_bind keepsRunning_nextByteCode fun _ =>
    keepsRunning_bind (keepsRunning_getRegisterAt _) fun _ =>
    keepsRunning_bind (keepsRunning_readMemory _) fun _ => keepsRunning_moveBytesIntoRegister _ _ _

theorem keepsRunning_handle_move_reg_const : KeepsRunning handle_move_reg_const := by
  unfold handle_move_reg_const
  exact keepsRunning_bind keepsRunning_nextByteCode fun _ =>
    keepsRunning_bind keepsRunning_nextByteCode fun _ =>
    keepsRunning_bind (keepsRunning_nextByteCodes _) fun _ => keepsRunning_moveBytesIntoRegister _ _ _

theorem keepsRunning_handle_move_reg_addr_literal :
    KeepsRunning handle_move_reg_addr_literal := by
  unfold handle_move_reg_addr_literal
  exact keepsRunning_bind keepsRunning_nextByteCode fun _ =>
    keepsRunning_bind keepsRunning_nextByteCode fun _ =>
    keepsRunning_bind (keepsRunning_nextByteCodes _) fun _ =>
    keepsRunning_bind (keepsRunning_derefUint _ _) fun _ =>
    keepsRunning_bind (keepsRunning_readMemory _) fun _ => keepsRunning_moveBytesIntoRegister _ _ _

theorem keepsRunning_handle_move_addr_in_reg_reg :
    KeepsRunning handle_move_addr_in_reg_reg := by
  unfold handle_move_addr_in_reg_reg
  exact keepsRunning_bind keepsRunning_nextByteCode fun _ =>
    keepsRunning_bind keepsRunning_nextByteCode fun _ =>
    keepsRunning_bind keepsRunning_nextByteCode fun _ =>
    keepsRunning_bind (keepsRunning_getRegisterAt _) fun _ =>
    keepsRunning_bind (keepsRunning_readMemory _) fun _ => keepsRunning_pure _

/-- No instruction handler assigns `running`. -/
theorem keepsRunning_exec (h : Handler) : KeepsRunning h.exec := by
  cases h
  · exact keepsRunning_arithmetic fun a b => (a : Int) + (b : Int)
  · exact keepsRunning_arithmetic fun a b => (a : Int) - (b : Int)
  · exact keepsRunning_arithmetic fun a b => (a : Int) * (b : Int)
  · exact keepsRunning_handle_div
  · exact keepsRunning_handle_mod
  · exact keepsRunning_handle_inc_reg
  · exact keepsRunning_handle_inc_addr_in_reg
  · exact keepsRunning_handle_inc_addr_literal
  · exact keepsRunning_handle_dec_reg
  · exact keepsRunning_handle_dec_addr_in_reg
  · exact keepsRunning_handle_dec_addr_literal
  · exact keepsRunning_pure ()
  · exact keepsRunning_handle_move_reg_reg
  · exact keepsRunning_handle_move_reg_addr_in_reg
  · exact keepsRunning_handle_move_reg_const
  · exact keepsRunning_handle_move_reg_addr_literal
  · exact keepsRunning_handle_move_addr_in_reg_reg

theorem keepsRunning_dispatch (table : HandlerTable) (opCode : Nat) :
    KeepsRunning (dispatch table opCode) := by
  unfold dispatch
  cases table opCode
  · exact keepsRunning_throwFault _
  · exact keepsRunning_exec _

/-- No step of the loop body assigns `running`. -/
theorem keepsRunning_runIteration (table : HandlerTable) :
    KeepsRunning (runIteration table) := by
  unfold runIteration
  exact keepsRunning_bind keepsRunning_nextByteCode fun _ =>
    keepsRunning_bind (keepsRunning_dispatch _ _) fun _ => keepsRunning_clearVolatileRegisters

/-- The loop of `run`, entered with `running` set, is never left by a normal return. -/
theorem run_never_returns (table : HandlerTable) (fuel : Nat) :
    ∀ s : Processor, s.running = true → ∀ s1, run table fuel s ≠ .returned s1 := by
  induction fuel with
  | zero =>
    intro s hs s1
    simp [run, hs]
  | succ n ih =>
    intro s hs s1
    have hk := keepsRunning_runIteration table s
    simp only [run, hs, if_true]
    cases h : runIteration table s with
    | ok a s2 =>
      rw [h] at hk
      exact ih s2 (by rw [← hs]; exact hk) s1
    | fault k s2 => simp
    | undefined s2 => simp

theorem addition_program_three_steps (table : HandlerTable) (opMove opAdd opHalt : Nat)
    (data : Nat → Nat)
    (hmove : table opMove = some .move_reg_const) (hadd : table opAdd = some .add)
    (h1 : opMove < 256) (h2 : opAdd < 256) :
    ∃ s3, execute table 3 (additionProgram opMove opAdd opHalt) 10 (freshProcessor data)
        = .outOfFuel s3 ∧
      s3.registers .A = 8 ∧ s3.registers .ZERO_FLAG = 0 ∧ s3.registers .SIGN_FLAG = 0 ∧
      s3.registers .REMAINDER_FLAG = 0 ∧ s3.registers .PROGRAM_COUNTER = 9 ∧
      s3.running = true := by
  have e1 : opMove % 256 = opMove := Nat.mod_eq_of_lt h1
  have e2 : opAdd % 256 = opAdd := Nat.mod_eq_of_lt h2
  simp [execute, pushStackBytes, run, runIteration, dispatch, hmove, hadd, Handler.exec,
    handle_move_reg_const, handle_add, nextByteCode, nextByteCodes, moveBytesIntoRegister,
    setArithmeticalFlags, clearVolatileRegisters, getRegister, setRegister, setRegisterAt,
    derefUint, readMemory, updateMemory, Memory.setBytes, Memory.getByte, Memory.getBytes,
    Memory.byteAt, Memory.readUint, bind, Exec.bind, additionProgram, freshProcessor,
    wrap64, toInt64, boolToNat, Registers.toByte, Registers.ofByte, e1, e2]

/-- C7, as the code behaves: on a freshly constructed processor of capacity 65536, for every
handler table that maps the two opcodes used to `handle_move_reg_const` and `handle_add`,
`execute` on the program reaches, after its three instructions, a state with A = 8,
ZERO_FLAG = 0, SIGN_FLAG = 0, REMAINDER_FLAG = 0 and PROGRAM_COUNTER at the halt byte, the
loop still running; and for no number of iterations does `execute` return normally. -/
theorem addition_program_never_finishes (table : HandlerTable) (opMove opAdd opHalt : Nat)
    (data : Nat → Nat)
    (hmove : table opMove = some .move_reg_const) (hadd : table opAdd = some .add)
    (h1 : opMove < 256) (h2 : opAdd < 256) :
    (∃ s3, execute table 3 (additionProgram opMove opAdd opHalt) 10 (freshProcessor data)
        = .outOfFuel s3 ∧
      s3.registers .A = 8 ∧ s3.registers .ZERO_FLAG = 0 ∧ s3.registers .SIGN_FLAG = 0 ∧
      s3.registers .REMAINDER_FLAG = 0 ∧ s3.registers .PROGRAM_COUNTER = 9 ∧
      s3.running = true) ∧
    (∀ fuel s1, execute table fuel (additionProgram opMove opAdd opHalt) 10
        (freshProcessor data) ≠ .returned s1) := by
  refine ⟨addition_program_three_steps table opMove opAdd opHalt data hmove hadd h1 h2, ?_⟩
  intro fuel s1
  have hfit : (freshProcessor data).registers .STACK_POINTER + 10
      ≤ (freshProcessor data).memory.size := by
    show (0 : Nat) + 10 ≤ 65536
    decide
  unfold execute
  rw [pushStackBytes_ok _ _ _ hfit]
  exact run_never_returns table fuel _ rfl s1

/-- C7, for the example table (ADD at opcode 0, MOVE register from immediate at opcode 14,
the unmapped byte 255 as halt opcode) and a zeroed buffer. -/
theorem addition_program_never_finishes_witness :
    (∃ s3, execute exampleTable 3 (additionProgram 14 0 255) 10 (freshProcessor fun _ => 0)
        = .outOfFuel s3 ∧
      s3.registers .A = 8 ∧ s3.registers .ZERO_FLAG = 0 ∧ s3.registers .SIGN_FLAG = 0 ∧
      s3.registers .REMAINDER_FLAG = 0 ∧ s3.registers .PROGRAM_COUNTER = 9 ∧
      s3.running = true) ∧
    (∀ fuel s1, execute exampleTable fuel (additionProgram 14 0 255) 10
        (freshProcessor fun _ => 0) ≠ .returned s1) :=
  addition_program_never_finishes exampleTable 14 0 255 (fun _ => 0) rfl rfl
    (by decide) (by decide)

/-! ## Unmapped opcodes (C8) -/

theorem runIteration_unmapped (table : HandlerTable) (s : Processor)
    (hpc : s.registers .PROGRAM_COUNTER < s.memory.size)
    (hop : table (operandAt s 0) = none) :
    runIteration table s = .fault .UnknownOpcode (advance s 1) := by
  simp only [runIteration, bind, Exec.bind, nextByteCode_ok s hpc, dispatch, hop, throwFault]

/-- C8, as stated, fails at `unknownOpcodeState` with the example table: the byte at
PROGRAM_COUNTER is unmapped and the iteration ends with `UnknownOpcode`, but
PROGRAM_COUNTER is 1 and no longer 0, so not every register is as before the fetch. -/
theorem unknown_opcode_moves_program_counter :
    exampleTable (operandAt unknownOpcodeState 0) = none ∧
    (runIteration exampleTable unknownOpcodeState).faultKind = some .UnknownOpcode ∧
    unknownOpcodeState.registers .PROGRAM_COUNTER = 0 ∧
    (runIteration exampleTable unknownOpcodeState).state.registers .PROGRAM_COUNTER = 1 ∧
    ¬ (∀ r, (runIteration exampleTable unknownOpcodeState).state.registers r
        = unknownOpcodeState.registers r) := by
  refine ⟨by decide, by decide, by decide, by decide, ?_⟩
  intro h
  have := h .PROGRAM_COUNTER
  revert this
  decide

/-- C8, amended: for every handler table and every state whose PROGRAM_COUNTER lies inside
the memory and designates a byte with no mapped handler, one iteration of the loop of `run`
ends with `UnknownOpcode`; the memory, the `running` flag and every register other than
PROGRAM_COUNTER are as before the fetch, and PROGRAM_COUNTER has moved forward by one
(modulo `2^64`). -/
theorem unknown_opcode_fault (table : HandlerTable) (s : Processor)
    (hpc : s.registers .PROGRAM_COUNTER < s.memory.size)
    (hop : table (s.memory.byteAt (s.registers .PROGRAM_COUNTER)) = none) :
    ∃ s1, runIteration table s = .fault .UnknownOpcode s1 ∧
      s1.memory = s.memory ∧ s1.running = s.running ∧
      (∀ r, r ≠ .PROGRAM_COUNTER → s1.registers r = s.registers r) ∧
      s1.registers .PROGRAM_COUNTER
        = (s.registers .PROGRAM_COUNTER + 1) % 18446744073709551616 := by
  refine ⟨_, runIteration_unmapped table s hpc (by simpa [operandAt] using hop), rfl, rfl,
    fun r hr => advance_other s 1 r hr, ?_⟩
  rw [advance_pc]
  exact wrap64_add _ 1

/-- C8, amended, at `unknownOpcodeState` with the example table. -/
theorem unknown_opcode_fault_witness :
    ∃ s1, runIteration exampleTable unknownOpcodeState = .fault .UnknownOpcode s1 ∧
      s1.memory = unknownOpcodeState.memory ∧ s1.running = unknownOpcodeState.running ∧
      (∀ r, r ≠ .PROGRAM_COUNTER → s1.registers r = unknownOpcodeState.registers r) ∧
      s1.registers .PROGRAM_COUNTER
        = (unknownOpcodeState.registers .PROGRAM_COUNTER + 1) % 18446744073709551616 :=
  unknown_opcode_fault exampleTable unknownOpcodeState (by decide) (by decide)

/-! ## Invalid widths (C9) -/

theorem incrementUnsigned_invalid (s : Processor) (p w : Nat)
    (hw : w ≠ 1 ∧ w ≠ 2 ∧ w ≠ 4 ∧ w ≠ 8) :
    incrementUnsigned p w s = .fault .InvalidOperandSize s := by
  simp only [incrementUnsigned, if_neg hw.1, if_neg hw.2.1, if_neg hw.2.2.1, if_neg hw.2.2.2,
    throwFault]

theorem decrementUnsigned_invalid (s : Processor) (p w : Nat)
    (hw : w ≠ 1 ∧ w ≠ 2 ∧ w ≠ 4 ∧ w ≠ 8) :
    decrementUnsigned p w s = .fault .InvalidOperandSize s := by
  simp only [decrementUnsigned, if_neg hw.1, if_neg hw.2.1, if_neg hw.2.2.1, if_neg hw.2.2.2,
    throwFault]

theorem moveBytesIntoRegister_invalid (s : Processor) (p w : Nat) (r : RegisterOperand)
    (hw : w ≠ 1 ∧ w ≠ 2 ∧ w ≠ 4 ∧ w ≠ 8) :
    moveBytesIntoRegister p w r s = .fault .InvalidOperandSize s := by
  simp only [moveBytesIntoRegister, if_neg hw.1, if_neg hw.2.1, if_neg hw.2.2.1,
    if_neg hw.2.2.2, throwFault]

theorem failsWithInvalidSize_advance (h : Exec Unit) (s : Processor) (n : Nat)
    (e : h s = .fault .InvalidOperandSize (advance s n)) : FailsWithInvalidSize h s :=
  ⟨_, e, rfl, fun r hr => advance_other s n r hr⟩

/-- C9, as stated, fails in two ways.  At `invalidWidthState` (width byte 3)
`handle_move_addr_in_reg_reg` returns normally.  At `invalidWidthFarState` (width byte 3,
address 100 in a memory of 16 bytes) `handle_inc_addr_in_reg` ends with `MemoryFault`, the
pointer being requested before the width is examined. -/
theorem invalid_width_not_always_reported :
    operandAt invalidWidthState 0 = 3 ∧
    (handle_move_addr_in_reg_reg invalidWidthState).isOk = true ∧
    (handle_move_addr_in_reg_reg invalidWidthState).faultKind = none ∧
    operandAt invalidWidthFarState 0 = 3 ∧
    (handle_inc_addr_in_reg invalidWidthFarState).faultKind = some .MemoryFault := by
  decide

/-- C9, amended: for every width byte `w` outside {1,2,4,8}, each of the handlers INC and DEC
of memory (address in a register or address literal), MOVE register from immediate and
MOVE register from memory (address in a register or address literal), when its operand
bytes lie inside the memory, its register bytes name registers and the address it decodes
lies inside the memory, ends with `InvalidOperandSize`, the memory and every register other
than PROGRAM_COUNTER being unmodified. -/
theorem invalid_width_fault (s : Processor) (w : Nat)
    (hw : w ≠ 1 ∧ w ≠ 2 ∧ w ≠ 4 ∧ w ≠ 8)
    (hcap : s.memory.size < 18446744073709551616)
    (hwidth : operandAt s 0 = w) :
    (∀ r : Registers, s.registers .PROGRAM_COUNTER + 2 ≤ s.memory.size →
      operandAt s 1 = r.toByte → (advance s 2).registers r < s.memory.size →
      FailsWithInvalidSize handle_inc_addr_in_reg s ∧
      FailsWithInvalidSize handle_dec_addr_in_reg s) ∧
    (s.registers .PROGRAM_COUNTER + 9 ≤ s.memory.size →
      s.memory.readUint (s.registers .PROGRAM_COUNTER + 1) 8 < s.memory.size →
      FailsWithInvalidSize handle_inc_addr_literal s ∧
      FailsWithInvalidSize handle_dec_addr_literal s) ∧
    (∀ r : Registers, s.registers .PROGRAM_COUNTER + 2 + w ≤ s.memory.size →
      operandAt s 1 = r.toByte →
      FailsWithInvalidSize handle_move_reg_const s) ∧
    (∀ r1 r2 : Registers, s.registers .PROGRAM_COUNTER + 3 ≤ s.memory.size →
      operandAt s 1 = r1.toByte → operandAt s 2 = r2.toByte →
      (advance s 3).registers r2 < s.memory.size →
      FailsWithInvalidSize handle_move_reg_addr_in_reg s) ∧
    (∀ r : Registers, s.registers .PROGRAM_COUNTER + 10 ≤ s.memory.size →
      operandAt s 1 = r.toByte →
      s.memory.readUint (s.registers .PROGRAM_COUNTER + 2) 8 < s.memory.size →
      FailsWithInvalidSize handle_move_reg_addr_literal s) := by
  refine ⟨?_, ?_, ?_, ?_, ?_⟩
  · intro r hpc hr haddr
    constructor
    · apply failsWithInvalidSize_advance _ s 2
      rw [handle_inc_addr_in_reg_eq s r hcap hpc hr haddr, hwidth,
        incrementUnsigned_invalid _ _ _ hw]
    · apply failsWithInvalidSize_advance _ s 2
      rw [handle_dec_addr_in_reg_eq s r hcap hpc hr haddr, hwidth,
        decrementUnsigned_invalid _ _ _ hw]
  · intro hpc haddr
    constructor
    · apply failsWithInvalidSize_advance _ s 9
      rw [handle_inc_addr_literal_eq s hcap hpc haddr, hwidth,
        incrementUnsigned_invalid _ _ _ hw]
    · apply failsWithInvalidSize_advance _ s 9
      rw [handle_dec_addr_literal_eq s hcap hpc haddr, hwidth,
        decrementUnsigned_invalid _ _ _ hw]
  · intro r hpc hr
    apply failsWithInvalidSize_advance _ s (2 + w)
    rw [handle_move_reg_const_eq s r hcap (by omega) hr, hwidth,
      moveBytesIntoRegister_invalid _ _ _ _ hw]
  · intro r1 r2 hpc hr1 hr2 haddr
    apply failsWithInvalidSize_advance _ s 3
    rw [handle_move_reg_addr_in_reg_eq s r1 r2 hcap hpc hr1 hr2 haddr, hwidth,
      moveBytesIntoRegister_invalid _ _ _ _ hw]
  · intro r hpc hr haddr
    apply failsWithInvalidSize_advance _ s 10
    rw [handle_move_reg_addr_literal_eq s r hcap hpc hr haddr, hwidth,
      moveBytesIntoRegister_invalid _ _ _ _ hw]

/-- C9, amended, at `invalidWidthState` (width byte 3, register A holding the address 4,
address literal 0). -/
theorem invalid_width_fault_witness :
    FailsWithInvalidSize handle_inc_addr_in_reg invalidWidthState ∧
    FailsWithInvalidSize handle_dec_addr_in_reg invalidWidthState ∧
    FailsWithInvalidSize handle_inc_addr_literal invalidWidthState ∧
    FailsWithInvalidSize handle_dec_addr_literal invalidWidthState ∧
    FailsWithInvalidSize handle_move_reg_const invalidWidthState ∧
    FailsWithInvalidSize handle_move_reg_addr_in_reg invalidWidthState ∧
    FailsWithInvalidSize handle_move_reg_addr_literal invalidWidthState := by
  obtain ⟨h1, h2, h3, h4, h5⟩ :=
    invalid_width_fault invalidWidthState 3 (by decide) (by decide) (by decide)
  obtain ⟨a1, a2⟩ := h1 .A (by decide) (by decide) (by decide)
  obtain ⟨b1, b2⟩ := h2 (by decide) (by decide)
  exact ⟨a1, a2, b1, b2, h3 .A (by decide) (by decide),
    h4 .A .A (by decide) (by decide) (by decide) (by decide),
    h5 .A (by decide) (by decide) (by decide)⟩

/-! ## The store handler (C10) -/

theorem keepsMemory_bind {α β : Type} {m : Exec α} {f : α → Exec β}
    (hm : KeepsMemory m) (hf : ∀ a, KeepsMemory (f a)) : KeepsMemory (m >>= f) := by
  intro s
  have h1 := hm s
  simp only [Bind.bind, Exec.bind]
  cases h : m s with
  | ok a s1 =>
    rw [h] at h1
    simp only
    rw [hf a s1]
    exact h1
  | fault k s1 => rw [h] at h1; exact h1
  | undefined s1 => rw [h] at h1; exact h1

theorem keepsMemory_readMemory {α : Type} (f : Memory → Except Fault α) :
    KeepsMemory (readMemory f) := by
  intro s
  unfold readMemory
  cases f s.memory <;> rfl

theorem keepsMemory_nextByteCode : KeepsMemory nextByteCode := by
  unfold nextByteCode
  exact keepsMemory_bind (fun _ => rfl) fun _ => keepsMemory_bind (fun _ => rfl) fun _ =>
    keepsMemory_bind (fun _ => rfl) fun _ => keepsMemory_readMemory _

theorem keepsMemory_getRegisterAt (r : RegisterOperand) : KeepsMemory (getRegisterAt r) := by
  cases r
  · exact fun _ => rfl
  · exact fun _ => rfl

theorem keepsMemory_handle_move_addr_in_reg_reg : KeepsMemory handle_move_addr_in_reg_reg := by
  unfold handle_move_addr_in_reg_reg
  exact keepsMemory_bind keepsMemory_nextByteCode fun _ =>
    keepsMemory_bind keepsMemory_nextByteCode fun _ =>
    keepsMemory_bind keepsMemory_nextByteCode fun _ =>
    keepsMemory_bind (keepsMemory_getRegisterAt _) fun _ =>
    keepsMemory_bind (keepsMemory_readMemory _) fun _ => fun _ => rfl

/-- C10, as the code behaves: `handle_move_addr_in_reg_reg` writes no memory cell, in any
state and however it ends.  At `storeState` (width 1, address 4 in A, source B = 171) it
returns normally and the byte at address 4 is still 0, not the low byte 171 of B. -/
theorem store_to_memory_stores_nothing :
    (∀ s, (handle_move_addr_in_reg_reg s).state.memory = s.memory) ∧
    operandAt storeState 0 = 1 ∧
    Registers.ofByte (operandAt storeState 1) = some .A ∧
    Registers.ofByte (operandAt storeState 2) = some .B ∧
    storeState.registers .A = 4 ∧ storeState.registers .B % 256 = 171 ∧
    (handle_move_addr_in_reg_reg storeState).isOk = true ∧
    (handle_move_addr_in_reg_reg storeState).state.memory.byteAt 4 = 0 :=
  ⟨keepsMemory_handle_move_addr_in_reg_reg, by decide, by decide, by decide, by decide,
    by decide, by decide, by decide⟩

/-! ## Flags of the memory increment and decrement (C11) -/

theorem wrapBytes_succ (w v : Nat) (hw : w = 1 ∨ w = 2 ∨ w = 4 ∨ w = 8) :
    wrapBytes w ((v : Int) + 1) = (v + 1) % 2 ^ (8 * w) := by
  rcases hw with h | h | h | h <;> subst h <;> (simp only [wrapBytes]; norm_num; omega)

theorem wrapBytes_pred (w v : Nat) (hw : w = 1 ∨ w = 2 ∨ w = 4 ∨ w = 8) :
    wrapBytes w ((v : Int) + (-1)) = (v + 2 ^ (8 * w) - 1) % 2 ^ (8 * w) := by
  rcases hw with h | h | h | h <;> subst h <;> (simp only [wrapBytes]; norm_num; omega)

/-- The memory value and the flags after one case of the width switches, for a stored value
that fits `w` bytes. -/
theorem afterMemoryArithmetic_flags (s : Processor) (p w v : Nat)
    (hw : w = 1 ∨ w = 2 ∨ w = 4 ∨ w = 8) (hv : v < 2 ^ (8 * w)) :
    (afterMemoryArithmetic s p w v
        (widthConv w ((s.memory.writeUint p w v).readUint p w))).memory.readUint p w = v ∧
    NarrowFlags (afterMemoryArithmetic s p w v
        (widthConv w ((s.memory.writeUint p w v).readUint p w))) w v := by
  have h256 : (256 : Nat) ^ w = 2 ^ (8 * w) := by
    rw [show (256 : Nat) = 2 ^ 8 by norm_num, ← pow_mul]
  have hr : (s.memory.writeUint p w v).readUint p w = v := by
    rw [readUint_writeUint, h256, Nat.mod_eq_of_lt hv]
  rw [hr]
  refine ⟨?_, ?_⟩
  · simp only [afterMemoryArithmetic, readUint_writeUint, h256, Nat.mod_eq_of_lt hv]
  · by_cases h8 : w = 8
    · subst h8
      have hv64 : v < 18446744073709551616 := by norm_num at hv; exact hv
      simp [NarrowFlags, afterMemoryArithmetic, widthConv, boolToNat,
        toInt64_eq_zero_iff v hv64, toInt64_neg_iff v hv64]
    · simp [NarrowFlags, afterMemoryArithmetic, widthConv, boolToNat, h8]

theorem incrementUnsigned_flags (s : Processor) (p w : Nat)
    (hw : w = 1 ∨ w = 2 ∨ w = 4 ∨ w = 8) :
    ∃ s1, incrementUnsigned p w s = .ok () s1 ∧
      s1.memory.readUint p w = (s.memory.readUint p w + 1) % 2 ^ (8 * w) ∧
      NarrowFlags s1 w ((s.memory.readUint p w + 1) % 2 ^ (8 * w)) := by
  have hlt : (s.memory.readUint p w + 1) % 2 ^ (8 * w) < 2 ^ (8 * w) :=
    Nat.mod_lt _ (by positivity)
  refine ⟨_, incrementUnsigned_eq s p w hw, ?_⟩
  rw [wrapBytes_succ w _ hw]
  exact afterMemoryArithmetic_flags s p w _ hw hlt

theorem decrementUnsigned_flags (s : Processor) (p w : Nat)
    (hw : w = 1 ∨ w = 2 ∨ w = 4 ∨ w = 8) :
    ∃ s1, decrementUnsigned p w s = .ok () s1 ∧
      s1.memory.readUint p w = (s.memory.readUint p w + 2 ^ (8 * w) - 1) % 2 ^ (8 * w) ∧
      NarrowFlags s1 w ((s.memory.readUint p w + 2 ^ (8 * w) - 1) % 2 ^ (8 * w)) := by
  have hlt : (s.memory.readUint p w + 2 ^ (8 * w) - 1) % 2 ^ (8 * w) < 2 ^ (8 * w) :=
    Nat.mod_lt _ (by positivity)
  refine ⟨_, decrementUnsigned_eq s p w hw, ?_⟩
  rw [wrapBytes_pred w _ hw]
  exact afterMemoryArithmetic_flags s p w _ hw hlt

/-- C11: for every width `w` in {1,2,4,8} and every `w`-byte value `v` in memory,
`incrementUnsigned` and `decrementUnsigned` (first two parts, for every pointer) and the
four handlers INC and DEC of memory, decoding the width `w` and an in-bounds address (last
two parts), return with the `w` bytes holding `r = (v + 1) mod 2^(8w)`, respectively
`r = (v - 1) mod 2^(8w)`, and with the flags computed from `r` zero-extended: ZERO_FLAG is
1 exactly when `r = 0`, SIGN_FLAG is 1 exactly when `w = 8` and bit 63 of `r` is set (so it
is 0 for the widths 1, 2 and 4), REMAINDER_FLAG is 0. -/
theorem narrow_result_flags (s : Processor) (w : Nat)
    (hw : w = 1 ∨ w = 2 ∨ w = 4 ∨ w = 8) :
    (∀ p, ∃ s1, incrementUnsigned p w s = .ok () s1 ∧
      s1.memory.readUint p w = (s.memory.readUint p w + 1) % 2 ^ (8 * w) ∧
      NarrowFlags s1 w ((s.memory.readUint p w + 1) % 2 ^ (8 * w))) ∧
    (∀ p, ∃ s1, decrementUnsigned p w s = .ok () s1 ∧
      s1.memory.readUint p w = (s.memory.readUint p w + 2 ^ (8 * w) - 1) % 2 ^ (8 * w) ∧
      NarrowFlags s1 w ((s.memory.readUint p w + 2 ^ (8 * w) - 1) % 2 ^ (8 * w))) ∧
    (∀ (r : Registers) (address : Nat), s.memory.size < 18446744073709551616 →
      s.registers .PROGRAM_COUNTER + 2 ≤ s.memory.size →
      operandAt s 0 = w → operandAt s 1 = r.toByte →
      (advance s 2).registers r = address → address + w ≤ s.memory.size →
      (∃ s1, handle_inc_addr_in_reg s = .ok () s1 ∧
        s1.memory.readUint address w = (s.memory.readUint address w + 1) % 2 ^ (8 * w) ∧
        NarrowFlags s1 w ((s.memory.readUint address w + 1) % 2 ^ (8 * w))) ∧
      (∃ s1, handle_dec_addr_in_reg s = .ok () s1 ∧
        s1.memory.readUint address w
          = (s.memory.readUint address w + 2 ^ (8 * w) - 1) % 2 ^ (8 * w) ∧
        NarrowFlags s1 w ((s.memory.readUint address w + 2 ^ (8 * w) - 1) % 2 ^ (8 * w)))) ∧
    (∀ address : Nat, s.memory.size < 18446744073709551616 →
      s.registers .PROGRAM_COUNTER + 9 ≤ s.memory.size →
      operandAt s 0 = w →
      s.memory.readUint (s.registers .PROGRAM_COUNTER + 1) 8 = address →
      address + w ≤ s.memory.size →
      (∃ s1, handle_inc_addr_literal s = .ok () s1 ∧
        s1.memory.readUint address w = (s.memory.readUint address w + 1) % 2 ^ (8 * w) ∧
        NarrowFlags s1 w ((s.memory.readUint address w + 1) % 2 ^ (8 * w))) ∧
      (∃ s1, handle_dec_addr_literal s = .ok () s1 ∧
        s1.memory.readUint address w
          = (s.memory.readUint address w + 2 ^ (8 * w) - 1) % 2 ^ (8 * w) ∧
        NarrowFlags s1 w ((s.memory.readUint address w + 2 ^ (8 * w) - 1) % 2 ^ (8 * w)))) := by
  have hpos : 0 < w := by omega
  refine ⟨fun p => incrementUnsigned_flags s p w hw,
    fun p => decrementUnsigned_flags s p w hw, ?_, ?_⟩
  · intro r address hcap hpc h0 h1 ha hfit
    have haddr : (advance s 2).registers r < s.memory.size := by omega
    rw [handle_inc_addr_in_reg_eq s r hcap hpc h1 haddr,
      handle_dec_addr_in_reg_eq s r hcap hpc h1 haddr, h0, ha]
    exact ⟨incrementUnsigned_flags (advance s 2) address w hw,
      decrementUnsigned_flags (advance s 2) address w hw⟩
  · intro address hcap hpc h0 ha hfit
    have haddr : s.memory.readUint (s.registers .PROGRAM_COUNTER + 1) 8 < s.memory.size := by
      omega
    rw [handle_inc_addr_literal_eq s hcap hpc haddr,
      handle_dec_addr_literal_eq s hcap hpc haddr, h0, ha]
    exact ⟨incrementUnsigned_flags (advance s 9) address w hw,
      decrementUnsigned_flags (advance s 9) address w hw⟩

/-- C11, at concrete inputs of width 1 with the byte 254 at the address: the increment gives
255 with ZERO_FLAG = 0 and SIGN_FLAG = 0 (the top bit of the byte is not a sign), the
decrement gives 253. -/
theorem narrow_result_flags_witness :
    (∃ s1, handle_inc_addr_in_reg narrowFlagsRegisterState = .ok () s1 ∧
      s1.memory.readUint 4 1 = 255 ∧ s1.registers .ZERO_FLAG = 0 ∧
      s1.registers .SIGN_FLAG = 0 ∧ s1.registers .REMAINDER_FLAG = 0) ∧
    (∃ s1, handle_dec_addr_in_reg narrowFlagsRegisterState = .ok () s1 ∧
      s1.memory.readUint 4 1 = 253) ∧
    (∃ s1, handle_inc_addr_literal narrowFlagsLiteralState = .ok () s1 ∧
      s1.memory.readUint 12 1 = 255 ∧ s1.registers .ZERO_FLAG = 0 ∧
      s1.registers .SIGN_FLAG = 0 ∧ s1.registers .REMAINDER_FLAG = 0) ∧
    (∃ s1, handle_dec_addr_literal narrowFlagsLiteralState = .ok () s1 ∧
      s1.memory.readUint 12 1 = 253) := by
  obtain ⟨_, _, h3, _⟩ := narrow_result_flags narrowFlagsRegisterState 1 (Or.inl rfl)
  obtain ⟨_, _, _, h4⟩ := narrow_result_flags narrowFlagsLiteralState 1 (Or.inl rfl)
  obtain ⟨⟨s1, e1, v1, z1, g1, m1⟩, ⟨s2, e2, v2, _⟩⟩ :=
    h3 .A 4 (by decide) (by decide) (by decide) (by decide) (by decide) (by decide)
  obtain ⟨⟨s3, e3, v3, z3, g3, m3⟩, ⟨s4, e4, v4, _⟩⟩ :=
    h4 12 (by decide) (by decide) (by decide) (by decide) (by decide)
  refine ⟨⟨s1, e1, ?_, ?_, ?_, m1⟩, ⟨s2, e2, ?_⟩, ⟨s3, e3, ?_, ?_, ?_, m3⟩, ⟨s4, e4, ?_⟩⟩
  · rw [v1]; decide
  · rw [z1]; decide
  · rw [g1]; decide
  · rw [v2]; decide
  · rw [v3]; decide
  · rw [z3]; decide
  · rw [g3]; decide
  · rw [v4]; decide

/-! ## Bounds of the memory operands (C12) -/

/-- With the modelled `Memory.getBytesMutable` for the parameter, the handlers over an
arbitrary `Memory::getBytesMutable` are the handlers of the development. -/
theorem handlers_over_getBytesMutable :
    handle_inc_addr_in_reg_over Memory.getBytesMutable = handle_inc_addr_in_reg ∧
    handle_dec_addr_in_reg_over Memory.getBytesMutable = handle_dec_addr_in_reg ∧
    handle_inc_addr_literal_over Memory.getBytesMutable = handle_inc_addr_literal ∧
    handle_dec_addr_literal_over Memory.getBytesMutable = handle_dec_addr_literal ∧
    handle_move_reg_addr_in_reg_over Memory.getBytesMutable = handle_move_reg_addr_in_reg ∧
    handle_move_reg_addr_literal_over Memory.getBytesMutable
      = handle_move_reg_addr_literal :=
  ⟨rfl, rfl, rfl, rfl, rfl, rfl⟩

/-- A pointer request that succeeds is followed by the access through the pointer. -/
theorem pointerRequest_ok (g : Memory → Nat → Except Fault Nat) (address p : Nat)
    (access : Nat → Exec Unit) (s : Processor) (h : g s.memory address = .ok p) :
    (readMemory (fun m => g m address) >>= access) s = access p s := by
  simp only [bind, Exec.bind, readMemory, h]

/-- A pointer request that fails ends the handler with the fault of the request. -/
theorem pointerRequest_error (g : Memory → Nat → Except Fault Nat) (address : Nat)
    (k : Fault) (access : Nat → Exec Unit) (s : Processor)
    (h : g s.memory address = .error k) :
    (readMemory (fun m => g m address) >>= access) s = .fault k s := by
  simp only [bind, Exec.bind, readMemory, h]

/-- The outcome of a pointer request is a pointer or a fault. -/
theorem pointerRequest_cases (q : Except Fault Nat) :
    (∃ k, q = .error k) ∨ (∃ p, q = .ok p) := by
  cases q with
  | error k => exact Or.inl ⟨k, rfl⟩
  | ok p => exact Or.inr ⟨p, rfl⟩

theorem handle_inc_addr_in_reg_over_eq (g : Memory → Nat → Except Fault Nat)
    (s : Processor) (r : Registers)
    (hcap : s.memory.size < 18446744073709551616)
    (hpc : s.registers .PROGRAM_COUNTER + 2 ≤ s.memory.size)
    (hr : operandAt s 1 = r.toByte) :
    handle_inc_addr_in_reg_over g s
      = (readMemory (fun m => g m ((advance s 2).registers r))
          >>= fun p => incrementUnsigned p (operandAt s 0)) (advance s 2) := by
  have h0 : s.registers .PROGRAM_COUNTER < s.memory.size := by omega
  have h1 : s.registers .PROGRAM_COUNTER + 1 < s.memory.size := by omega
  simp only [handle_inc_addr_in_reg_over, bind, Exec.bind, nextByteCode_ok s h0,
    nextByteCode_advance s 1 hcap h1, hr, ofByte_toByte, getRegisterAt, getRegister]

theorem handle_dec_addr_in_reg_over_eq (g : Memory → Nat → Except Fault Nat)
    (s : Processor) (r : Registers)
    (hcap : s.memory.size < 18446744073709551616)
    (hpc : s.registers .PROGRAM_COUNTER + 2 ≤ s.memory.size)
    (hr : operandAt s 1 = r.toByte) :
    handle_dec_addr_in_reg_over g s
      = (readMemory (fun m => g m ((advance s 2).registers r))
          >>= fun p => decrementUnsigned p (operandAt s 0)) (advance s 2) := by
  have h0 : s.registers .PROGRAM_COUNTER < s.memory.size := by omega
  have h1 : s.registers .PROGRAM_COUNTER + 1 < s.memory.size := by omega
  simp only [handle_dec_addr_in_reg_over, bind, Exec.bind, nextByteCode_ok s h0,
    nextByteCode_advance s 1 hcap h1, hr, ofByte_toByte, getRegisterAt, getRegister]

theorem handle_inc_addr_literal_over_eq (g : Memory → Nat → Except Fault Nat)
    (s : Processor)
    (hcap : s.memory.size < 18446744073709551616)
    (hpc : s.registers .PROGRAM_COUNTER + 9 ≤ s.memory.size) :
    handle_inc_addr_literal_over g s
      = (readMemory (fun m => g m (s.memory.readUint (s.registers .PROGRAM_COUNTER + 1) 8))
          >>= fun p => incrementUnsigned p (operandAt s 0)) (advance s 9) := by
  have h0 : s.registers .PROGRAM_COUNTER < s.memory.size := by omega
  have h1 : s.registers .PROGRAM_COUNTER + 1 + 8 ≤ s.memory.size := by omega
  simp only [handle_inc_addr_literal_over, bind, Exec.bind, nextByteCode_ok s h0,
    nextByteCodes_advance s 1 8 hcap h1, derefUint, advance_memory]

theorem handle_dec_addr_literal_over_eq (g : Memory → Nat → Except Fault Nat)
    (s : Processor)
    (hcap : s.memory.size < 18446744073709551616)
    (hpc : s.registers .PROGRAM_COUNTER + 9 ≤ s.memory.size) :
    handle_dec_addr_literal_over g s
      = (readMemory (fun m => g m (s.memory.readUint (s.registers .PROGRAM_COUNTER + 1) 8))
          >>= fun p => decrementUnsigned p (operandAt s 0)) (advance s 9) := by
  have h0 : s.registers .PROGRAM_COUNTER < s.memory.size := by omega
  have h1 : s.registers .PROGRAM_COUNTER + 1 + 8 ≤ s.memory.size := by omega
  simp only [handle_dec_addr_literal_over, bind, Exec.bind, nextByteCode_ok s h0,
    nextByteCodes_advance s 1 8 hcap h1, derefUint, advance_memory]

theorem handle_move_reg_addr_in_reg_over_eq (g : Memory → Nat → Except Fault Nat)
    (s : Processor) (r1 r2 : Registers)
    (hcap : s.memory.size < 18446744073709551616)
    (hpc : s.registers .PROGRAM_COUNTER + 3 ≤ s.memory.size)
    (hr1 : operandAt s 1 = r1.toByte) (hr2 : operandAt s 2 = r2.toByte) :
    handle_move_reg_addr_in_reg_over g s
      = (readMemory (fun m => g m ((advance s 3).registers r2))
          >>= fun p => moveBytesIntoRegister p (operandAt s 0) (some r1)) (advance s 3) := by
  have h0 : s.registers .PROGRAM_COUNTER < s.memory.size := by omega
  have h1 : s.registers .PROGRAM_COUNTER + 1 < s.memory.size := by omega
  have h2 : s.registers .PROGRAM_COUNTER + 2 < s.memory.size := by omega
  simp only [handle_move_reg_addr_in_reg_over, bind, Exec.bind, nextByteCode_ok s h0,
    nextByteCode_advance s 1 hcap h1, nextByteCode_advance s 2 hcap h2, hr1, hr2,
    ofByte_toByte, getRegisterAt, getRegister]

theorem handle_move_reg_addr_literal_over_eq (g : Memory → Nat → Except Fault Nat)
    (s : Processor) (r : Registers)
    (hcap : s.memory.size < 18446744073709551616)
    (hpc : s.registers .PROGRAM_COUNTER + 10 ≤ s.memory.size)
    (hr : operandAt s 1 = r.toByte) :
    handle_move_reg_addr_literal_over g s
      = (readMemory (fun m => g m (s.memory.readUint (s.registers .PROGRAM_COUNTER + 2) 8))
          >>= fun p => moveBytesIntoRegister p (operandAt s 0) (some r)) (advance s 10) := by
  have h0 : s.registers .PROGRAM_COUNTER < s.memory.size := by omega
  have h1 : s.registers .PROGRAM_COUNTER + 1 < s.memory.size := by omega
  have h2 : s.registers .PROGRAM_COUNTER + 2 + 8 ≤ s.memory.size := by omega
  simp only [handle_move_reg_addr_literal_over, bind, Exec.bind, nextByteCode_ok s h0,
    nextByteCode_advance s 1 hcap h1, nextByteCodes_advance s 2 8 hcap h2, hr,
    ofByte_toByte, derefUint, advance_memory]

/-- C12, as the code behaves: each of the six handlers obtains its pointer by the call
`memory.getBytesMutable(address)`, to which the width byte `w` is not passed.  For every
function in the place of `Memory::getBytesMutable` and every state whose operand bytes lie
inside the memory and name registers: (1) once the operands are decoded, the outcome of
the handler is fixed by the result of that call on the memory and the decoded address: a
fault of the call ends the handler with that fault, and a pointer `p` is followed by
`incrementUnsigned`, `decrementUnsigned` or `moveBytesIntoRegister` on `w` bytes from `p`
on, whatever `w` is; (2) hence two calls of a handler over the same memory and with the
same decoded address take the same decision, whatever their width bytes are: both end with
the same fault, or both go on to their access through the same pointer.  A bounds check on
`address + w` is therefore out of reach of these handlers: the access of `w` bytes that
crosses the end of the memory is let through, or the access of one byte to the same
address, which lies inside the memory, is refused. -/
theorem pointer_request_without_width
    (getBytesMutable : Memory → Nat → Except Fault Nat) (s : Processor)
    (hcap : s.memory.size < 18446744073709551616) :
    (∀ r : Registers, s.registers .PROGRAM_COUNTER + 2 ≤ s.memory.size →
      operandAt s 1 = r.toByte →
      (∀ p, getBytesMutable s.memory ((advance s 2).registers r) = .ok p →
        handle_inc_addr_in_reg_over getBytesMutable s
          = incrementUnsigned p (operandAt s 0) (advance s 2) ∧
        handle_dec_addr_in_reg_over getBytesMutable s
          = decrementUnsigned p (operandAt s 0) (advance s 2)) ∧
      (∀ k, getBytesMutable s.memory ((advance s 2).registers r) = .error k →
        handle_inc_addr_in_reg_over getBytesMutable s = .fault k (advance s 2) ∧
        handle_dec_addr_in_reg_over getBytesMutable s = .fault k (advance s 2))) ∧
    (s.registers .PROGRAM_COUNTER + 9 ≤ s.memory.size →
      (∀ p, getBytesMutable s.memory
          (s.memory.readUint (s.registers .PROGRAM_COUNTER + 1) 8) = .ok p →
        handle_inc_addr_literal_over getBytesMutable s
          = incrementUnsigned p (operandAt s 0) (advance s 9) ∧
        handle_dec_addr_literal_over getBytesMutable s
          = decrementUnsigned p (operandAt s 0) (advance s 9)) ∧
      (∀ k, getBytesMutable s.memory
          (s.memory.readUint (s.registers .PROGRAM_COUNTER + 1) 8) = .error k →
        handle_inc_addr_literal_over getBytesMutable s = .fault k (advance s 9) ∧
        handle_dec_addr_literal_over getBytesMutable s = .fault k (advance s 9))) ∧
    (∀ r1 r2 : Registers, s.registers .PROGRAM_COUNTER + 3 ≤ s.memory.size →
      operandAt s 1 = r1.toByte → operandAt s 2 = r2.toByte →
      (∀ p, getBytesMutable s.memory ((advance s 3).registers r2) = .ok p →
        handle_move_reg_addr_in_reg_over getBytesMutable s
          = moveBytesIntoRegister p (operandAt s 0) (some r1) (advance s 3)) ∧
      (∀ k, getBytesMutable s.memory ((advance s 3).registers r2) = .error k →
        handle_move_reg_addr_in_reg_over getBytesMutable s = .fault k (advance s 3))) ∧
    (∀ r : Registers, s.registers .PROGRAM_COUNTER + 10 ≤ s.memory.size →
      operandAt s 1 = r.toByte →
      (∀ p, getBytesMutable s.memory
          (s.memory.readUint (s.registers .PROGRAM_COUNTER + 2) 8) = .ok p →
        handle_move_reg_addr_literal_over getBytesMutable s
          = moveBytesIntoRegister p (operandAt s 0) (some r) (advance s 10)) ∧
      (∀ k, getBytesMutable s.memory
          (s.memory.readUint (s.registers .PROGRAM_COUNTER + 2) 8) = .error k →
        handle_move_reg_addr_literal_over getBytesMutable s = .fault k (advance s 10))) ∧
    (∀ (t : Processor) (r r0 : Registers), t.memory = s.memory →
      s.registers .PROGRAM_COUNTER + 2 ≤ s.memory.size →
      t.registers .PROGRAM_COUNTER + 2 ≤ t.memory.size →
      operandAt s 1 = r.toByte → operandAt t 1 = r0.toByte →
      (advance t 2).registers r0 = (advance s 2).registers r →
      (∃ k, handle_inc_addr_in_reg_over getBytesMutable s = .fault k (advance s 2) ∧
        handle_inc_addr_in_reg_over getBytesMutable t = .fault k (advance t 2) ∧
        handle_dec_addr_in_reg_over getBytesMutable s = .fault k (advance s 2) ∧
        handle_dec_addr_in_reg_over getBytesMutable t = .fault k (advance t 2)) ∨
      (∃ p, handle_inc_addr_in_reg_over getBytesMutable s
          = incrementUnsigned p (operandAt s 0) (advance s 2) ∧
        handle_inc_addr_in_reg_over getBytesMutable t
          = incrementUnsigned p (operandAt t 0) (advance t 2) ∧
        handle_dec_addr_in_reg_over getBytesMutable s
          = decrementUnsigned p (operandAt s 0) (advance s 2) ∧
        handle_dec_addr_in_reg_over getBytesMutable t
          = decrementUnsigned p (operandAt t 0) (advance t 2))) ∧
    (∀ t : Processor, t.memory = s.memory →
      s.registers .PROGRAM_COUNTER + 9 ≤ s.memory.size →
      t.registers .PROGRAM_COUNTER + 9 ≤ t.memory.size →
      t.memory.readUint (t.registers .PROGRAM_COUNTER + 1) 8
        = s.memory.readUint (s.registers .PROGRAM_COUNTER + 1) 8 →
      (∃ k, handle_inc_addr_literal_over getBytesMutable s = .fault k (advance s 9) ∧
        handle_inc_addr_literal_over getBytesMutable t = .fault k (advance t 9) ∧
        handle_dec_addr_literal_over getBytesMutable s = .fault k (advance s 9) ∧
        handle_dec_addr_literal_over getBytesMutable t = .fault k (advance t 9)) ∨
      (∃ p, handle_inc_addr_literal_over getBytesMutable s
          = incrementUnsigned p (operandAt s 0) (advance s 9) ∧
        handle_inc_addr_literal_over getBytesMutable t
          = incrementUnsigned p (operandAt t 0) (advance t 9) ∧
        handle_dec_addr_literal_over getBytesMutable s
          = decrementUnsigned p (operandAt s 0) (advance s 9) ∧
        handle_dec_addr_literal_over getBytesMutable t
          = decrementUnsigned p (operandAt t 0) (advance t 9))) ∧
    (∀ (t : Processor) (r1 r2 r3 r4 : Registers), t.memory = s.memory →
      s.registers .PROGRAM_COUNTER + 3 ≤ s.memory.size →
      t.registers .PROGRAM_COUNTER + 3 ≤ t.memory.size →
      operandAt s 1 = r1.toByte → operandAt s 2 = r2.toByte →
      operandAt t 1 = r3.toByte → operandAt t 2 = r4.toByte →
      (advance t 3).registers r4 = (advance s 3).registers r2 →
      (∃ k, handle_move_reg_addr_in_reg_over getBytesMutable s = .fault k (advance s 3) ∧
        handle_move_reg_addr_in_reg_over getBytesMutable t = .fault k (advance t 3)) ∨
      (∃ p, handle_move_reg_addr_in_reg_over getBytesMutable s
          = moveBytesIntoRegister p (operandAt s 0) (some r1) (advance s 3) ∧
        handle_move_reg_addr_in_reg_over getBytesMutable t
          = moveBytesIntoRegister p (operandAt t 0) (some r3) (advance t 3))) ∧
    (∀ (t : Processor) (r r0 : Registers), t.memory = s.memory →
      s.registers .PROGRAM_COUNTER + 10 ≤ s.memory.size →
      t.registers .PROGRAM_COUNTER + 10 ≤ t.memory.size →
      operandAt s 1 = r.toByte → operandAt t 1 = r0.toByte →
      t.memory.readUint (t.registers .PROGRAM_COUNTER + 2) 8
        = s.memory.readUint (s.registers .PROGRAM_COUNTER + 2) 8 →
      (∃ k, handle_move_reg_addr_literal_over getBytesMutable s = .fault k (advance s 10) ∧
        handle_move_reg_addr_literal_over getBytesMutable t = .fault k (advance t 10)) ∨
      (∃ p, handle_move_reg_addr_literal_over getBytesMutable s
          = moveBytesIntoRegister p (operandAt s 0) (some r) (advance s 10) ∧
        handle_move_reg_addr_literal_over getBytesMutable t
          = moveBytesIntoRegister p (operandAt t 0) (some r0) (advance t 10))) := by
  refine ⟨?_, ?_, ?_, ?_, ?_, ?_, ?_, ?_⟩
  · intro r hpc hr
    rw [handle_inc_addr_in_reg_over_eq getBytesMutable s r hcap hpc hr,
      handle_dec_addr_in_reg_over_eq getBytesMutable s r hcap hpc hr]
    exact ⟨fun p h => ⟨pointerRequest_ok getBytesMutable _ p _ (advance s 2) h,
        pointerRequest_ok getBytesMutable _ p _ (advance s 2) h⟩,
      fun k h => ⟨pointerRequest_error getBytesMutable _ k _ (advance s 2) h,
        pointerRequest_error getBytesMutable _ k _ (advance s 2) h⟩⟩
  · intro hpc
    rw [handle_inc_addr_literal_over_eq getBytesMutable s hcap hpc,
      handle_dec_addr_literal_over_eq getBytesMutable s hcap hpc]
    exact ⟨fun p h => ⟨pointerRequest_ok getBytesMutable _ p _ (advance s 9) h,
        pointerRequest_ok getBytesMutable _ p _ (advance s 9) h⟩,
      fun k h => ⟨pointerRequest_error getBytesMutable _ k _ (advance s 9) h,
        pointerRequest_error getBytesMutable _ k _ (advance s 9) h⟩⟩
  · intro r1 r2 hpc hr1 hr2
    rw [handle_move_reg_addr_in_reg_over_eq getBytesMutable s r1 r2 hcap hpc hr1 hr2]
    exact ⟨fun p h => pointerRequest_ok getBytesMutable _ p _ (advance s 3) h,
      fun k h => pointerRequest_error getBytesMutable _ k _ (advance s 3) h⟩
  · intro r hpc hr
    rw [handle_move_reg_addr_literal_over_eq getBytesMutable s r hcap hpc hr]
    exact ⟨fun p h => pointerRequest_ok getBytesMutable _ p _ (advance s 10) h,
      fun k h => pointerRequest_error getBytesMutable _ k _ (advance s 10) h⟩
  · intro t r r0 hmem hpc hpct hr hr0 haddr
    have hcapt : t.memory.size < 18446744073709551616 := by rw [hmem]; exact hcap
    rw [handle_inc_addr_in_reg_over_eq getBytesMutable s r hcap hpc hr,
      handle_dec_addr_in_reg_over_eq getBytesMutable s r hcap hpc hr,
      handle_inc_addr_in_reg_over_eq getBytesMutable t r0 hcapt hpct hr0,
      handle_dec_addr_in_reg_over_eq getBytesMutable t r0 hcapt hpct hr0, haddr]
    rcases pointerRequest_cases (getBytesMutable s.memory ((advance s 2).registers r))
      with ⟨k, h⟩ | ⟨p, h⟩
    · have ht : getBytesMutable (advance t 2).memory ((advance s 2).registers r)
          = .error k := by rw [advance_memory, hmem]; exact h
      exact Or.inl ⟨k, pointerRequest_error getBytesMutable _ k _ (advance s 2) h,
        pointerRequest_error getBytesMutable _ k _ (advance t 2) ht,
        pointerRequest_error getBytesMutable _ k _ (advance s 2) h,
        pointerRequest_error getBytesMutable _ k _ (advance t 2) ht⟩
    · have ht : getBytesMutable (advance t 2).memory ((advance s 2).registers r)
          = .ok p := by rw [advance_memory, hmem]; exact h
      exact Or.inr ⟨p, pointerRequest_ok getBytesMutable _ p _ (advance s 2) h,
        pointerRequest_ok getBytesMutable _ p _ (advance t 2) ht,
        pointerRequest_ok getBytesMutable _ p _ (advance s 2) h,
        pointerRequest_ok getBytesMutable _ p _ (advance t 2) ht⟩
  · intro t hmem hpc hpct haddr
    have hcapt : t.memory.size < 18446744073709551616 := by rw [hmem]; exact hcap
    rw [handle_inc_addr_literal_over_eq getBytesMutable s hcap hpc,
      handle_dec_addr_literal_over_eq getBytesMutable s hcap hpc,
      handle_inc_addr_literal_over_eq getBytesMutable t hcapt hpct,
      handle_dec_addr_literal_over_eq getBytesMutable t hcapt hpct, haddr]
    rcases pointerRequest_cases (getBytesMutable s.memory
        (s.memory.readUint (s.registers .PROGRAM_COUNTER + 1) 8)) with ⟨k, h⟩ | ⟨p, h⟩
    · have ht : getBytesMutable (advance t 9).memory
          (s.memory.readUint (s.registers .PROGRAM_COUNTER + 1) 8) = .error k := by
        rw [advance_memory, hmem]; exact h
      exact Or.inl ⟨k, pointerRequest_error getBytesMutable _ k _ (advance s 9) h,
        pointerRequest_error getBytesMutable _ k _ (advance t 9) ht,
        pointerRequest_error getBytesMutable _ k _ (advance s 9) h,
        pointerRequest_error getBytesMutable _ k _ (advance t 9) ht⟩
    · have ht : getBytesMutable (advance t 9).memory
          (s.memory.readUint (s.registers .PROGRAM_COUNTER + 1) 8) = .ok p := by
        rw [advance_memory, hmem]; exact h
      exact Or.inr ⟨p, pointerRequest_ok getBytesMutable _ p _ (advance s 9) h,
        pointerRequest_ok getBytesMutable _ p _ (advance t 9) ht,
        pointerRequest_ok getBytesMutable _ p _ (advance s 9) h,
        pointerRequest_ok getBytesMutable _ p _ (advance t 9) ht⟩
  · intro t r1 r2 r3 r4 hmem hpc hpct hr1 hr2 hr3 hr4 haddr
    have hcapt : t.memory.size < 18446744073709551616 := by rw [hmem]; exact hcap
    rw [handle_move_reg_addr_in_reg_over_eq getBytesMutable s r1 r2 hcap hpc hr1 hr2,
      handle_move_reg_addr_in_reg_over_eq getBytesMutable t r3 r4 hcapt hpct hr3 hr4, haddr]
    rcases pointerRequest_cases (getBytesMutable s.memory ((advance s 3).registers r2))
      with ⟨k, h⟩ | ⟨p, h⟩
    · have ht : getBytesMutable (advance t 3).memory ((advance s 3).registers r2)
          = .error k := by rw [advance_memory, hmem]; exact h
      exact Or.inl ⟨k, pointerRequest_error getBytesMutable _ k _ (advance s 3) h,
        pointerRequest_error getBytesMutable _ k _ (advance t 3) ht⟩
    · have ht : getBytesMutable (advance t 3).memory ((advance s 3).registers r2)
          = .ok p := by rw [advance_memory, hmem]; exact h
      exact Or.inr ⟨p, pointerRequest_ok getBytesMutable _ p _ (advance s 3) h,
        pointerRequest_ok getBytesMutable _ p _ (advance t 3) ht⟩
  · intro t r r0 hmem hpc hpct hr hr0 haddr
    have hcapt : t.memory.size < 18446744073709551616 := by rw [hmem]; exact hcap
    rw [handle_move_reg_addr_literal_over_eq getBytesMutable s r hcap hpc hr,
      handle_move_reg_addr_literal_over_eq getBytesMutable t r0 hcapt hpct hr0, haddr]
    rcases pointerRequest_cases (getBytesMutable s.memory
        (s.memory.readUint (s.registers .PROGRAM_COUNTER + 2) 8)) with ⟨k, h⟩ | ⟨p, h⟩
    · have ht : getBytesMutable (advance t 10).memory
          (s.memory.readUint (s.registers .PROGRAM_COUNTER + 2) 8) = .error k := by
        rw [advance_memory, hmem]; exact h
      exact Or.inl ⟨k, pointerRequest_error getBytesMutable _ k _ (advance s 10) h,
        pointerRequest_error getBytesMutable _ k _ (advance t 10) ht⟩
    · have ht : getBytesMutable (advance t 10).memory
          (s.memory.readUint (s.registers .PROGRAM_COUNTER + 2) 8) = .ok p := by
        rw [advance_memory, hmem]; exact h
      exact Or.inr ⟨p, pointerRequest_ok getBytesMutable _ p _ (advance s 10) h,
        pointerRequest_ok getBytesMutable _ p _ (advance t 10) ht⟩

/-- C12, as the code behaves, at concrete inputs over a memory of 32 bytes with the
decoded address 31, the last cell.  With the check `address < capacity` for the pointer
request, the six handlers reach their access of width 2 at the address 31, although
`31 + 2` exceeds the capacity.  With a check that leaves room for the widest access,
`address + 8 ≤ capacity`, they end with `MemoryFault` on the access of width 1 at the
address 31, although `31 + 1` is within the capacity.  Under either check the call of
width 2 and the call of width 1 take the same decision (last four parts). -/
theorem pointer_request_without_width_witness :
    ((lastCellState inRegisterOperands 2).memory.size = 32 ∧
      operandAt (lastCellState inRegisterOperands 2) 0 = 2 ∧
      operandAt (lastCellState literalOperands 9) 0 = 2 ∧
      operandAt (lastCellState moveInRegisterOperands 3) 0 = 2 ∧
      operandAt (lastCellState moveLiteralOperands 10) 0 = 2 ∧
      operandAt (lastCellState inRegisterOperands 0) 0 = 1 ∧
      operandAt (lastCellState literalOperands 0) 0 = 1 ∧
      operandAt (lastCellState moveInRegisterOperands 0) 0 = 1 ∧
      operandAt (lastCellState moveLiteralOperands 0) 0 = 1) ∧
    (handle_inc_addr_in_reg_over Memory.getBytesMutable (lastCellState inRegisterOperands 2)
        = incrementUnsigned 31 (operandAt (lastCellState inRegisterOperands 2) 0)
            (advance (lastCellState inRegisterOperands 2) 2) ∧
      handle_dec_addr_in_reg_over Memory.getBytesMutable (lastCellState inRegisterOperands 2)
        = decrementUnsigned 31 (operandAt (lastCellState inRegisterOperands 2) 0)
            (advance (lastCellState inRegisterOperands 2) 2) ∧
      handle_inc_addr_literal_over Memory.getBytesMutable (lastCellState literalOperands 9)
        = incrementUnsigned 31 (operandAt (lastCellState literalOperands 9) 0)
            (advance (lastCellState literalOperands 9) 9) ∧
      handle_dec_addr_literal_over Memory.getBytesMutable (lastCellState literalOperands 9)
        = decrementUnsigned 31 (operandAt (lastCellState literalOperands 9) 0)
            (advance (lastCellState literalOperands 9) 9) ∧
      handle_move_reg_addr_in_reg_over Memory.getBytesMutable
          (lastCellState moveInRegisterOperands 3)
        = moveBytesIntoRegister 31 (operandAt (lastCellState moveInRegisterOperands 3) 0)
            (some .B) (advance (lastCellState moveInRegisterOperands 3) 3) ∧
      handle_move_reg_addr_literal_over Memory.getBytesMutable
          (lastCellState moveLiteralOperands 10)
        = moveBytesIntoRegister 31 (operandAt (lastCellState moveLiteralOperands 10) 0)
            (some .B) (advance (lastCellState moveLiteralOperands 10) 10)) ∧
    (handle_inc_addr_in_reg_over (fun m a => m.getBytes a 8)
          (lastCellState inRegisterOperands 0)
        = .fault .MemoryFault (advance (lastCellState inRegisterOperands 0) 2) ∧
      handle_dec_addr_in_reg_over (fun m a => m.getBytes a 8)
          (lastCellState inRegisterOperands 0)
        = .fault .MemoryFault (advance (lastCellState inRegisterOperands 0) 2) ∧
      handle_inc_addr_literal_over (fun m a => m.getBytes a 8)
          (lastCellState literalOperands 0)
        = .fault .MemoryFault (advance (lastCellState literalOperands 0) 9) ∧
      handle_dec_addr_literal_over (fun m a => m.getBytes a 8)
          (lastCellState literalOperands 0)
        = .fault .MemoryFault (advance (lastCellState literalOperands 0) 9) ∧
      handle_move_reg_addr_in_reg_over (fun m a => m.getBytes a 8)
          (lastCellState moveInRegisterOperands 0)
        = .fault .MemoryFault (advance (lastCellState moveInRegisterOperands 0) 3) ∧
      handle_move_reg_addr_literal_over (fun m a => m.getBytes a 8)
          (lastCellState moveLiteralOperands 0)
        = .fault .MemoryFault (advance (lastCellState moveLiteralOperands 0) 10)) ∧
    ((∃ k, handle_inc_addr_in_reg_over Memory.getBytesMutable
            (lastCellState inRegisterOperands 2)
          = .fault k (advance (lastCellState inRegisterOperands 2) 2) ∧
        handle_inc_addr_in_reg_over Memory.getBytesMutable
            (lastCellState inRegisterOperands 0)
          = .fault k (advance (lastCellState inRegisterOperands 0) 2) ∧
        handle_dec_addr_in_reg_over Memory.getBytesMutable
            (lastCellState inRegisterOperands 2)
          = .fault k (advance (lastCellState inRegisterOperands 2) 2) ∧
        handle_dec_addr_in_reg_over Memory.getBytesMutable
            (lastCellState inRegisterOperands 0)
          = .fault k (advance (lastCellState inRegisterOperands 0) 2)) ∨
      (∃ p, handle_inc_addr_in_reg_over Memory.getBytesMutable
            (lastCellState inRegisterOperands 2)
          = incrementUnsigned p (operandAt (lastCellState inRegisterOperands 2) 0)
              (advance (lastCellState inRegisterOperands 2) 2) ∧
        handle_inc_addr_in_reg_over Memory.getBytesMutable
            (lastCellState inRegisterOperands 0)
          = incrementUnsigned p (operandAt (lastCellState inRegisterOperands 0) 0)
              (advance (lastCellState inRegisterOperands 0) 2) ∧
        handle_dec_addr_in_reg_over Memory.getBytesMutable
            (lastCellState inRegisterOperands 2)
          = decrementUnsigned p (operandAt (lastCellState inRegisterOperands 2) 0)
              (advance (lastCellState inRegisterOperands 2) 2) ∧
        handle_dec_addr_in_reg_over Memory.getBytesMutable
            (lastCellState inRegisterOperands 0)
          = decrementUnsigned p (operandAt (lastCellState inRegisterOperands 0) 0)
              (advance (lastCellState inRegisterOperands 0) 2))) ∧
    ((∃ k, handle_inc_addr_literal_over (fun m a => m.getBytes a 8)
            (lastCellState literalOperands 9)
          = .fault k (advance (lastCellState literalOperands 9) 9) ∧
        handle_inc_addr_literal_over (fun m a => m.getBytes a 8)
            (lastCellState literalOperands 0)
          = .fault k (advance (lastCellState literalOperands 0) 9) ∧
        handle_dec_addr_literal_over (fun m a => m.getBytes a 8)
            (lastCellState literalOperands 9)
          = .fault k (advance (lastCellState literalOperands 9) 9) ∧
        handle_dec_addr_literal_over (fun m a => m.getBytes a 8)
            (lastCellState literalOperands 0)
          = .fault k (advance (lastCellState literalOperands 0) 9)) ∨
      (∃ p, handle_inc_addr_literal_over (fun m a => m.getBytes a 8)
            (lastCellState literalOperands 9)
          = incrementUnsigned p (operandAt (lastCellState literalOperands 9) 0)
              (advance (lastCellState literalOperands 9) 9) ∧
        handle_inc_addr_literal_over (fun m a => m.getBytes a 8)
            (lastCellState literalOperands 0)
          = incrementUnsigned p (operandAt (lastCellState literalOperands 0) 0)
              (advance (lastCellState literalOperands 0) 9) ∧
        handle_dec_addr_literal_over (fun m a => m.getBytes a 8)
            (lastCellState literalOperands 9)
          = decrementUnsigned p (operandAt (lastCellState literalOperands 9) 0)
              (advance (lastCellState literalOperands 9) 9) ∧
        handle_dec_addr_literal_over (fun m a => m.getBytes a 8)
            (lastCellState literalOperands 0)
          = decrementUnsigned p (operandAt (lastCellState literalOperands 0) 0)
              (advance (lastCellState literalOperands 0) 9))) ∧
    ((∃ k, handle_move_reg_addr_in_reg_over Memory.getBytesMutable
            (lastCellState moveInRegisterOperands 3)
          = .fault k (advance (lastCellState moveInRegisterOperands 3) 3) ∧
        handle_move_reg_addr_in_reg_over Memory.getBytesMutable
            (lastCellState moveInRegisterOperands 0)
          = .fault k (advance (lastCellState moveInRegisterOperands 0) 3)) ∨
      (∃ p, handle_move_reg_addr_in_reg_over Memory.getBytesMutable
            (lastCellState moveInRegisterOperands 3)
          = moveBytesIntoRegister p (operandAt (lastCellState moveInRegisterOperands 3) 0)
              (some .B) (advance (lastCellState moveInRegisterOperands 3) 3) ∧
        handle_move_reg_addr_in_reg_over Memory.getBytesMutable
            (lastCellState moveInRegisterOperands 0)
          = moveBytesIntoRegister p (operandAt (lastCellState moveInRegisterOperands 0) 0)
              (some .B) (advance (lastCellState moveInRegisterOperands 0) 3))) ∧
    ((∃ k, handle_move_reg_addr_literal_over (fun m a => m.getBytes a 8)
            (lastCellState moveLiteralOperands 10)
          = .fault k (advance (lastCellState moveLiteralOperands 10) 10) ∧
        handle_move_reg_addr_literal_over (fun m a => m.getBytes a 8)
            (lastCellState moveLiteralOperands 0)
          = .fault k (advance (lastCellState moveLiteralOperands 0) 10)) ∨
      (∃ p, handle_move_reg_addr_literal_over (fun m a => m.getBytes a 8)
            (lastCellState moveLiteralOperands 10)
          = moveBytesIntoRegister p (operandAt (lastCellState moveLiteralOperands 10) 0)
              (some .B) (advance (lastCellState moveLiteralOperands 10) 10) ∧
        handle_move_reg_addr_literal_over (fun m a => m.getBytes a 8)
            (lastCellState moveLiteralOperands 0)
          = moveBytesIntoRegister p (operandAt (lastCellState moveLiteralOperands 0) 0)
              (some .B) (advance (lastCellState moveLiteralOperands 0) 10))) := by
  obtain ⟨a1, _, _, _, a5, _, _, _⟩ :=
    pointer_request_without_width Memory.getBytesMutable
      (lastCellState inRegisterOperands 2) (by decide)
  obtain ⟨_, b2, _, _, _, _, _, _⟩ :=
    pointer_request_without_width Memory.getBytesMutable
      (lastCellState literalOperands 9) (by decide)
  obtain ⟨_, _, c3, _, _, _, c7, _⟩ :=
    pointer_request_without_width Memory.getBytesMutable
      (lastCellState moveInRegisterOperands 3) (by decide)
  obtain ⟨_, _, _, d4, _, _, _, _⟩ :=
    pointer_request_without_width Memory.getBytesMutable
      (lastCellState moveLiteralOperands 10) (by decide)
  obtain ⟨e1, _, _, _, _, _, _, _⟩ :=
    pointer_request_without_width (fun m a => m.getBytes a 8)
      (lastCellState inRegisterOperands 0) (by decide)
  obtain ⟨_, f2, _, _, _, _, _, _⟩ :=
    pointer_request_without_width (fun m a => m.getBytes a 8)
      (lastCellState literalOperands 0) (by decide)
  obtain ⟨_, _, g3, _, _, _, _, _⟩ :=
    pointer_request_without_width (fun m a => m.getBytes a 8)
      (lastCellState moveInRegisterOperands 0) (by decide)
  obtain ⟨_, _, _, h4, _, _, _, _⟩ :=
    pointer_request_without_width (fun m a => m.getBytes a 8)
      (lastCellState moveLiteralOperands 0) (by decide)
  obtain ⟨_, _, _, _, _, i6, _, _⟩ :=
    pointer_request_without_width (fun m a => m.getBytes a 8)
      (lastCellState literalOperands 9) (by decide)
  obtain ⟨_, _, _, _, _, _, _, j8⟩ :=
    pointer_request_without_width (fun m a => m.getBytes a 8)
      (lastCellState moveLiteralOperands 10) (by decide)
  obtain ⟨x1, x2⟩ := (a1 .B (by decide) (by decide)).1 31 rfl
  obtain ⟨x3, x4⟩ := (b2 (by decide)).1 31 rfl
  have x5 := (c3 .B .A (by decide) (by decide) (by decide)).1 31 rfl
  have x6 := (d4 .B (by decide) (by decide)).1 31 rfl
  obtain ⟨y1, y2⟩ := (e1 .B (by decide) (by decide)).2 .MemoryFault rfl
  obtain ⟨y3, y4⟩ := (f2 (by decide)).2 .MemoryFault rfl
  have y5 := (g3 .B .A (by decide) (by decide) (by decide)).2 .MemoryFault rfl
  have y6 := (h4 .B (by decide) (by decide)).2 .MemoryFault rfl
  exact ⟨by decide, ⟨x1, x2, x3, x4, x5, x6⟩, ⟨y1, y2, y3, y4, y5, y6⟩,
    a5 (lastCellState inRegisterOperands 0) .B .B rfl (by decide) (by decide) (by decide)
      (by decide) (by decide),
    i6 (lastCellState literalOperands 0) rfl (by decide) (by decide) (by decide),
    c7 (lastCellState moveInRegisterOperands 0) .B .A .B .A rfl (by decide) (by decide)
      (by decide) (by decide) (by decide) (by decide) (by decide),
    j8 (lastCellState moveLiteralOperands 0) .B .B rfl (by decide) (by decide) (by decide)
      (by decide) (by decide)⟩

/-! ## The entry of the execution loop (C13) -/

theorem execute_zero_eq (table : HandlerTable) (s : Processor) (byteCode : List Nat)
    (size : Nat) (hfit : s.registers .STACK_POINTER + size ≤ s.memory.size) :
    execute table 0 byteCode size s = .outOfFuel (loadedState s byteCode size) := by
  simp only [execute, pushStackBytes_ok s byteCode size hfit, run]
  rfl

/-- C13, as stated, fails at `usedProcessorState` (STACK_POINTER = 4, PROGRAM_COUNTER = 0)
with the one-byte program `[9]`: the byte is written at address 4, but the loop is entered
with PROGRAM_COUNTER still 0, not 4, and the first opcode fetched is the byte 7 stored at
0, not the byte 9 of the buffer. -/
theorem execute_keeps_program_counter :
    usedProcessorState.registers .STACK_POINTER = 4 ∧
    (execute exampleTable 0 [9] 1 usedProcessorState).state.memory.byteAt 4 = 9 ∧
    (execute exampleTable 0 [9] 1 usedProcessorState).state.running = true ∧
    (execute exampleTable 0 [9] 1 usedProcessorState).state.registers .PROGRAM_COUNTER = 0 ∧
    (execute exampleTable 0 [9] 1 usedProcessorState).state.registers .PROGRAM_COUNTER
      ≠ usedProcessorState.registers .STACK_POINTER ∧
    (nextByteCode (execute exampleTable 0 [9] 1 usedProcessorState).state).result = some 7 := by
  decide

/-- C13, amended: for every handler table, every state and every buffer of `size` bytes that
fits above STACK_POINTER, `execute` copies the buffer to the memory at the address
STACK_POINTER held, moves STACK_POINTER forward by `size`, sets `running` and enters the loop
(the state at entry is the one `execute` is in with no iteration done) with every other
register, PROGRAM_COUNTER included, unchanged.  When PROGRAM_COUNTER equals the value
STACK_POINTER held before the copy and the buffer is not empty, the first opcode fetched is
the first byte of the buffer. -/
theorem execute_entry (table : HandlerTable) (s : Processor) (byteCode : List Nat)
    (size : Nat) (hlen : byteCode.length = size) (hbytes : ∀ b ∈ byteCode, b < 256)
    (hcap : s.memory.size < 18446744073709551616)
    (hfit : s.registers .STACK_POINTER + size ≤ s.memory.size) :
    ∃ s1, execute table 0 byteCode size s = .outOfFuel s1 ∧
      s1.running = true ∧
      s1.memory.view (s.registers .STACK_POINTER) size = byteCode ∧
      s1.registers .STACK_POINTER = s.registers .STACK_POINTER + size ∧
      (∀ r, r ≠ .STACK_POINTER → s1.registers r = s.registers r) ∧
      s1.registers .PROGRAM_COUNTER = s.registers .PROGRAM_COUNTER ∧
      (s.registers .PROGRAM_COUNTER = s.registers .STACK_POINTER → 0 < size →
        nextByteCode s1 = .ok (byteCode.getD 0 0) (advance s1 1)) := by
  have hw : wrap64 ((s.registers .STACK_POINTER : Int) + (size : Int))
      = s.registers .STACK_POINTER + size := by
    rw [wrap64_add]; omega
  refine ⟨loadedState s byteCode size, execute_zero_eq table s byteCode size hfit, rfl,
    ?_, ?_, ?_, ?_, ?_⟩
  · apply List.ext_getElem
    · simp [Memory.view, hlen]
    · intro i h1 h2
      have hi : i < size := by simpa [Memory.view] using h1
      have hb : byteCode[i] < 256 := hbytes _ (List.getElem_mem h2)
      simp [loadedState, Memory.view, Memory.byteAt, hi, List.getD_eq_getElem?_getD, h2]
      omega
  · simp only [loadedState, if_true, hw]
  · intro r hr
    simp only [loadedState, if_neg hr]
  · simp [loadedState]
  · intro hpc hpos
    have hb : byteCode.getD 0 0 < 256 := by
      have h0 : 0 < byteCode.length := by omega
      rw [List.getD_eq_getElem?_getD, List.getElem?_eq_getElem h0]
      exact hbytes _ (List.getElem_mem h0)
    have hpc1 : (loadedState s byteCode size).registers .PROGRAM_COUNTER
        = s.registers .STACK_POINTER := by
      simp [loadedState, hpc]
    rw [nextByteCode_ok]
    · congr 1
      simp only [operandAt, Memory.byteAt, Nat.add_zero, hpc1]
      have hb1 : byteCode[0]?.getD 0 < 256 := by
        simpa [List.getD_eq_getElem?_getD] using hb
      simp [loadedState, hpos, Nat.mod_eq_of_lt hb1]
    · rw [hpc1]
      show s.registers .STACK_POINTER < s.memory.size
      omega

/-- C13, amended, on a freshly constructed processor of capacity 16 and the program
`[9, 8]`. -/
theorem execute_entry_witness :
    ∃ s1, execute exampleTable 0 [9, 8] 2 (Processor.new 16) = .outOfFuel s1 ∧
      s1.running = true ∧
      s1.memory.view ((Processor.new 16).registers .STACK_POINTER) 2 = [9, 8] ∧
      s1.registers .STACK_POINTER = (Processor.new 16).registers .STACK_POINTER + 2 ∧
      (∀ r, r ≠ .STACK_POINTER → s1.registers r = (Processor.new 16).registers r) ∧
      s1.registers .PROGRAM_COUNTER = (Processor.new 16).registers .PROGRAM_COUNTER ∧
      ((Processor.new 16).registers .PROGRAM_COUNTER
          = (Processor.new 16).registers .STACK_POINTER → 0 < 2 →
        nextByteCode s1 = .ok ([9, 8].getD 0 0) (advance s1 1)) :=
  execute_entry exampleTable (Processor.new 16) [9, 8] 2 rfl (by decide) (by decide)
    (by decide)

/-! ## The stack pointer stays inside the memory (C14) -/

theorem pushStackBytes_fault (s : Processor) (bytes : List Nat) (size : Nat)
    (hfit : ¬ s.registers .STACK_POINTER + size ≤ s.memory.size) :
    pushStackBytes bytes size s = .fault .MemoryFault s := by
  simp only [pushStackBytes, bind, Exec.bind, getRegister, updateMemory, Memory.setBytes,
    if_neg hfit]

theorem popStackBytes_fault (s : Processor) (size : Nat)
    (hfit : ¬ wrap64 ((s.registers .STACK_POINTER : Int) - (size : Int)) + size
      ≤ s.memory.size) :
    popStackBytes size s = .fault .MemoryFault
      { s with registers := fun r =>
          if r = .STACK_POINTER then wrap64 ((s.registers .STACK_POINTER : Int) - (size : Int))
          else s.registers r } := by
  simp only [popStackBytes, bind, Exec.bind, getRegister, setRegister, readMemory,
    Memory.getBytes, if_true, if_neg hfit]

/-- C14: for every state whose STACK_POINTER does not exceed the capacity (the capacity and
`size` being `size_t` values) and every buffer: `pushStackBytes` faults exactly when
`STACK_POINTER + size` exceeds the capacity, and then leaves STACK_POINTER as it was;
`popStackBytes` faults exactly when `size` exceeds STACK_POINTER; a push or a pop that
returns leaves STACK_POINTER at `STACK_POINTER + size`, respectively
`STACK_POINTER - size`, which does not exceed the capacity. -/
theorem stack_pointer_within_bounds (s : Processor) (bytes : List Nat) (size : Nat)
    (hcap : s.memory.size < 18446744073709551616) (hsize : size < 18446744073709551616)
    (hsp : s.registers .STACK_POINTER ≤ s.memory.size) :
    (s.memory.size < s.registers .STACK_POINTER + size →
      ∃ s1, pushStackBytes bytes size s = .fault .MemoryFault s1 ∧
        s1.registers .STACK_POINTER = s.registers .STACK_POINTER) ∧
    (s.registers .STACK_POINTER < size →
      ∃ s1, popStackBytes size s = .fault .MemoryFault s1) ∧
    (s.registers .STACK_POINTER + size ≤ s.memory.size →
      ∃ s1, pushStackBytes bytes size s = .ok () s1 ∧
        s1.registers .STACK_POINTER = s.registers .STACK_POINTER + size) ∧
    (size ≤ s.registers .STACK_POINTER →
      ∃ p s1, popStackBytes size s = .ok p s1 ∧
        s1.registers .STACK_POINTER = s.registers .STACK_POINTER - size) ∧
    (∀ s1, pushStackBytes bytes size s = .ok () s1 →
      s1.registers .STACK_POINTER ≤ s1.memory.size) ∧
    (∀ p s1, popStackBytes size s = .ok p s1 →
      s1.registers .STACK_POINTER ≤ s1.memory.size) := by
  have hpush : s.registers .STACK_POINTER + size ≤ s.memory.size →
      wrap64 ((s.registers .STACK_POINTER : Int) + (size : Int))
        = s.registers .STACK_POINTER + size := by
    intro h
    rw [wrap64_add]; omega
  have hpop : size ≤ s.registers .STACK_POINTER →
      wrap64 ((s.registers .STACK_POINTER : Int) - (size : Int))
        = s.registers .STACK_POINTER - size := by
    intro h
    unfold wrap64
    omega
  have hpopwrap : s.registers .STACK_POINTER < size →
      wrap64 ((s.registers .STACK_POINTER : Int) - (size : Int))
        = s.registers .STACK_POINTER + 18446744073709551616 - size := by
    intro h
    unfold wrap64
    omega
  refine ⟨?_, ?_, ?_, ?_, ?_, ?_⟩
  · intro h
    exact ⟨s, pushStackBytes_fault s bytes size (by omega), rfl⟩
  · intro h
    exact ⟨_, popStackBytes_fault s size (by rw [hpopwrap h]; omega)⟩
  · intro h
    refine ⟨_, pushStackBytes_ok s bytes size h, ?_⟩
    simp only [if_true, hpush h]
  · intro h
    refine ⟨_, _, popStackBytes_ok s size (by rw [hpop h]; omega), ?_⟩
    simp only [if_true, hpop h]
  · intro s1 h
    by_cases hfit : s.registers .STACK_POINTER + size ≤ s.memory.size
    · rw [pushStackBytes_ok s bytes size hfit] at h
      injection h with _ hs
      subst hs
      simp only [if_true, hpush hfit]
      exact hfit
    · rw [pushStackBytes_fault s bytes size hfit] at h
      cases h
  · intro p s1 h
    by_cases hle : size ≤ s.registers .STACK_POINTER
    · rw [popStackBytes_ok s size (by rw [hpop hle]; omega)] at h
      injection h with _ hs
      subst hs
      simp only [if_true, hpop hle]
      omega
    · rw [popStackBytes_fault s size (by rw [hpopwrap (by omega)]; omega)] at h
      cases h

/-- C14, at `usedProcessorState` (STACK_POINTER = 4, capacity 16): a push and a pop of 13
bytes fault, a push and a pop of 2 bytes return with STACK_POINTER at 6 and at 2. -/
theorem stack_pointer_within_bounds_witness :
    (∃ s1, pushStackBytes (List.replicate 13 0) 13 usedProcessorState
        = .fault .MemoryFault s1 ∧ s1.registers .STACK_POINTER = 4) ∧
    (∃ s1, popStackBytes 13 usedProcessorState = .fault .MemoryFault s1) ∧
    (∃ s1, pushStackBytes [1, 2] 2 usedProcessorState = .ok () s1 ∧
      s1.registers .STACK_POINTER = 6) ∧
    (∃ p s1, popStackBytes 2 usedProcessorState = .ok p s1 ∧
      s1.registers .STACK_POINTER = 2) := by
  obtain ⟨a1, a2, _, _, _, _⟩ := stack_pointer_within_bounds usedProcessorState
    (List.replicate 13 0) 13 (by decide) (by decide) (by decide)
  obtain ⟨_, _, b3, b4, _, _⟩ := stack_pointer_within_bounds usedProcessorState
    [1, 2] 2 (by decide) (by decide) (by decide)
  obtain ⟨s1, e1, v1⟩ := a1 (by decide)
  obtain ⟨s2, e2⟩ := a2 (by decide)
  obtain ⟨s3, e3, v3⟩ := b3 (by decide)
  obtain ⟨p, s4, e4, v4⟩ := b4 (by decide)
  exact ⟨⟨s1, e1, v1⟩, ⟨s2, e2⟩, ⟨s3, e3, v3⟩, ⟨p, s4, e4, v4⟩⟩

/-! ## Increment and decrement of a register (C15) -/

theorem handle_inc_reg_eq (s : Processor) (r : Registers)
    (hpc : s.registers .PROGRAM_COUNTER < s.memory.size)
    (hr : operandAt s 0 = r.toByte) :
    handle_inc_reg s = .ok ()
      (afterArithmetic (advance s 1) r (wrap64 (((advance s 1).registers r : Int) + 1))
        (toInt64 (wrap64 (((advance s 1).registers r : Int) + 1))) 0) := by
  simp only [handle_inc_reg, bind, Exec.bind, nextByteCode_ok s hpc, hr, ofByte_toByte,
    getRegisterAt, setRegisterAt, getRegister, setRegister, setArithmeticalFlags,
    afterArithmetic, if_true]

theorem handle_dec_reg_eq (s : Processor) (r : Registers)
    (hpc : s.registers .PROGRAM_COUNTER < s.memory.size)
    (hr : operandAt s 0 = r.toByte) :
    handle_dec_reg s = .ok ()
      (afterArithmetic (advance s 1) r (wrap64 (((advance s 1).registers r : Int) - 1))
        (toInt64 (wrap64 (((advance s 1).registers r : Int) - 1))) 0) := by
  simp only [handle_dec_reg, bind, Exec.bind, nextByteCode_ok s hpc, hr, ofByte_toByte,
    getRegisterAt, setRegisterAt, getRegister, setRegister, setArithmeticalFlags,
    afterArithmetic, if_true]

/-- The registers read off a state produced by `afterArithmetic` for any target. -/
theorem afterArithmetic_target (s : Processor) (r : Registers) (v : Nat)
    (hv : v < 18446744073709551616) :
    (afterArithmetic s r v (toInt64 v) 0).registers .ZERO_FLAG = (if v = 0 then 1 else 0) ∧
    (afterArithmetic s r v (toInt64 v) 0).registers .SIGN_FLAG
      = (if 9223372036854775808 ≤ v then 1 else 0) ∧
    (afterArithmetic s r v (toInt64 v) 0).registers .REMAINDER_FLAG = 0 ∧
    (r ≠ .ZERO_FLAG ∧ r ≠ .SIGN_FLAG ∧ r ≠ .REMAINDER_FLAG →
      (afterArithmetic s r v (toInt64 v) 0).registers r = v) := by
  refine ⟨?_, ?_, ?_, ?_⟩
  · simp [afterArithmetic, boolToNat, toInt64_eq_zero_iff v hv]
  · simp [afterArithmetic, boolToNat, toInt64_neg_iff v hv]
  · simp [afterArithmetic]
  · rintro ⟨h1, h2, h3⟩
    simp [afterArithmetic, h1, h2, h3]

/-- C15, as stated, fails when the target is a flag register.  At `flagTargetState` the
operand names ZERO_FLAG, which holds 0: `handle_inc_reg` returns with ZERO_FLAG holding 0,
not `0 + 1`, and `handle_dec_reg` returns with ZERO_FLAG holding 0, not `2^64 - 1`: the
flags computed from the new value are written over the target. -/
theorem flag_target_overwritten :
    Registers.ofByte (operandAt flagTargetState 0) = some .ZERO_FLAG ∧
    (advance flagTargetState 1).registers .ZERO_FLAG = 0 ∧
    (handle_inc_reg flagTargetState).isOk = true ∧
    (handle_inc_reg flagTargetState).state.registers .ZERO_FLAG = 0 ∧
    (handle_inc_reg flagTargetState).state.registers .ZERO_FLAG
      ≠ (0 + 1) % 18446744073709551616 ∧
    (handle_dec_reg flagTargetState).isOk = true ∧
    (handle_dec_reg flagTargetState).state.registers .ZERO_FLAG = 0 ∧
    (handle_dec_reg flagTargetState).state.registers .ZERO_FLAG
      ≠ (0 + 18446744073709551615) % 18446744073709551616 := by
  decide

/-- C15, amended: for every operand byte naming a register `r` of the enumeration, `v` being
the content of `r` once the operand byte has been fetched, `handle_inc_reg` and
`handle_dec_reg` return with ZERO_FLAG, SIGN_FLAG and REMAINDER_FLAG computed from the new
value `v1 = (v + 1) mod 2^64`, respectively `v1 = (v - 1) mod 2^64`: ZERO_FLAG is 1
exactly when `v1 = 0`, SIGN_FLAG is 1 exactly when bit 63 of `v1` is set, REMAINDER_FLAG is
0; and the target `r` holds `v1` whenever `r` is none of the three flag registers. -/
theorem inc_dec_register (s : Processor) (r : Registers)
    (hpc : s.registers .PROGRAM_COUNTER < s.memory.size)
    (hr : operandAt s 0 = r.toByte) :
    (∃ s1, handle_inc_reg s = .ok () s1 ∧
      s1.registers .ZERO_FLAG
        = (if ((advance s 1).registers r + 1) % 18446744073709551616 = 0 then 1 else 0) ∧
      s1.registers .SIGN_FLAG
        = (if 9223372036854775808 ≤ ((advance s 1).registers r + 1) % 18446744073709551616
            then 1 else 0) ∧
      s1.registers .REMAINDER_FLAG = 0 ∧
      (r ≠ .ZERO_FLAG ∧ r ≠ .SIGN_FLAG ∧ r ≠ .REMAINDER_FLAG →
        s1.registers r = ((advance s 1).registers r + 1) % 18446744073709551616)) ∧
    (∃ s1, handle_dec_reg s = .ok () s1 ∧
      s1.registers .ZERO_FLAG
        = (if ((advance s 1).registers r + 18446744073709551615) % 18446744073709551616 = 0
            then 1 else 0) ∧
      s1.registers .SIGN_FLAG
        = (if 9223372036854775808
              ≤ ((advance s 1).registers r + 18446744073709551615) % 18446744073709551616
            then 1 else 0) ∧
      s1.registers .REMAINDER_FLAG = 0 ∧
      (r ≠ .ZERO_FLAG ∧ r ≠ .SIGN_FLAG ∧ r ≠ .REMAINDER_FLAG →
        s1.registers r
          = ((advance s 1).registers r + 18446744073709551615) % 18446744073709551616)) := by
  have hinc : wrap64 (((advance s 1).registers r : Int) + 1)
      = ((advance s 1).registers r + 1) % 18446744073709551616 := by
    unfold wrap64
    omega
  have hdec : wrap64 (((advance s 1).registers r : Int) - 1)
      = ((advance s 1).registers r + 18446744073709551615) % 18446744073709551616 := by
    unfold wrap64
    omega
  refine ⟨⟨_, handle_inc_reg_eq s r hpc hr, ?_⟩, ⟨_, handle_dec_reg_eq s r hpc hr, ?_⟩⟩
  · rw [hinc]
    exact afterArithmetic_target (advance s 1) r _ (Nat.mod_lt _ (by norm_num))
  · rw [hdec]
    exact afterArithmetic_target (advance s 1) r _ (Nat.mod_lt _ (by norm_num))

/-- C15, amended, at `registerTargetState` (target A holding `2^64 - 1`): the increment wraps
to 0 with ZERO_FLAG = 1, the decrement gives `2^64 - 2` with SIGN_FLAG = 1. -/
theorem inc_dec_register_witness :
    (∃ s1, handle_inc_reg registerTargetState = .ok () s1 ∧
      s1.registers .A = 0 ∧ s1.registers .ZERO_FLAG = 1 ∧ s1.registers .SIGN_FLAG = 0 ∧
      s1.registers .REMAINDER_FLAG = 0) ∧
    (∃ s1, handle_dec_reg registerTargetState = .ok () s1 ∧
      s1.registers .A = 18446744073709551614 ∧ s1.registers .ZERO_FLAG = 0 ∧
      s1.registers .SIGN_FLAG = 1 ∧ s1.registers .REMAINDER_FLAG = 0) := by
  obtain ⟨⟨s1, e1, z1, g1, m1, t1⟩, ⟨s2, e2, z2, g2, m2, t2⟩⟩ :=
    inc_dec_register registerTargetState .A (by decide) (by decide)
  refine ⟨⟨s1, e1, ?_, ?_, ?_, m1⟩, ⟨s2, e2, ?_, ?_, ?_, m2⟩⟩
  · rw [t1 (by decide)]; decide
  · rw [z1]; decide
  · rw [g1]; decide
  · rw [t2 (by decide)]; decide
  · rw [z2]; decide
  · rw [g2]; decide

/-! ## The fetch functions (C16) -/

theorem nextByteCode_state (s : Processor) : (nextByteCode s).state = advance s 1 := by
  by_cases h : s.registers .PROGRAM_COUNTER < s.memory.size
  · rw [nextByteCode_ok s h]; rfl
  · rw [nextByteCode_fault s h]; rfl

theorem nextByteCodes_state (s : Processor) (n : Nat) :
    (nextByteCodes n s).state = advance s n := by
  by_cases h : s.registers .PROGRAM_COUNTER + n ≤ s.memory.size
  · rw [nextByteCodes_ok s n h]; rfl
  · rw [nextByteCodes_fault s n h]; rfl

/-- C16, as stated, fails outside the memory.  At `fetchAtWrapState` PROGRAM_COUNTER holds
`2^64 - 1` and both fetches leave it wrapped around (0, and 3 for a size of 4), not at
`old + 1` and `old + 4`.  At `fetchAtEndState` PROGRAM_COUNTER holds 16, the capacity:
both fetches end with `MemoryFault`, returning nothing, PROGRAM_COUNTER having moved to 17
and to 20 all the same. -/
theorem fetch_outside_memory :
    fetchAtWrapState.registers .PROGRAM_COUNTER = 18446744073709551615 ∧
    (nextByteCode fetchAtWrapState).state.registers .PROGRAM_COUNTER = 0 ∧
    (nextByteCode fetchAtWrapState).state.registers .PROGRAM_COUNTER
      ≠ fetchAtWrapState.registers .PROGRAM_COUNTER + 1 ∧
    (nextByteCodes 4 fetchAtWrapState).state.registers .PROGRAM_COUNTER = 3 ∧
    (nextByteCodes 4 fetchAtWrapState).state.registers .PROGRAM_COUNTER
      ≠ fetchAtWrapState.registers .PROGRAM_COUNTER + 4 ∧
    fetchAtEndState.registers .PROGRAM_COUNTER = fetchAtEndState.memory.size ∧
    (nextByteCode fetchAtEndState).result = none ∧
    (nextByteCode fetchAtEndState).faultKind = some .MemoryFault ∧
    (nextByteCode fetchAtEndState).state.registers .PROGRAM_COUNTER = 17 ∧
    (nextByteCodes 4 fetchAtEndState).result = none ∧
    (nextByteCodes 4 fetchAtEndState).faultKind = some .MemoryFault ∧
    (nextByteCodes 4 fetchAtEndState).state.registers .PROGRAM_COUNTER = 20 := by
  decide

/-- C16, amended: in every state and whichever way the call ends, `nextByteCode()` and
`nextByteCode(size)` change no memory cell and no register other than PROGRAM_COUNTER,
which they move forward by 1, respectively by `size` (modulo `2^64`).  When the bytes to
fetch lie inside the memory (whose capacity is a `size_t`), `nextByteCode()` returns the
byte stored at the old PROGRAM_COUNTER and leaves PROGRAM_COUNTER at `old + 1`, and
`nextByteCode(size)` returns the pointer to the `size` contiguous bytes starting at the old
PROGRAM_COUNTER and leaves PROGRAM_COUNTER at `old + size`. -/
theorem fetch_moves_program_counter (s : Processor) (size : Nat) :
    ((nextByteCode s).state.memory = s.memory ∧
      (∀ r, r ≠ .PROGRAM_COUNTER → (nextByteCode s).state.registers r = s.registers r) ∧
      (nextByteCode s).state.registers .PROGRAM_COUNTER
        = (s.registers .PROGRAM_COUNTER + 1) % 18446744073709551616) ∧
    ((nextByteCodes size s).state.memory = s.memory ∧
      (∀ r, r ≠ .PROGRAM_COUNTER → (nextByteCodes size s).state.registers r = s.registers r) ∧
      (nextByteCodes size s).state.registers .PROGRAM_COUNTER
        = (s.registers .PROGRAM_COUNTER + size) % 18446744073709551616) ∧
    (s.memory.size < 18446744073709551616 →
      s.registers .PROGRAM_COUNTER < s.memory.size →
      ∃ s1, nextByteCode s = .ok (s.memory.byteAt (s.registers .PROGRAM_COUNTER)) s1 ∧
        s1.registers .PROGRAM_COUNTER = s.registers .PROGRAM_COUNTER + 1 ∧
        (∀ r, r ≠ .PROGRAM_COUNTER → s1.registers r = s.registers r) ∧
        s1.memory = s.memory) ∧
    (s.memory.size < 18446744073709551616 →
      s.registers .PROGRAM_COUNTER + size ≤ s.memory.size →
      ∃ s1, nextByteCodes size s = .ok (s.registers .PROGRAM_COUNTER) s1 ∧
        s1.memory.view (s.registers .PROGRAM_COUNTER) size
          = s.memory.view (s.registers .PROGRAM_COUNTER) size ∧
        s1.registers .PROGRAM_COUNTER = s.registers .PROGRAM_COUNTER + size ∧
        (∀ r, r ≠ .PROGRAM_COUNTER → s1.registers r = s.registers r) ∧
        s1.memory = s.memory) := by
  refine ⟨?_, ?_, ?_, ?_⟩
  · rw [nextByteCode_state]
    exact ⟨rfl, fun r hr => advance_other s 1 r hr, by rw [advance_pc]; exact wrap64_add _ 1⟩
  · rw [nextByteCodes_state]
    exact ⟨rfl, fun r hr => advance_other s size r hr,
      by rw [advance_pc]; exact wrap64_add _ size⟩
  · intro hcap hpc
    refine ⟨advance s 1, ?_, ?_, fun r hr => advance_other s 1 r hr, rfl⟩
    · rw [nextByteCode_ok s hpc]
      simp only [operandAt, Nat.add_zero]
    · rw [advance_pc, wrap64_add]
      omega
  · intro hcap hpc
    refine ⟨advance s size, nextByteCodes_ok s size hpc, rfl, ?_,
      fun r hr => advance_other s size r hr, rfl⟩
    rw [advance_pc, wrap64_add]
    omega

/-- C16, amended, at `fetchState` (PROGRAM_COUNTER = 3, the byte at address `a` being `a + 10`): the
fetch of one byte returns 13 and leaves PROGRAM_COUNTER at 4; the fetch of 4 bytes returns
the pointer 3 to the bytes 13, 14, 15, 16 and leaves PROGRAM_COUNTER at 7. -/
theorem fetch_moves_program_counter_witness :
    (∃ s1, nextByteCode fetchState = .ok 13 s1 ∧ s1.registers .PROGRAM_COUNTER = 4 ∧
      s1.memory = fetchState.memory) ∧
    (∃ s1, nextByteCodes 4 fetchState = .ok 3 s1 ∧
      s1.memory.view 3 4 = [13, 14, 15, 16] ∧ s1.registers .PROGRAM_COUNTER = 7 ∧
      s1.memory = fetchState.memory) := by
  obtain ⟨_, _, h3, h4⟩ := fetch_moves_program_counter fetchState 4
  obtain ⟨s1, e1, p1, _, m1⟩ := h3 (by decide) (by decide)
  obtain ⟨s2, e2, v2, p2, _, m2⟩ := h4 (by decide) (by decide)
  exact ⟨⟨s1, e1, p1, m1⟩, ⟨s2, e2, v2.trans (by decide), p2, m2⟩⟩

/-! ## Move between registers (C17) -/

theorem handle_move_reg_reg_eq (s : Processor) (r1 r2 : Registers)
    (hcap : s.memory.size < 18446744073709551616)
    (hpc : s.registers .PROGRAM_COUNTER + 2 ≤ s.memory.size)
    (hr1 : operandAt s 0 = r1.toByte) (hr2 : operandAt s 1 = r2.toByte) :
    handle_move_reg_reg s = .ok ()
      { advance s 2 with registers := fun x =>
          if x = r1 then (advance s 2).registers r2 else (advance s 2).registers x } := by
  have h0 : s.registers .PROGRAM_COUNTER < s.memory.size := by omega
  have h1 : s.registers .PROGRAM_COUNTER + 1 < s.memory.size := by omega
  simp only [handle_move_reg_reg, bind, Exec.bind, nextByteCode_ok s h0,
    nextByteCode_advance s 1 hcap h1, hr1, hr2, ofByte_toByte, getRegisterAt, setRegisterAt,
    getRegister, setRegister]

/-- C17, as stated, fails for three kinds of pairs.  With destination ZERO_FLAG and source
A = 5, ZERO_FLAG is 5 afterwards although it was 0.  With destination PROGRAM_COUNTER and
source A = 9, PROGRAM_COUNTER is 9 afterwards, not the address 2 behind the two operand
bytes.  With destination A and source PROGRAM_COUNTER, which held 0 when the handler was
entered, A is 2 afterwards. -/
theorem move_reg_reg_special_registers :
    (Registers.ofByte (operandAt moveIntoFlagState 0) = some .ZERO_FLAG ∧
      Registers.ofByte (operandAt moveIntoFlagState 1) = some .A ∧
      moveIntoFlagState.registers .ZERO_FLAG = 0 ∧
      (handle_move_reg_reg moveIntoFlagState).isOk = true ∧
      (handle_move_reg_reg moveIntoFlagState).state.registers .ZERO_FLAG = 5) ∧
    (Registers.ofByte (operandAt moveIntoProgramCounterState 0) = some .PROGRAM_COUNTER ∧
      Registers.ofByte (operandAt moveIntoProgramCounterState 1) = some .A ∧
      moveIntoProgramCounterState.registers .PROGRAM_COUNTER = 0 ∧
      (handle_move_reg_reg moveIntoProgramCounterState).isOk = true ∧
      (handle_move_reg_reg moveIntoProgramCounterState).state.registers .PROGRAM_COUNTER
        = 9) ∧
    (Registers.ofByte (operandAt moveFromProgramCounterState 0) = some .A ∧
      Registers.ofByte (operandAt moveFromProgramCounterState 1) = some .PROGRAM_COUNTER ∧
      moveFromProgramCounterState.registers .PROGRAM_COUNTER = 0 ∧
      (handle_move_reg_reg moveFromProgramCounterState).isOk = true ∧
      (handle_move_reg_reg moveFromProgramCounterState).state.registers .A = 2) := by
  decide

/-- C17, amended: for every pair of operand bytes naming registers `reg1` and `reg2`, fetched
inside the memory, `handle_move_reg_reg` moves PROGRAM_COUNTER forward by the two operand
bytes and then copies into `reg1` the full value `reg2` holds at that point; the memory and
every register other than `reg1` are left as the two fetches left them.  Hence `reg1` holds
the value `reg2` held before when `reg2` is not PROGRAM_COUNTER, PROGRAM_COUNTER has
advanced by two when `reg1` is not PROGRAM_COUNTER, and ZERO_FLAG, SIGN_FLAG and
REMAINDER_FLAG are unaffected when `reg1` is none of them. -/
theorem move_reg_reg_copies (s : Processor) (r1 r2 : Registers)
    (hcap : s.memory.size < 18446744073709551616)
    (hpc : s.registers .PROGRAM_COUNTER + 2 ≤ s.memory.size)
    (hr1 : operandAt s 0 = r1.toByte) (hr2 : operandAt s 1 = r2.toByte) :
    ∃ s1, handle_move_reg_reg s = .ok () s1 ∧
      s1.memory = s.memory ∧
      s1.registers r1 = (advance s 2).registers r2 ∧
      (∀ x, x ≠ r1 → s1.registers x = (advance s 2).registers x) ∧
      (r2 ≠ .PROGRAM_COUNTER → s1.registers r1 = s.registers r2) ∧
      (r1 ≠ .PROGRAM_COUNTER →
        s1.registers .PROGRAM_COUNTER = s.registers .PROGRAM_COUNTER + 2) ∧
      (r1 ≠ .ZERO_FLAG → s1.registers .ZERO_FLAG = s.registers .ZERO_FLAG) ∧
      (r1 ≠ .SIGN_FLAG → s1.registers .SIGN_FLAG = s.registers .SIGN_FLAG) ∧
      (r1 ≠ .REMAINDER_FLAG → s1.registers .REMAINDER_FLAG = s.registers .REMAINDER_FLAG) := by
  have hpc2 : (advance s 2).registers .PROGRAM_COUNTER = s.registers .PROGRAM_COUNTER + 2 := by
    rw [advance_pc, wrap64_add]
    omega
  refine ⟨_, handle_move_reg_reg_eq s r1 r2 hcap hpc hr1 hr2, rfl, ?_, ?_, ?_, ?_, ?_, ?_, ?_⟩
  · simp only [if_true]
  · intro x hx
    simp only [if_neg hx]
  · intro h
    simp only [if_true]
    exact advance_other s 2 r2 h
  · intro h
    simp only [if_neg (Ne.symm h)]
    exact hpc2
  · intro h
    simp only [if_neg (Ne.symm h)]
    exact advance_other s 2 _ (by decide)
  · intro h
    simp only [if_neg (Ne.symm h)]
    exact advance_other s 2 _ (by decide)
  · intro h
    simp only [if_neg (Ne.symm h)]
    exact advance_other s 2 _ (by decide)

/-- C17, amended, at `moveRegisterState` (destination A, source B = `2^64 - 1`): A holds
`2^64 - 1`, PROGRAM_COUNTER is 2, the flags keep their values 1, 1 and 6. -/
theorem move_reg_reg_copies_witness :
    ∃ s1, handle_move_reg_reg moveRegisterState = .ok () s1 ∧
      s1.memory = moveRegisterState.memory ∧
      s1.registers .A = 18446744073709551615 ∧
      s1.registers .PROGRAM_COUNTER = 2 ∧
      s1.registers .ZERO_FLAG = 1 ∧ s1.registers .SIGN_FLAG = 1 ∧
      s1.registers .REMAINDER_FLAG = 6 := by
  obtain ⟨s1, e, m, _, _, v, p, z, g, k⟩ :=
    move_reg_reg_copies moveRegisterState .A .B (by decide) (by decide) (by decide)
      (by decide)
  exact ⟨s1, e, m, v (by decide), p (by decide), z (by decide), g (by decide),
    k (by decide)⟩

/-! ## The volatile register (C18) -/

theorem clearVolatileRegisters_eq (s : Processor) :
    clearVolatileRegisters s = .ok ()
      { s with registers := fun r => if r = .EXIT then 0 else s.registers r } := rfl

theorem bind_clearVolatileRegisters_exit {α : Type} (m : Exec α) (s s1 : Processor)
    (h : (m >>= fun _ => clearVolatileRegisters) s = .ok () s1) :
    s1.registers .EXIT = 0 := by
  simp only [Bind.bind, Exec.bind] at h
  cases hm : m s with
  | ok a s2 =>
    rw [hm] at h
    simp only [clearVolatileRegisters_eq] at h
    injection h with _ hs
    subst hs
    simp
  | fault k s2 => rw [hm] at h; cases h
  | undefined s2 => rw [hm] at h; cases h

theorem runIteration_exit (table : HandlerTable) (s s1 : Processor)
    (h : runIteration table s = .ok () s1) : s1.registers .EXIT = 0 := by
  have e : runIteration table
      = ((nextByteCode >>= fun opCode => dispatch table opCode) >>= fun _ =>
          clearVolatileRegisters) := by
    funext s0
    simp only [runIteration, Bind.bind, Exec.bind]
    cases nextByteCode s0 <;> rfl
  rw [e] at h
  exact bind_clearVolatileRegisters_exit _ s s1 h

/-- C18: `clearVolatileRegisters` returns with EXIT at 0, every other register and the
memory unchanged; and for every handler table and every state, when an iteration of the
loop of `run` (fetch, dispatch, `clearVolatileRegisters`) completes without fault, EXIT is 0
afterwards, whatever the instruction did to it. -/
theorem exit_cleared_each_iteration (table : HandlerTable) (s : Processor) :
    (∃ s1, clearVolatileRegisters s = .ok () s1 ∧
      s1.registers .EXIT = 0 ∧
      (∀ r, r ≠ .EXIT → s1.registers r = s.registers r) ∧
      s1.memory = s.memory ∧ s1.running = s.running) ∧
    (∀ s1, runIteration table s = .ok () s1 → s1.registers .EXIT = 0) := by
  refine ⟨⟨_, clearVolatileRegisters_eq s, ?_, ?_, rfl, rfl⟩,
    fun s1 h => runIteration_exit table s s1 h⟩
  · simp
  · intro r hr
    simp [hr]

/-- C18, at `moveIntoExitState` with the example table: the handler of the instruction
leaves 9 in EXIT, and the iteration that executes it completes with EXIT at 0. -/
theorem exit_cleared_each_iteration_witness :
    (handle_move_reg_const (advance moveIntoExitState 1)).state.registers .EXIT = 9 ∧
    (runIteration exampleTable moveIntoExitState).isOk = true ∧
    (runIteration exampleTable moveIntoExitState).state.registers .EXIT = 0 :=
  ⟨by decide, by decide,
    (exit_cleared_each_iteration exampleTable moveIntoExitState).2
      (runIteration exampleTable moveIntoExitState).state rfl⟩

/-! ## Register operands and the register file (C19) -/

theorem ofByte_none (b : Nat) (h : 8 ≤ b) : Registers.ofByte b = none := by
  obtain ⟨k, rfl⟩ : ∃ k, b = k + 8 := ⟨b - 8, by omega⟩
  rfl

theorem ofByte_some (b : Nat) (h : b < 8) :
    ∃ r, Registers.ofByte b = some r ∧ r.toByte = b := by
  interval_cases b <;> exact ⟨_, rfl, rfl⟩

theorem handle_inc_reg_outside (s : Processor)
    (hpc : s.registers .PROGRAM_COUNTER < s.memory.size) (hb : 8 ≤ operandAt s 0) :
    handle_inc_reg s = .undefined (advance s 1) := by
  simp only [handle_inc_reg, bind, Exec.bind, nextByteCode_ok s hpc, ofByte_none _ hb,
    getRegisterAt, undefinedBehaviour]

theorem handle_dec_reg_outside (s : Processor)
    (hpc : s.registers .PROGRAM_COUNTER < s.memory.size) (hb : 8 ≤ operandAt s 0) :
    handle_dec_reg s = .undefined (advance s 1) := by
  simp only [handle_dec_reg, bind, Exec.bind, nextByteCode_ok s hpc, ofByte_none _ hb,
    getRegisterAt, undefinedBehaviour]

theorem moveBytesIntoRegister_outside (s : Processor) (p w : Nat)
    (hw : w = 1 ∨ w = 2 ∨ w = 4 ∨ w = 8) :
    moveBytesIntoRegister p w none s = .undefined s := by
  rcases hw with h | h | h | h <;> subst h <;>
    simp [moveBytesIntoRegister, bind, Exec.bind, derefUint, setRegisterAt, undefinedBehaviour]

theorem handle_move_reg_reg_outside (s : Processor)
    (hcap : s.memory.size < 18446744073709551616)
    (hpc : s.registers .PROGRAM_COUNTER + 2 ≤ s.memory.size)
    (hb : 8 ≤ operandAt s 0 ∨ 8 ≤ operandAt s 1) :
    handle_move_reg_reg s = .undefined (advance s 2) := by
  have h0 : s.registers .PROGRAM_COUNTER < s.memory.size := by omega
  have h1 : s.registers .PROGRAM_COUNTER + 1 < s.memory.size := by omega
  by_cases h2 : 8 ≤ operandAt s 1
  · simp only [handle_move_reg_reg, bind, Exec.bind, nextByteCode_ok s h0,
      nextByteCode_advance s 1 hcap h1, ofByte_none _ h2, getRegisterAt, undefinedBehaviour]
  · obtain ⟨r2, e2, _⟩ := ofByte_some (operandAt s 1) (by omega)
    have h3 : 8 ≤ operandAt s 0 := by omega
    simp only [handle_move_reg_reg, bind, Exec.bind, nextByteCode_ok s h0,
      nextByteCode_advance s 1 hcap h1, e2, ofByte_none _ h3, getRegisterAt, getRegister,
      setRegisterAt, undefinedBehaviour]

theorem handle_inc_addr_in_reg_outside (s : Processor)
    (hcap : s.memory.size < 18446744073709551616)
    (hpc : s.registers .PROGRAM_COUNTER + 2 ≤ s.memory.size)
    (hb : 8 ≤ operandAt s 1) :
    handle_inc_addr_in_reg s = .undefined (advance s 2) := by
  have h0 : s.registers .PROGRAM_COUNTER < s.memory.size := by omega
  have h1 : s.registers .PROGRAM_COUNTER + 1 < s.memory.size := by omega
  simp only [handle_inc_addr_in_reg, bind, Exec.bind, nextByteCode_ok s h0,
    nextByteCode_advance s 1 hcap h1, ofByte_none _ hb, getRegisterAt, undefinedBehaviour]

theorem handle_dec_addr_in_reg_outside (s : Processor)
    (hcap : s.memory.size < 18446744073709551616)
    (hpc : s.registers .PROGRAM_COUNTER + 2 ≤ s.memory.size)
    (hb : 8 ≤ operandAt s 1) :
    handle_dec_addr_in_reg s = .undefined (advance s 2) := by
  have h0 : s.registers .PROGRAM_COUNTER < s.memory.size := by omega
  have h1 : s.registers .PROGRAM_COUNTER + 1 < s.memory.size := by omega
  simp only [handle_dec_addr_in_reg, bind, Exec.bind, nextByteCode_ok s h0,
    nextByteCode_advance s 1 hcap h1, ofByte_none _ hb, getRegisterAt, undefinedBehaviour]

theorem handle_move_reg_addr_in_reg_outside_source (s : Processor)
    (hcap : s.memory.size < 18446744073709551616)
    (hpc : s.registers .PROGRAM_COUNTER + 3 ≤ s.memory.size)
    (hb : 8 ≤ operandAt s 2) :
    handle_move_reg_addr_in_reg s = .undefined (advance s 3) := by
  have h0 : s.registers .PROGRAM_COUNTER < s.memory.size := by omega
  have h1 : s.registers .PROGRAM_COUNTER + 1 < s.memory.size := by omega
  have h2 : s.registers .PROGRAM_COUNTER + 2 < s.memory.size := by omega
  simp only [handle_move_reg_addr_in_reg, bind, Exec.bind, nextByteCode_ok s h0,
    nextByteCode_advance s 1 hcap h1, nextByteCode_advance s 2 hcap h2, ofByte_none _ hb,
    getRegisterAt, undefinedBehaviour]

theorem handle_move_addr_in_reg_reg_outside (s : Processor)
    (hcap : s.memory.size < 18446744073709551616)
    (hpc : s.registers .PROGRAM_COUNTER + 3 ≤ s.memory.size)
    (hb : 8 ≤ operandAt s 1) :
    handle_move_addr_in_reg_reg s = .undefined (advance s 3) := by
  have h0 : s.registers .PROGRAM_COUNTER < s.memory.size := by omega
  have h1 : s.registers .PROGRAM_COUNTER + 1 < s.memory.size := by omega
  have h2 : s.registers .PROGRAM_COUNTER + 2 < s.memory.size := by omega
  simp only [handle_move_addr_in_reg_reg, bind, Exec.bind, nextByteCode_ok s h0,
    nextByteCode_advance s 1 hcap h1, nextByteCode_advance s 2 hcap h2, ofByte_none _ hb,
    getRegisterAt, undefinedBehaviour]

/-- The decoding of `handle_move_reg_const` for any byte in the place of the register. -/
theorem handle_move_reg_const_decode (s : Processor)
    (hcap : s.memory.size < 18446744073709551616)
    (hpc : s.registers .PROGRAM_COUNTER + 2 + operandAt s 0 ≤ s.memory.size) :
    handle_move_reg_const s
      = moveBytesIntoRegister (s.registers .PROGRAM_COUNTER + 2) (operandAt s 0)
          (Registers.ofByte (operandAt s 1)) (advance s (2 + operandAt s 0)) := by
  have h0 : s.registers .PROGRAM_COUNTER < s.memory.size := by omega
  have h1 : s.registers .PROGRAM_COUNTER + 1 < s.memory.size := by omega
  simp only [handle_move_reg_const, bind, Exec.bind, nextByteCode_ok s h0,
    nextByteCode_advance s 1 hcap h1, nextByteCodes_advance s 2 _ hcap hpc]

/-- The decoding of `handle_move_reg_addr_in_reg` for any byte in the place of the
destination register and any function in the place of `Memory::getBytesMutable`. -/
theorem handle_move_reg_addr_in_reg_over_decode (g : Memory → Nat → Except Fault Nat)
    (s : Processor) (r2 : Registers)
    (hcap : s.memory.size < 18446744073709551616)
    (hpc : s.registers .PROGRAM_COUNTER + 3 ≤ s.memory.size)
    (hr2 : operandAt s 2 = r2.toByte) :
    handle_move_reg_addr_in_reg_over g s
      = (readMemory (fun m => g m ((advance s 3).registers r2))
          >>= fun p => moveBytesIntoRegister p (operandAt s 0)
            (Registers.ofByte (operandAt s 1))) (advance s 3) := by
  have h0 : s.registers .PROGRAM_COUNTER < s.memory.size := by omega
  have h1 : s.registers .PROGRAM_COUNTER + 1 < s.memory.size := by omega
  have h2 : s.registers .PROGRAM_COUNTER + 2 < s.memory.size := by omega
  simp only [handle_move_reg_addr_in_reg_over, bind, Exec.bind, nextByteCode_ok s h0,
    nextByteCode_advance s 1 hcap h1, nextByteCode_advance s 2 hcap h2, hr2,
    ofByte_toByte, getRegisterAt, getRegister]

/-- The decoding of `handle_move_reg_addr_literal` for any byte in the place of the
destination register and any function in the place of `Memory::getBytesMutable`. -/
theorem handle_move_reg_addr_literal_over_decode (g : Memory → Nat → Except Fault Nat)
    (s : Processor)
    (hcap : s.memory.size < 18446744073709551616)
    (hpc : s.registers .PROGRAM_COUNTER + 10 ≤ s.memory.size) :
    handle_move_reg_addr_literal_over g s
      = (readMemory (fun m => g m (s.memory.readUint (s.registers .PROGRAM_COUNTER + 2) 8))
          >>= fun p => moveBytesIntoRegister p (operandAt s 0)
            (Registers.ofByte (operandAt s 1))) (advance s 10) := by
  have h0 : s.registers .PROGRAM_COUNTER < s.memory.size := by omega
  have h1 : s.registers .PROGRAM_COUNTER + 1 < s.memory.size := by omega
  have h2 : s.registers .PROGRAM_COUNTER + 2 + 8 ≤ s.memory.size := by omega
  simp only [handle_move_reg_addr_literal_over, bind, Exec.bind, nextByteCode_ok s h0,
    nextByteCode_advance s 1 hcap h1, nextByteCodes_advance s 2 8 hcap h2,
    derefUint, advance_memory]

/-- The decoding of `handle_move_addr_in_reg_reg` for any byte in the place of its second
register and any function in the place of `Memory::getBytesMutable`: the second register
is decoded and never used. -/
theorem handle_move_addr_in_reg_reg_over_decode (g : Memory → Nat → Except Fault Nat)
    (s : Processor) (r1 : Registers)
    (hcap : s.memory.size < 18446744073709551616)
    (hpc : s.registers .PROGRAM_COUNTER + 3 ≤ s.memory.size)
    (hr1 : operandAt s 1 = r1.toByte) :
    handle_move_addr_in_reg_reg_over g s
      = (readMemory (fun m => g m ((advance s 3).registers r1))
          >>= fun _ => Exec.pure ()) (advance s 3) := by
  have h0 : s.registers .PROGRAM_COUNTER < s.memory.size := by omega
  have h1 : s.registers .PROGRAM_COUNTER + 1 < s.memory.size := by omega
  have h2 : s.registers .PROGRAM_COUNTER + 2 < s.memory.size := by omega
  simp only [handle_move_addr_in_reg_reg_over, bind, Exec.bind, nextByteCode_ok s h0,
    nextByteCode_advance s 1 hcap h1, nextByteCode_advance s 2 hcap h2, hr1,
    ofByte_toByte, getRegisterAt, getRegister]

/-- C19, as stated, fails for the operand byte 200, the code of no register: at
`outsideRegisterState` it is the first operand, and `handle_inc_reg`, `handle_dec_reg` and
`handle_move_reg_reg` index the register array with it, unchecked, outside the array; at
`outsideSecondOperandState` it follows a width byte, and `handle_move_reg_const` and
`handle_inc_addr_in_reg` do the same. -/
theorem register_operand_unchecked :
    operandAt outsideRegisterState 0 = 200 ∧
    operandAt outsideSecondOperandState 1 = 200 ∧
    Registers.ofByte 200 = none ∧
    (handle_inc_reg outsideRegisterState).isUndefined = true ∧
    (handle_dec_reg outsideRegisterState).isUndefined = true ∧
    (handle_move_reg_reg outsideRegisterState).isUndefined = true ∧
    (handle_move_reg_const outsideSecondOperandState).isUndefined = true ∧
    (handle_inc_addr_in_reg outsideSecondOperandState).isUndefined = true := by
  decide

/-- C19, amended: an operand byte below 8, the number of register identifiers, is the code
of a register of the enumeration, and `getRegister` reached with it indexes the slot of that
register; a byte from 8 on is the code of no register, no handler checks it, and
`getRegister` reached with it indexes outside the register array.  For operand bytes
fetched inside the memory, that access is reached
(1) by `handle_inc_reg` and `handle_dec_reg` for their operand;
(2) by `handle_move_reg_reg` for either operand;
(3) by `handle_inc_addr_in_reg`, `handle_dec_addr_in_reg` and `handle_move_addr_in_reg_reg`
for the register that holds the address, and by `handle_move_reg_addr_in_reg` for its
address register;
(4) by `handle_move_reg_const`, `handle_move_reg_addr_in_reg` and
`handle_move_reg_addr_literal` for the destination exactly when the width is one of 1, 2,
4, 8 and, for the two loads from memory, `Memory::getBytesMutable` has returned a pointer:
a fault of that call ends the handler with that fault, and any other width ends it with
`InvalidOperandSize`, the destination byte not having been used.
(5) The second register operand of `handle_move_addr_in_reg_reg` is never used: whatever
that byte is, the handler returns when `Memory::getBytesMutable` returns a pointer, and
ends with the fault of that call otherwise.
Parts (4) and (5) hold for every function in the place of `Memory::getBytesMutable`. -/
theorem register_operand_in_file
    (getBytesMutable : Memory → Nat → Except Fault Nat) (s : Processor)
    (hcap : s.memory.size < 18446744073709551616) :
    (∀ b v, b < 8 →
      ∃ r, Registers.ofByte b = some r ∧ r.toByte = b ∧
        getRegisterAt (Registers.ofByte b) s = .ok (s.registers r) s ∧
        (setRegisterAt (Registers.ofByte b) v s).isOk = true) ∧
    (∀ b v, 8 ≤ b →
      Registers.ofByte b = none ∧
      getRegisterAt (Registers.ofByte b) s = .undefined s ∧
      setRegisterAt (Registers.ofByte b) v s = .undefined s) ∧
    (s.registers .PROGRAM_COUNTER < s.memory.size → 8 ≤ operandAt s 0 →
      handle_inc_reg s = .undefined (advance s 1) ∧
      handle_dec_reg s = .undefined (advance s 1)) ∧
    (s.registers .PROGRAM_COUNTER + 2 ≤ s.memory.size →
      8 ≤ operandAt s 0 ∨ 8 ≤ operandAt s 1 →
      handle_move_reg_reg s = .undefined (advance s 2)) ∧
    (s.registers .PROGRAM_COUNTER + 2 ≤ s.memory.size → 8 ≤ operandAt s 1 →
      handle_inc_addr_in_reg s = .undefined (advance s 2) ∧
      handle_dec_addr_in_reg s = .undefined (advance s 2)) ∧
    (s.registers .PROGRAM_COUNTER + 3 ≤ s.memory.size → 8 ≤ operandAt s 1 →
      handle_move_addr_in_reg_reg s = .undefined (advance s 3)) ∧
    (s.registers .PROGRAM_COUNTER + 3 ≤ s.memory.size → 8 ≤ operandAt s 2 →
      handle_move_reg_addr_in_reg s = .undefined (advance s 3)) ∧
    (s.registers .PROGRAM_COUNTER + 2 + operandAt s 0 ≤ s.memory.size →
      8 ≤ operandAt s 1 →
      (operandAt s 0 = 1 ∨ operandAt s 0 = 2 ∨ operandAt s 0 = 4 ∨ operandAt s 0 = 8 →
        handle_move_reg_const s = .undefined (advance s (2 + operandAt s 0))) ∧
      (operandAt s 0 ≠ 1 ∧ operandAt s 0 ≠ 2 ∧ operandAt s 0 ≠ 4 ∧ operandAt s 0 ≠ 8 →
        handle_move_reg_const s
          = .fault .InvalidOperandSize (advance s (2 + operandAt s 0)))) ∧
    (∀ r2 : Registers, s.registers .PROGRAM_COUNTER + 3 ≤ s.memory.size →
      8 ≤ operandAt s 1 → operandAt s 2 = r2.toByte →
      (∀ k, getBytesMutable s.memory ((advance s 3).registers r2) = .error k →
        handle_move_reg_addr_in_reg_over getBytesMutable s = .fault k (advance s 3)) ∧
      (∀ p, getBytesMutable s.memory ((advance s 3).registers r2) = .ok p →
        (operandAt s 0 = 1 ∨ operandAt s 0 = 2 ∨ operandAt s 0 = 4 ∨ operandAt s 0 = 8 →
          handle_move_reg_addr_in_reg_over getBytesMutable s = .undefined (advance s 3)) ∧
        (operandAt s 0 ≠ 1 ∧ operandAt s 0 ≠ 2 ∧ operandAt s 0 ≠ 4 ∧ operandAt s 0 ≠ 8 →
          handle_move_reg_addr_in_reg_over getBytesMutable s
            = .fault .InvalidOperandSize (advance s 3)))) ∧
    (s.registers .PROGRAM_COUNTER + 10 ≤ s.memory.size → 8 ≤ operandAt s 1 →
      (∀ k, getBytesMutable s.memory
          (s.memory.readUint (s.registers .PROGRAM_COUNTER + 2) 8) = .error k →
        handle_move_reg_addr_literal_over getBytesMutable s = .fault k (advance s 10)) ∧
      (∀ p, getBytesMutable s.memory
          (s.memory.readUint (s.registers .PROGRAM_COUNTER + 2) 8) = .ok p →
        (operandAt s 0 = 1 ∨ operandAt s 0 = 2 ∨ operandAt s 0 = 4 ∨ operandAt s 0 = 8 →
          handle_move_reg_addr_literal_over getBytesMutable s = .undefined (advance s 10)) ∧
        (operandAt s 0 ≠ 1 ∧ operandAt s 0 ≠ 2 ∧ operandAt s 0 ≠ 4 ∧ operandAt s 0 ≠ 8 →
          handle_move_reg_addr_literal_over getBytesMutable s
            = .fault .InvalidOperandSize (advance s 10)))) ∧
    (∀ r1 : Registers, s.registers .PROGRAM_COUNTER + 3 ≤ s.memory.size →
      operandAt s 1 = r1.toByte →
      (∀ p, getBytesMutable s.memory ((advance s 3).registers r1) = .ok p →
        handle_move_addr_in_reg_reg_over getBytesMutable s = .ok () (advance s 3)) ∧
      (∀ k, getBytesMutable s.memory ((advance s 3).registers r1) = .error k →
        handle_move_addr_in_reg_reg_over getBytesMutable s = .fault k (advance s 3))) := by
  refine ⟨?_, ?_, ?_, ?_, ?_, ?_, ?_, ?_, ?_, ?_, ?_⟩
  · intro b v hb
    obtain ⟨r, h1, h2⟩ := ofByte_some b hb
    exact ⟨r, h1, h2, by rw [h1]; rfl, by rw [h1]; rfl⟩
  · intro b v hb
    have h := ofByte_none b hb
    exact ⟨h, by rw [h]; rfl, by rw [h]; rfl⟩
  · intro hpc hb
    exact ⟨handle_inc_reg_outside s hpc hb, handle_dec_reg_outside s hpc hb⟩
  · intro hpc hb
    exact handle_move_reg_reg_outside s hcap hpc hb
  · intro hpc hb
    exact ⟨handle_inc_addr_in_reg_outside s hcap hpc hb,
      handle_dec_addr_in_reg_outside s hcap hpc hb⟩
  · intro hpc hb
    exact handle_move_addr_in_reg_reg_outside s hcap hpc hb
  · intro hpc hb
    exact handle_move_reg_addr_in_reg_outside_source s hcap hpc hb
  · intro hpc hb
    rw [handle_move_reg_const_decode s hcap hpc, ofByte_none _ hb]
    exact ⟨fun hw => moveBytesIntoRegister_outside _ _ _ hw,
      fun hw => moveBytesIntoRegister_invalid _ _ _ _ hw⟩
  · intro r2 hpc hb hr2
    rw [handle_move_reg_addr_in_reg_over_decode getBytesMutable s r2 hcap hpc hr2,
      ofByte_none _ hb]
    refine ⟨fun k h => pointerRequest_error getBytesMutable _ k _ (advance s 3) h,
      fun p h => ⟨fun hw => ?_, fun hw => ?_⟩⟩
    · rw [pointerRequest_ok getBytesMutable _ p _ (advance s 3) h]
      exact moveBytesIntoRegister_outside _ _ _ hw
    · rw [pointerRequest_ok getBytesMutable _ p _ (advance s 3) h]
      exact moveBytesIntoRegister_invalid _ _ _ _ hw
  · intro hpc hb
    rw [handle_move_reg_addr_literal_over_decode getBytesMutable s hcap hpc,
      ofByte_none _ hb]
    refine ⟨fun k h => pointerRequest_error getBytesMutable _ k _ (advance s 10) h,
      fun p h => ⟨fun hw => ?_, fun hw => ?_⟩⟩
    · rw [pointerRequest_ok getBytesMutable _ p _ (advance s 10) h]
      exact moveBytesIntoRegister_outside _ _ _ hw
    · rw [pointerRequest_ok getBytesMutable _ p _ (advance s 10) h]
      exact moveBytesIntoRegister_invalid _ _ _ _ hw
  · intro r1 hpc hr1
    rw [handle_move_addr_in_reg_reg_over_decode getBytesMutable s r1 hcap hpc hr1]
    exact ⟨fun p h => pointerRequest_ok getBytesMutable _ p _ (advance s 3) h,
      fun k h => pointerRequest_error getBytesMutable _ k _ (advance s 3) h⟩

/-- C19, amended, at concrete inputs with the byte 200 in the place of a register: the byte
3 names STACK_POINTER and its slot is read; `handle_inc_reg`, `handle_dec_reg` and
`handle_move_reg_reg` (operands `200, 0`), the handlers that take the address from a
register (operands `1, 200`, and `1, 0, 200` for the load) and the three moves into a
register of width 1 (operands `1, 200, 0`) reach the access outside the array; the moves
of width 3 (operands `3, 200, 0`) end with `InvalidOperandSize` and the loads from an
address beyond the memory (operands `1, 200, 0, 100`) with `MemoryFault`; the store handler
with operands `1, 0, 200` returns when the address register holds 0, and ends with
`MemoryFault` when it holds 100.  `Memory.getBytesMutable` stands for
`Memory::getBytesMutable`. -/
theorem register_operand_in_file_witness :
    (∃ r, Registers.ofByte 3 = some r ∧ r.toByte = 3 ∧
      getRegisterAt (Registers.ofByte 3) outsideRegisterState
        = .ok (outsideRegisterState.registers r) outsideRegisterState) ∧
    (Registers.ofByte 200 = none ∧
      handle_inc_reg outsideRegisterState = .undefined (advance outsideRegisterState 1) ∧
      handle_dec_reg outsideRegisterState = .undefined (advance outsideRegisterState 1) ∧
      handle_move_reg_reg outsideRegisterState
        = .undefined (advance outsideRegisterState 2)) ∧
    (handle_inc_addr_in_reg outsideSecondOperandState
        = .undefined (advance outsideSecondOperandState 2) ∧
      handle_dec_addr_in_reg outsideSecondOperandState
        = .undefined (advance outsideSecondOperandState 2) ∧
      handle_move_addr_in_reg_reg outsideSecondOperandState
        = .undefined (advance outsideSecondOperandState 3) ∧
      handle_move_reg_addr_in_reg outsideSourceState
        = .undefined (advance outsideSourceState 3)) ∧
    (handle_move_reg_const outsideDestinationState
        = .undefined (advance outsideDestinationState (2 + operandAt outsideDestinationState 0)) ∧
      handle_move_reg_addr_in_reg_over Memory.getBytesMutable outsideDestinationState
        = .undefined (advance outsideDestinationState 3) ∧
      handle_move_reg_addr_literal_over Memory.getBytesMutable outsideDestinationState
        = .undefined (advance outsideDestinationState 10)) ∧
    (handle_move_reg_const outsideDestinationWidthState
        = .fault .InvalidOperandSize
            (advance outsideDestinationWidthState
              (2 + operandAt outsideDestinationWidthState 0)) ∧
      handle_move_reg_addr_in_reg_over Memory.getBytesMutable outsideDestinationWidthState
        = .fault .InvalidOperandSize (advance outsideDestinationWidthState 3) ∧
      handle_move_reg_addr_literal_over Memory.getBytesMutable outsideDestinationWidthState
        = .fault .InvalidOperandSize (advance outsideDestinationWidthState 10)) ∧
    (handle_move_reg_addr_in_reg_over Memory.getBytesMutable outsideDestinationFarState
        = .fault .MemoryFault (advance outsideDestinationFarState 3) ∧
      handle_move_reg_addr_literal_over Memory.getBytesMutable outsideDestinationFarState
        = .fault .MemoryFault (advance outsideDestinationFarState 10) ∧
      handle_move_addr_in_reg_reg_over Memory.getBytesMutable outsideSourceFarState
        = .fault .MemoryFault (advance outsideSourceFarState 3)) ∧
    handle_move_addr_in_reg_reg_over Memory.getBytesMutable outsideSourceState
      = .ok () (advance outsideSourceState 3) := by
  obtain ⟨a1, a2, a3, a4, _, _, _, _, _, _, _⟩ :=
    register_operand_in_file Memory.getBytesMutable outsideRegisterState (by decide)
  obtain ⟨_, _, _, _, b5, b6, _, _, _, _, _⟩ :=
    register_operand_in_file Memory.getBytesMutable outsideSecondOperandState (by decide)
  obtain ⟨_, _, _, _, _, _, c7, _, _, _, c11⟩ :=
    register_operand_in_file Memory.getBytesMutable outsideSourceState (by decide)
  obtain ⟨_, _, _, _, _, _, _, d8, d9, d10, _⟩ :=
    register_operand_in_file Memory.getBytesMutable outsideDestinationState (by decide)
  obtain ⟨_, _, _, _, _, _, _, w8, w9, w10, _⟩ :=
    register_operand_in_file Memory.getBytesMutable outsideDestinationWidthState (by decide)
  obtain ⟨_, _, _, _, _, _, _, _, f9, f10, _⟩ :=
    register_operand_in_file Memory.getBytesMutable outsideDestinationFarState (by decide)
  obtain ⟨_, _, _, _, _, _, _, _, _, _, f11⟩ :=
    register_operand_in_file Memory.getBytesMutable outsideSourceFarState (by decide)
  obtain ⟨r, h1, h2, h3, _⟩ := a1 3 0 (by decide)
  obtain ⟨g1, _, _⟩ := a2 200 0 (by decide)
  obtain ⟨g2, g3⟩ := a3 (by decide) (by decide)
  have g4 := a4 (by decide) (Or.inl (by decide))
  obtain ⟨e1, e2⟩ := b5 (by decide) (by decide)
  have e3 := b6 (by decide) (by decide)
  have e4 := c7 (by decide) (by decide)
  exact ⟨⟨r, h1, h2, h3⟩, ⟨g1, g2, g3, g4⟩, ⟨e1, e2, e3, e4⟩,
    ⟨(d8 (by decide) (by decide)).1 (Or.inl (by decide)),
      ((d9 .A (by decide) (by decide) (by decide)).2 0 rfl).1 (Or.inl (by decide)),
      ((d10 (by decide) (by decide)).2 0 rfl).1 (Or.inl (by decide))⟩,
    ⟨(w8 (by decide) (by decide)).2 (by decide),
      ((w9 .A (by decide) (by decide) (by decide)).2 0 rfl).2 (by decide),
      ((w10 (by decide) (by decide)).2 0 rfl).2 (by decide)⟩,
    ⟨(f9 .A (by decide) (by decide) (by decide)).1 .MemoryFault rfl,
      (f10 (by decide) (by decide)).1 .MemoryFault rfl,
      (f11 .A (by decide) (by decide)).2 .MemoryFault rfl⟩,
    (c11 .A (by decide) (by decide)).1 0 rfl⟩

/-! ## The loop never returns (C20) -/

theorem execute_never_returns (table : HandlerTable) (fuel : Nat) (byteCode : List Nat)
    (size : Nat) (s s1 : Processor) :
    execute table fuel byteCode size s ≠ .returned s1 := by
  unfold execute
  cases pushStackBytes byteCode size s with
  | ok a s2 => exact run_never_returns table fuel _ rfl s1
  | fault k s2 => simp
  | undefined s2 => simp

/-- The loop of `run`, entered with `running` set, is left by a fault or by an undefined
operation, or is still iterating with `running` set when the iterations allowed are used
up. -/
theorem run_ends_abnormally (table : HandlerTable) (fuel : Nat) :
    ∀ s : Processor, s.running = true →
      (∃ k s1, run table fuel s = .fault k s1) ∨
      (∃ s1, run table fuel s = .undefined s1) ∨
      (∃ s1, run table fuel s = .outOfFuel s1 ∧ s1.running = true) := by
  induction fuel with
  | zero =>
    intro s hs
    exact Or.inr (Or.inr ⟨s, by simp [run, hs], hs⟩)
  | succ n ih =>
    intro s hs
    have hk := keepsRunning_runIteration table s
    simp only [run, hs, if_true]
    cases h : runIteration table s with
    | ok a s2 =>
      rw [h] at hk
      exact ih s2 (by rw [← hs]; exact hk)
    | fault k s2 => exact Or.inl ⟨k, s2, rfl⟩
    | undefined s2 => exact Or.inr (Or.inl ⟨s2, rfl⟩)

/-- C20, as stated, fails on two points.  A handler can read EXIT: at `exitSourceState`
the operands of `handle_move_reg_reg` name A as destination and EXIT as source, and A ends
with the value EXIT held (0, respectively 9).  And an execution can end otherwise than by a
fault: at `divideByZeroLoopState` the opcode fetched is DIV with B = 0, and the loop is
left by the unguarded division, with no fault raised and without returning normally. -/
theorem exit_read_and_undefined_end :
    (Registers.ofByte (operandAt (exitSourceState 9) 1) = some .EXIT ∧
      (handle_move_reg_reg (exitSourceState 0)).state.registers .A = 0 ∧
      (handle_move_reg_reg (exitSourceState 9)).state.registers .A = 9) ∧
    (divideByZeroLoopState.running = true ∧
      exampleTable (operandAt divideByZeroLoopState 0) = some .div ∧
      divideByZeroLoopState.registers .B = 0 ∧
      (run exampleTable 1 divideByZeroLoopState).isUndefined = true ∧
      (run exampleTable 1 divideByZeroLoopState).faultKind = none ∧
      (run exampleTable 7 divideByZeroLoopState).isUndefined = true ∧
      (run exampleTable 7 divideByZeroLoopState).faultKind = none) := by
  decide

/-- C20, amended: no instruction handler and no step of the loop body assigns `running`:
whichever way it ends and whatever EXIT holds, a handler or an iteration of the loop leaves
`running` as it found it (EXIT can be read as the source of a move, but its value never
reaches `running`).  So the loop of `run`, entered with `running` set, is never left by a
normal return, for any number of iterations: it is left by a fault or by an operation to
which C++ gives no meaning, or it is still iterating with `running` set; and `execute`,
which sets `running` before entering the loop, never returns normally for any program. -/
theorem running_never_cleared (table : HandlerTable) (s : Processor) :
    (∀ h : Handler, (h.exec s).state.running = s.running) ∧
    (runIteration table s).state.running = s.running ∧
    (∀ v, (runIteration table
        { s with registers := fun r => if r = .EXIT then v else s.registers r }).state.running
      = s.running) ∧
    (s.running = true → ∀ fuel s1, run table fuel s ≠ .returned s1) ∧
    (s.running = true → ∀ fuel,
      (∃ k s1, run table fuel s = .fault k s1) ∨
      (∃ s1, run table fuel s = .undefined s1) ∨
      (∃ s1, run table fuel s = .outOfFuel s1 ∧ s1.running = true)) ∧
    (∀ fuel byteCode size s1, execute table fuel byteCode size s ≠ .returned s1) :=
  ⟨fun h => keepsRunning_exec h s, keepsRunning_runIteration table s,
    fun _ => keepsRunning_runIteration table _,
    fun hs fuel s1 => run_never_returns table fuel s hs s1,
    fun hs fuel => run_ends_abnormally table fuel s hs,
    fun fuel byteCode size s1 => execute_never_returns table fuel byteCode size s s1⟩

/-- C20, amended, at `moveIntoExitState` with the example table: the instruction that writes
9 into EXIT does not stop the loop, which is never left by a normal return; with twenty
iterations allowed it is left by the `MemoryFault` of a fetch behind the end of the
memory. -/
theorem running_never_cleared_witness :
    (∀ fuel s1, run exampleTable fuel moveIntoExitState ≠ .returned s1) ∧
    ((∃ k s1, run exampleTable 20 moveIntoExitState = .fault k s1) ∨
      (∃ s1, run exampleTable 20 moveIntoExitState = .undefined s1) ∨
      (∃ s1, run exampleTable 20 moveIntoExitState = .outOfFuel s1 ∧ s1.running = true)) ∧
    (run exampleTable 1 moveIntoExitState).state.running = true ∧
    (run exampleTable 20 moveIntoExitState).faultKind = some .MemoryFault :=
  ⟨(running_never_cleared exampleTable moveIntoExitState).2.2.2.1 rfl,
    (running_never_cleared exampleTable moveIntoExitState).2.2.2.2.1 rfl 20,
    by decide, by decide⟩

end processor
